import Mathlib

/-!
# AD9361 external band control (`drivers/iio/adc/ad9361_ext_band_ctrl.c`)

A shallow embedding of the module that drives the external filter-bank GPIOs of the
AD9361 transceiver, followed by theorems about it.

Conventions of the embedding.

* C `int` return codes are `Int`; a negative value is an errno.  `u32` and `u64`
  values are `Nat`: the module only compares them, it never does arithmetic on them.
* A pointer to a band setting is a `sett_ptr` (which object it points at); `NULL` is
  `none`.  A table allocated by `devm_kzalloc` is the list of its elements, so an
  allocation of `cnt + 1` elements is a list of that length.
* An access outside an allocated object, or through `NULL`, is undefined behaviour in
  C.  The operations that run after construction (lookup and apply) stop there with a
  `Fault`.  Construction only indexes the objects it has just allocated, within their
  size, and dereferences `ctl->objs.gpios` only after `ad9361_populate_objs` has set
  it.
* The line driver and the device tree are collaborators of the module: the driver is
  represented by the return code it gives for a request, the device tree by the
  nodes and properties the module looks up.
* The allocator `devm_kzalloc` is a collaborator as well: each call the module makes
  either returns a zeroed object or `NULL`, and which of the two is a parameter of the
  device.
-/

namespace Ad9361

/-! ## Constants and enumerations -/

/-- The constant `MAX_CTRL_GPIOS`. -/
abbrev MAX_CTRL_GPIOS : Nat := 256

/-- The constant `MAX_CTRL_SETTINGS`. -/
abbrev MAX_CTRL_SETTINGS : Nat := 512

/-- The errno `EINVAL`. -/
abbrev EINVAL : Int := 22

/-- The errno `EOVERFLOW`. -/
abbrev EOVERFLOW : Int := 75

/-- The errno `ENOMEM`. -/
abbrev ENOMEM : Int := 12

/-- The enumeration `CTL_HOOKS` (without its `__MAX_CTL_HOOKS` bound). -/
inductive CTL_HOOKS
  | CTL_INIT
  | CTL_UNINIT
  deriving DecidableEq, Repr

/-- The constant `CTL_GPIO_NOP` of `enum CTL_GPIO_OPS`. -/
abbrev CTL_GPIO_NOP : Nat := 0

/-- The constant `CTL_GPIO_OUT_LOW` of `enum CTL_GPIO_OPS`. -/
abbrev CTL_GPIO_OUT_LOW : Nat := 1

/-- The constant `CTL_GPIO_OUT_HIGH` of `enum CTL_GPIO_OPS`. -/
abbrev CTL_GPIO_OUT_HIGH : Nat := 2

/-- The constant `CTL_GPIO_IN` of `enum CTL_GPIO_OPS`. -/
abbrev CTL_GPIO_IN : Nat := 3

/-- Undefined behaviour reached by the C code: the embedding stops with one of these. -/
inductive Fault
  | out_of_bounds (i : Nat)
  | null_deref
  deriving DecidableEq, Repr

/-! ## Data model -/

/-- The part of `struct gpio_descs` the module reads: the number of descriptors.
Descriptor `i` is line `i`. -/
structure gpio_descs where
  ndescs : Nat
  deriving DecidableEq, Repr

/-- The C `struct ad9361_ctrl_objs`. -/
structure ad9361_ctrl_objs where
  gpios : Option gpio_descs
  deriving DecidableEq, Repr

/-- The C `struct ad9361_band_setting`.  `objs` points at the `objs` of the controller, which
is filled in before any setting is parsed and never changes afterwards; the embedding
stores the pointee. -/
structure ad9361_band_setting where
  name : Option String
  freq_min : Nat
  freq_max : Nat
  gpio_values : Option (List Nat)
  objs : Option ad9361_ctrl_objs
  deriving DecidableEq, Repr

/-- A band setting as `devm_kzalloc` returns it: every field zero. -/
def zero_setting : ad9361_band_setting :=
  { name := none, freq_min := 0, freq_max := 0, gpio_values := none, objs := none }

/-- The address of a band setting object of a controller: one of its two hook
objects, or an element of its rx or tx table. -/
inductive sett_ptr
  | hook (h : CTL_HOOKS)
  | rx (i : Nat)
  | tx (i : Nat)
  deriving DecidableEq, Repr

/-- The C `struct ad9361_ext_band_ctl`; `hooks_init` and `hooks_uninit` are `hooks[CTL_INIT]`
and `hooks[CTL_UNINIT]`. -/
structure ad9361_ext_band_ctl where
  hooks_init : Option ad9361_band_setting
  hooks_uninit : Option ad9361_band_setting
  tx_curr_setting : Option sett_ptr
  rx_curr_setting : Option sett_ptr
  rx_settings : Option (List ad9361_band_setting)
  tx_settings : Option (List ad9361_band_setting)
  objs : ad9361_ctrl_objs
  deriving DecidableEq, Repr

/-- A controller as `devm_kzalloc` returns it. -/
def zero_ctl : ad9361_ext_band_ctl :=
  { hooks_init := none, hooks_uninit := none, tx_curr_setting := none,
    rx_curr_setting := none, rx_settings := none, tx_settings := none,
    objs := { gpios := none } }

/-- The element `hooks[h]` of a controller. -/
def ad9361_ext_band_ctl.hooks (ctl : ad9361_ext_band_ctl) : CTL_HOOKS → Option ad9361_band_setting
  | .CTL_INIT => ctl.hooks_init
  | .CTL_UNINIT => ctl.hooks_uninit

/-- The assignment `ctl->hooks[h] = s`. -/
def ad9361_ext_band_ctl.set_hook (ctl : ad9361_ext_band_ctl) (h : CTL_HOOKS)
    (s : Option ad9361_band_setting) : ad9361_ext_band_ctl :=
  match h with
  | .CTL_INIT => { ctl with hooks_init := s }
  | .CTL_UNINIT => { ctl with hooks_uninit := s }

/-- Reading through a setting pointer. -/
def ad9361_ext_band_ctl.deref (ctl : ad9361_ext_band_ctl) :
    sett_ptr → Except Fault ad9361_band_setting
  | .hook h =>
    match ctl.hooks h with
    | some s => .ok s
    | none => .error .null_deref
  | .rx i =>
    match ctl.rx_settings with
    | none => .error .null_deref
    | some tbl =>
      match tbl[i]? with
      | some s => .ok s
      | none => .error (.out_of_bounds i)
  | .tx i =>
    match ctl.tx_settings with
    | none => .error .null_deref
    | some tbl =>
      match tbl[i]? with
      | some s => .ok s
      | none => .error (.out_of_bounds i)

/-- Reading through a setting pointer that may be `NULL`: `none` for `NULL`, the
setting pointed at otherwise. -/
def ad9361_ext_band_ctl.deref_opt (ctl : ad9361_ext_band_ctl) :
    Option sett_ptr → Except Fault (Option ad9361_band_setting)
  | none => .ok none
  | some p =>
    match ctl.deref p with
    | .error f => .error f
    | .ok c => .ok (some c)

/-- The part of `struct ad9361_rf_phy` the module uses. -/
structure ad9361_rf_phy where
  ext_band_ctl : Option ad9361_ext_band_ctl
  deriving DecidableEq, Repr

/-! ## The line driver -/

/-- The GPIO lines as the module can observe them: the state of each line, named by
the `CTL_GPIO_OPS` code that asks for it (`CTL_GPIO_IN`, `CTL_GPIO_OUT_LOW`,
`CTL_GPIO_OUT_HIGH`), and the driver calls made so far, oldest first, as pairs of a
line index and the state asked for. -/
structure Hw where
  lines : List Nat
  log : List (Nat × Nat)
  deriving DecidableEq, Repr

/-- Modelled from the spec: the line driver (`gpiod_direction_input`,
`gpiod_direction_output_raw`) is not part of the module.  One call asks one line for
one state and returns success or a driver failure; `drv i v` is the return code of the
request for state `v` on line `i`.  A call that fails leaves the line as it was. -/
def gpiod_request (drv : Nat → Nat → Int) (hw : Hw) (i v : Nat) : Int × Hw :=
  (drv i v,
   { lines := if drv i v < 0 then hw.lines else hw.lines.set i v,
     log := hw.log ++ [(i, v)] })

/-- Modelled from the spec: `gpiod_direction_input(gpios->desc[i])`. -/
def gpiod_direction_input (drv : Nat → Nat → Int) (hw : Hw) (i : Nat) : Int × Hw :=
  gpiod_request drv hw i CTL_GPIO_IN

/-- Modelled from the spec: `gpiod_direction_output_raw(gpios->desc[i], value)`. -/
def gpiod_direction_output_raw (drv : Nat → Nat → Int) (hw : Hw) (i : Nat) (value : Nat) :
    Int × Hw :=
  gpiod_request drv hw i (if value = 0 then CTL_GPIO_OUT_LOW else CTL_GPIO_OUT_HIGH)

/-! ## The device tree -/

/-- A child node of the device node, with the three properties the module reads from
it: `adi,lo-freq-min` and `adi,lo-freq-max` as 64-bit values and `adi,gpio-settings`
as an array of 32-bit cells; `none` when the property is missing. -/
structure child_node where
  name : String
  lo_freq_min : Option Nat
  lo_freq_max : Option Nat
  gpio_settings : Option (List Nat)
  deriving DecidableEq, Repr

/-- The device node `dev->of_node`: the names of its properties and its children. -/
structure device_node where
  properties : List String
  children : List child_node
  deriving DecidableEq, Repr

/-- The calls of `devm_kzalloc` the module makes, each named by the object it
allocates: the controller (`ad9361_register_ext_band_control`), the line descriptors
(`ad9361_populate_objs`), the setting object of a hook (`ad9361_populate_hooks`), the
line-value vector of the entry of a node, named by the node (`ad9361_parse_gpio_settings`),
and the table of a type (`ad9361_populate_settings`).  One registration makes each of
these calls at most once. -/
inductive alloc_site
  | ctl
  | descs
  | hook (h : CTL_HOOKS)
  | gpio_values (name : String)
  | settings (type : String)
  deriving DecidableEq, Repr

/-- The part of `struct device` the module uses: the device node, the outcome of
acquiring each line (`gpiod_get_errno i` is `0` when `devm_gpiod_get` returns the
descriptor of line `i` and the errno otherwise), the line driver, and the allocator:
`devm_kzalloc site` is `true` when the call of `devm_kzalloc` at `site` returns a zeroed
object and `false` when it returns `NULL`. -/
structure device where
  of_node : Option device_node
  gpiod_get_errno : Nat → Nat
  drv : Nat → Nat → Int
  devm_kzalloc : alloc_site → Bool

/-- Modelled from the spec: `of_find_property` is not part of the module; it tells
whether the node has a property of that name. -/
def of_find_property (np : Option device_node) (name : String) : Bool :=
  match np with
  | none => false
  | some n => n.properties.contains name

/-- Modelled from the spec: `of_get_child_by_name` is not part of the module; it
returns the first child of that name, if any. -/
def of_get_child_by_name (np : Option device_node) (name : String) : Option child_node :=
  match np with
  | none => none
  | some n => n.children.find? (fun c => c.name == name)

/-- Modelled from the spec: `of_property_read_u64` is not part of the module; it stores
the value and returns 0, or fails when the property is missing. -/
def of_property_read_u64 (prop : Option Nat) (out : Nat) : Int × Nat :=
  match prop with
  | none => (-EINVAL, out)
  | some v => (0, v)

/-- Modelled from the spec: `of_property_read_variable_u32_array` is not part of the
module; it copies the cells into `out` and returns their number, or fails when the
property is missing or has fewer than `sz_min` or more than `sz_max` cells. -/
def of_property_read_variable_u32_array (prop : Option (List Nat)) (out : List Nat)
    (sz_min sz_max : Nat) : Int × List Nat :=
  match prop with
  | none => (-EINVAL, out)
  | some vals =>
    if vals.length < sz_min ∨ sz_max < vals.length then (-EOVERFLOW, out)
    else ((vals.length : Int), vals ++ out.drop vals.length)

/-! ## Operations of the module -/

/-- The function `lctl_gpio_value_valid`. -/
def lctl_gpio_value_valid (val : Nat) : Bool :=
  val == CTL_GPIO_NOP || val == CTL_GPIO_IN || val == CTL_GPIO_OUT_LOW || val == CTL_GPIO_OUT_HIGH

/-- The property name `snprintf` builds from `"adi,band-ctl-%d-gpio"` in
`ad9361_populate_objs`; it fits the buffer for every `cnt` below `MAX_CTRL_GPIOS`. -/
def gpio_prop_name (cnt : Nat) : String :=
  "adi,band-ctl-" ++ toString cnt ++ "-gpio"

/-- The child name `snprintf` builds from `"%s%d"` in `ad9361_scan_ctl_settings`; it
fits the buffer for both table types and every `cnt` below `MAX_CTRL_SETTINGS`. -/
def child_name (type : String) (cnt : Nat) : String :=
  type ++ toString cnt

/-- The first loop of `ad9361_populate_objs`: from `cnt`, with `fuel` iterations left
before `MAX_CTRL_GPIOS` is reached, the index at which the loop stops. -/
def count_gpio_props (np : Option device_node) : Nat → Nat → Nat
  | 0, cnt => cnt
  | fuel + 1, cnt =>
    if of_find_property np (gpio_prop_name cnt) then
      count_gpio_props np fuel (cnt + 1)
    else cnt

/-- The second loop of `ad9361_populate_objs`: acquires the lines from `cnt` on and
returns the function result, the errno of the first failure or the final `cnt`. -/
def acquire_gpios (dev : device) : Nat → Nat → Int
  | 0, cnt => (cnt : Int)
  | fuel + 1, cnt =>
    if dev.gpiod_get_errno cnt ≠ 0 then -((dev.gpiod_get_errno cnt : Nat) : Int)
    else acquire_gpios dev fuel (cnt + 1)

/-- The function `ad9361_populate_objs`. -/
def ad9361_populate_objs (dev : device) (objs : ad9361_ctrl_objs) : Int × ad9361_ctrl_objs :=
  let cnt := count_gpio_props dev.of_node MAX_CTRL_GPIOS 0
  if cnt = 0 then (0, objs)
  else if dev.devm_kzalloc .descs = false then (-ENOMEM, objs)
  else (acquire_gpios dev cnt 0, { gpios := some { ndescs := cnt } })

/-- The validation loop of `ad9361_parse_gpio_settings` from index `i`, with `fuel`
iterations left before `gpio_cnt`: 0, or `-EINVAL` at the first invalid value.  The
formatting of the debug message (`pbuf`, `pidx`) in the same loop is left out here. -/
def check_gpio_values (buf : List Nat) : Nat → Nat → Int
  | 0, _ => 0
  | fuel + 1, i =>
    if lctl_gpio_value_valid (buf.getD i 0) then check_gpio_values buf fuel (i + 1)
    else -EINVAL

/-- The function `ad9361_parse_gpio_settings`: the return code and the setting as the
call leaves it.  `ctl->objs.gpios` is set whenever construction reaches this function;
the embedding reads its `ndescs`, and 0 in its place if it were `NULL`. -/
def ad9361_parse_gpio_settings (dev : device) (np : child_node) (ctl : ad9361_ext_band_ctl)
    (sett : ad9361_band_setting) : Int × ad9361_band_setting :=
  let sett := { sett with objs := some ctl.objs, name := some np.name }
  if np.gpio_settings.isNone then (0, sett)
  else
    let gpio_cnt := match ctl.objs.gpios with
      | some g => g.ndescs
      | none => 0
    if dev.devm_kzalloc (.gpio_values np.name) = false then
      (-ENOMEM, { sett with gpio_values := none })
    else
      let r := of_property_read_variable_u32_array np.gpio_settings (List.replicate gpio_cnt 0)
        0 gpio_cnt
      let sett := { sett with gpio_values := some r.2 }
      if r.1 = 0 then (0, { sett with gpio_values := none })
      else
        let ret := if 0 < r.1 ∧ r.1 ≠ (gpio_cnt : Int) then -EINVAL else r.1
        if ret < 0 then (ret, sett)
        else (check_gpio_values r.2 gpio_cnt 0, sett)

/-- The function `ad9361_parse_setting`. -/
def ad9361_parse_setting (dev : device) (np : child_node) (ctl : ad9361_ext_band_ctl)
    (sett : ad9361_band_setting) : Int × ad9361_band_setting :=
  let r := ad9361_parse_gpio_settings dev np ctl sett
  if r.1 < 0 then r else (0, r.2)

/-- The function `ad9361_parse_setting_with_freq_range`. -/
def ad9361_parse_setting_with_freq_range (dev : device) (np : child_node)
    (ctl : ad9361_ext_band_ctl) (sett : ad9361_band_setting) : Int × ad9361_band_setting :=
  let r := of_property_read_u64 np.lo_freq_min sett.freq_min
  let sett := { sett with freq_min := r.2 }
  if r.1 < 0 then (r.1, sett)
  else
    let r := of_property_read_u64 np.lo_freq_max sett.freq_max
    let sett := { sett with freq_max := r.2 }
    if r.1 < 0 then (r.1, sett)
    else ad9361_parse_setting dev np ctl sett

/-- The loop of `ad9361_scan_ctl_settings` from `cnt`, with `fuel` iterations left
before `max_settings`: the function result and the table as the call leaves it.  With
`sett = none` (a `NULL` table) the loop only counts. -/
def scan_ctl_loop (dev : device) (np : Option device_node) (type : String)
    (ctl : ad9361_ext_band_ctl) :
    Nat → Nat → Option (List ad9361_band_setting) → Int × Option (List ad9361_band_setting)
  | 0, cnt, sett => ((cnt : Int), sett)
  | fuel + 1, cnt, sett =>
    match of_get_child_by_name np (child_name type cnt) with
    | none => ((cnt : Int), sett)
    | some child =>
      match sett with
      | none => scan_ctl_loop dev np type ctl fuel (cnt + 1) none
      | some tbl =>
        let r := ad9361_parse_setting_with_freq_range dev child ctl (tbl.getD cnt zero_setting)
        if r.1 < 0 then (r.1, some (tbl.set cnt r.2))
        else scan_ctl_loop dev np type ctl fuel (cnt + 1) (some (tbl.set cnt r.2))

/-- The function `ad9361_scan_ctl_settings`. -/
def ad9361_scan_ctl_settings (dev : device) (type : String) (max_settings : Nat)
    (ctl : ad9361_ext_band_ctl) (sett : Option (List ad9361_band_setting)) :
    Int × Option (List ad9361_band_setting) :=
  match dev.of_node with
  | none => (0, sett)
  | some np => scan_ctl_loop dev (some np) type ctl max_settings 0 sett

/-- The function `ad9361_populate_settings`: the return code and the table pointer
`*sett` as the call leaves it. -/
def ad9361_populate_settings (dev : device) (ctl : ad9361_ext_band_ctl) (type : String)
    (sett : Option (List ad9361_band_setting)) : Int × Option (List ad9361_band_setting) :=
  let cnt := (ad9361_scan_ctl_settings dev type MAX_CTRL_SETTINGS ctl none).1
  if cnt ≤ 0 then (cnt, sett)
  else if dev.devm_kzalloc (.settings type) = false then (-ENOMEM, none)
  else
    let r := ad9361_scan_ctl_settings dev type cnt.toNat ctl
      (some (List.replicate (cnt.toNat + 1) zero_setting))
    if r.1 < 0 then r
    else if r.1 ≠ cnt then (-EINVAL, r.2)
    else (0, r.2)

/-- The table `map` of `ad9361_populate_hooks`. -/
def hook_name : CTL_HOOKS → String
  | .CTL_INIT => "adi_ext_band_ctl_init"
  | .CTL_UNINIT => "adi_ext_band_ctl_uninit"

/-- The loop of `ad9361_populate_hooks` over the hooks that remain. -/
def populate_hooks_loop (dev : device) :
    List CTL_HOOKS → ad9361_ext_band_ctl → Int × ad9361_ext_band_ctl
  | [], ctl => (0, ctl)
  | h :: rest, ctl =>
    match of_get_child_by_name dev.of_node (hook_name h) with
    | none => populate_hooks_loop dev rest ctl
    | some child =>
      if dev.devm_kzalloc (.hook h) = false then (-ENOMEM, ctl.set_hook h none)
      else
        let r := ad9361_parse_setting dev child ctl zero_setting
        if r.1 < 0 then (r.1, ctl.set_hook h (some r.2))
        else populate_hooks_loop dev rest (ctl.set_hook h (some r.2))

/-- The function `ad9361_populate_hooks`. -/
def ad9361_populate_hooks (dev : device) (ctl : ad9361_ext_band_ctl) :
    Int × ad9361_ext_band_ctl :=
  populate_hooks_loop dev [.CTL_INIT, .CTL_UNINIT] ctl

/-- The range test of `ad9361_find_first_setting`:
`sett->freq_min <= freq && freq < sett->freq_max`. -/
def freq_in_range (sett : ad9361_band_setting) (freq : Nat) : Bool :=
  decide (sett.freq_min ≤ freq) && decide (freq < sett.freq_max)

/-- The loop of `ad9361_find_first_setting` from index `i` over the rest of the
allocation.  The loop condition `(sett = &settings[i])` is the address of an element
of a non-`NULL` array, which is never `NULL`: the loop has no exit but a match, and
past the last element of the allocation it reads outside the object. -/
def find_first_loop (freq : Nat) : List ad9361_band_setting → Nat → Except Fault (Option Nat)
  | [], i => .error (.out_of_bounds i)
  | sett :: rest, i =>
    if freq_in_range sett freq then .ok (some i)
    else find_first_loop freq rest (i + 1)

/-- The function `ad9361_find_first_setting`: the index of the element returned, or `none` for
`NULL`. -/
def ad9361_find_first_setting (settings : Option (List ad9361_band_setting)) (freq : Nat) :
    Except Fault (Option Nat) :=
  match settings with
  | none => .ok none
  | some tbl => find_first_loop freq tbl 0

/-- The loop of `ad9361_apply_gpio_settings` from line `i`, with `fuel` iterations
left before `gpios->ndescs`; `curr_vals` is `curr_sett->gpio_values` when `curr_sett`
and that vector both exist. -/
def apply_gpio_loop (drv : Nat → Nat → Int) (new_vals : List Nat)
    (curr_vals : Option (List Nat)) : Nat → Nat → Hw → Except Fault (Int × Hw)
  | 0, _, hw => .ok (0, hw)
  | fuel + 1, i, hw =>
    match new_vals[i]? with
    | none => .error (.out_of_bounds i)
    | some nv =>
      let skip : Except Fault Bool :=
        match curr_vals with
        | none => .ok false
        | some cv =>
          match cv[i]? with
          | none => .error (.out_of_bounds i)
          | some c => .ok (nv == c)
      match skip with
      | .error f => .error f
      | .ok true => apply_gpio_loop drv new_vals curr_vals fuel (i + 1) hw
      | .ok false =>
        if nv = CTL_GPIO_IN then
          let r := gpiod_direction_input drv hw i
          if r.1 < 0 then .ok r
          else apply_gpio_loop drv new_vals curr_vals fuel (i + 1) r.2
        else if nv = CTL_GPIO_OUT_LOW then
          let r := gpiod_direction_output_raw drv hw i 0
          if r.1 < 0 then .ok r
          else apply_gpio_loop drv new_vals curr_vals fuel (i + 1) r.2
        else if nv = CTL_GPIO_OUT_HIGH then
          let r := gpiod_direction_output_raw drv hw i 1
          if r.1 < 0 then .ok r
          else apply_gpio_loop drv new_vals curr_vals fuel (i + 1) r.2
        else apply_gpio_loop drv new_vals curr_vals fuel (i + 1) hw

/-- The function `ad9361_apply_gpio_settings`. -/
def ad9361_apply_gpio_settings (drv : Nat → Nat → Int) (new_sett : ad9361_band_setting)
    (curr_sett : Option ad9361_band_setting) (hw : Hw) : Except Fault (Int × Hw) :=
  match new_sett.gpio_values with
  | none => .ok (0, hw)
  | some new_vals =>
    match new_sett.objs with
    | none => .error .null_deref
    | some objs =>
      match objs.gpios with
      | none => .error .null_deref
      | some gpios =>
        apply_gpio_loop drv new_vals (curr_sett.bind (fun c => c.gpio_values)) gpios.ndescs 0 hw

/-- The function `ad9361_apply_settings`.  `curr_sett` is `none` for a `NULL` argument and
otherwise the content of the slot it points at; the result carries the return code,
the content of the slot after the call (of the local `lcurr_sett` for a `NULL`
argument) and the lines. -/
def ad9361_apply_settings (drv : Nat → Nat → Int) (ctl : ad9361_ext_band_ctl)
    (new_sett : sett_ptr) (curr_sett : Option (Option sett_ptr)) (hw : Hw) :
    Except Fault (Int × Option sett_ptr × Hw) :=
  let lcurr_sett : Option sett_ptr :=
    match curr_sett with
    | some slot => slot
    | none => none
  match ctl.deref new_sett with
  | .error f => .error f
  | .ok new_val =>
    match ctl.deref_opt lcurr_sett with
    | .error f => .error f
    | .ok curr =>
      match ad9361_apply_gpio_settings drv new_val curr hw with
      | .error f => .error f
      | .ok (ret, hw1) =>
        if ret < 0 then .ok (ret, lcurr_sett, hw1)
        else .ok (0, some new_sett, hw1)

/-- The function `ad9361_register_ext_band_control`: the return code, the phy and the
lines as the call leaves them. -/
def ad9361_register_ext_band_control (dev : device) (phy : ad9361_rf_phy) (hw : Hw) :
    Except Fault (Int × ad9361_rf_phy × Hw) :=
  if dev.devm_kzalloc .ctl = false then .ok (-ENOMEM, phy, hw)
  else
    let r := ad9361_populate_objs dev zero_ctl.objs
    if r.1 ≤ 0 then .ok (r.1, phy, hw)
    else
      let r := ad9361_populate_hooks dev { zero_ctl with objs := r.2 }
      if r.1 < 0 then .ok (r.1, phy, hw)
      else
        let init : Except Fault (Int × ad9361_ext_band_ctl × Hw) :=
          match r.2.hooks .CTL_INIT with
          | none => .ok (r.1, r.2, hw)
          | some _ =>
            match ad9361_apply_settings dev.drv r.2 (.hook .CTL_INIT) none hw with
            | .error f => .error f
            | .ok (ret, _, hw1) =>
              if ret = 0 then
                .ok (ret, { r.2 with rx_curr_setting := some (.hook .CTL_INIT),
                                     tx_curr_setting := some (.hook .CTL_INIT) }, hw1)
              else .ok (ret, r.2, hw1)
        match init with
        | .error f => .error f
        | .ok (ret, ctl, hw1) =>
          if ret < 0 then .ok (ret, phy, hw1)
          else
            let rx := ad9361_populate_settings dev ctl "adi_rx_band_setting_" ctl.rx_settings
            if rx.1 < 0 then .ok (rx.1, phy, hw1)
            else
              let ctl := { ctl with rx_settings := rx.2 }
              let tx := ad9361_populate_settings dev ctl "adi_tx_band_setting_" ctl.tx_settings
              if tx.1 < 0 then .ok (tx.1, phy, hw1)
              else
                .ok (0, { phy with ext_band_ctl := some { ctl with tx_settings := tx.2 } }, hw1)

/-- The function `ad9361_unregister_ext_band_control`: the phy and the lines as the
call leaves them.  The function returns `void`; the slot `ad9361_apply_settings` writes
is its own local, so the result of that call is dropped whole. -/
def ad9361_unregister_ext_band_control (dev : device) (phy : ad9361_rf_phy) (hw : Hw) :
    Except Fault (ad9361_rf_phy × Hw) :=
  match phy.ext_band_ctl with
  | none => .ok (phy, hw)
  | some ctl =>
    match ctl.hooks .CTL_UNINIT with
    | none => .ok (phy, hw)
    | some _ =>
      match ad9361_apply_settings dev.drv ctl (.hook .CTL_UNINIT) none hw with
      | .error f => .error f
      | .ok (_, _, hw1) => .ok (phy, hw1)

/-- The function `ad9361_adjust_rx_ext_band_settings`: the return code, the phy and the lines as
the call leaves them; `phy = none` is a `NULL` argument. -/
def ad9361_adjust_rx_ext_band_settings (dev : device) (phy : Option ad9361_rf_phy)
    (freq : Nat) (hw : Hw) : Except Fault (Int × Option ad9361_rf_phy × Hw) :=
  match phy with
  | none => .ok (-EINVAL, none, hw)
  | some p =>
    match p.ext_band_ctl with
    | none => .ok (0, some p, hw)
    | some ctl =>
      match ad9361_find_first_setting ctl.rx_settings freq with
      | .error f => .error f
      | .ok none => .ok (0, some p, hw)
      | .ok (some i) =>
        if ctl.rx_curr_setting = some (.rx i) then .ok (0, some p, hw)
        else
          match ad9361_apply_settings dev.drv ctl (.rx i) (some ctl.rx_curr_setting) hw with
          | .error f => .error f
          | .ok (ret, slot, hw1) =>
            if ret < 0 then
              .ok (ret, some { p with ext_band_ctl := some { ctl with rx_curr_setting := slot } },
                   hw1)
            else
              .ok (0, some { p with ext_band_ctl := some { ctl with rx_curr_setting := slot } },
                   hw1)

/-- The function `ad9361_adjust_tx_ext_band_settings`: the return code, the phy and the lines as
the call leaves them; `phy = none` is a `NULL` argument. -/
def ad9361_adjust_tx_ext_band_settings (dev : device) (phy : Option ad9361_rf_phy)
    (freq : Nat) (hw : Hw) : Except Fault (Int × Option ad9361_rf_phy × Hw) :=
  match phy with
  | none => .ok (-EINVAL, none, hw)
  | some p =>
    match p.ext_band_ctl with
    | none => .ok (0, some p, hw)
    | some ctl =>
      match ad9361_find_first_setting ctl.tx_settings freq with
      | .error f => .error f
      | .ok none => .ok (0, some p, hw)
      | .ok (some i) =>
        if ctl.tx_curr_setting = some (.tx i) then .ok (0, some p, hw)
        else
          match ad9361_apply_settings dev.drv ctl (.tx i) (some ctl.tx_curr_setting) hw with
          | .error f => .error f
          | .ok (ret, slot, hw1) =>
            if ret < 0 then
              .ok (ret, some { p with ext_band_ctl := some { ctl with tx_curr_setting := slot } },
                   hw1)
            else
              .ok (0, some { p with ext_band_ctl := some { ctl with tx_curr_setting := slot } },
                   hw1)

/-! ## The two lanes -/

/-- The two lanes of the controller, receive and transmit. -/
inductive Lane
  | rx
  | tx
  deriving DecidableEq, Repr

/-- The settings table of a lane: `ctl->rx_settings` or `ctl->tx_settings`. -/
def Lane.settings (lane : Lane) (ctl : ad9361_ext_band_ctl) : Option (List ad9361_band_setting) :=
  match lane with
  | .rx => ctl.rx_settings
  | .tx => ctl.tx_settings

/-- The current setting of a lane: `ctl->rx_curr_setting` or `ctl->tx_curr_setting`. -/
def Lane.curr_setting (lane : Lane) (ctl : ad9361_ext_band_ctl) : Option sett_ptr :=
  match lane with
  | .rx => ctl.rx_curr_setting
  | .tx => ctl.tx_curr_setting

/-- The address of element `i` of the table of a lane. -/
def Lane.ptr (lane : Lane) (i : Nat) : sett_ptr :=
  match lane with
  | .rx => .rx i
  | .tx => .tx i

/-- The assignment to the current setting of a lane. -/
def Lane.set_curr_setting (lane : Lane) (ctl : ad9361_ext_band_ctl) (slot : Option sett_ptr) :
    ad9361_ext_band_ctl :=
  match lane with
  | .rx => { ctl with rx_curr_setting := slot }
  | .tx => { ctl with tx_curr_setting := slot }

/-- The frequency-change operation of a lane: `ad9361_adjust_rx_ext_band_settings` or
`ad9361_adjust_tx_ext_band_settings`. -/
def ad9361_adjust_ext_band_settings (lane : Lane) (dev : device) (phy : Option ad9361_rf_phy)
    (freq : Nat) (hw : Hw) : Except Fault (Int × Option ad9361_rf_phy × Hw) :=
  match lane with
  | .rx => ad9361_adjust_rx_ext_band_settings dev phy freq hw
  | .tx => ad9361_adjust_tx_ext_band_settings dev phy freq hw

deriving instance DecidableEq for Except

/-! ## Example data -/

/-- The table with ranges [0,100) and [50,150), followed by the zeroed last element of
the allocation. -/
def overlap_table : List ad9361_band_setting :=
  [{ zero_setting with freq_min := 0, freq_max := 100 },
   { zero_setting with freq_min := 50, freq_max := 150 },
   zero_setting]

/-- A device with one control line and the given children; allocation, line
acquisition and the line driver never fail. -/
def one_line_dev (children : List child_node) : device :=
  { of_node := some { properties := ["adi,band-ctl-0-gpio"], children := children },
    gpiod_get_errno := fun _ => 0,
    drv := fun _ _ => 0,
    devm_kzalloc := fun _ => true }

/-- One line in an unknown state (code 0) and no driver call made yet. -/
def one_line_hw : Hw := { lines := [0], log := [] }

/-- The controller built for one line, no hooks, the given rx table and no tx table. -/
def one_line_ctl (rx : List ad9361_band_setting) : ad9361_ext_band_ctl :=
  { zero_ctl with rx_settings := some rx, objs := { gpios := some { ndescs := 1 } } }

/-- The table element parsed from an rx child without `adi,gpio-settings`, one line. -/
def plain_entry (name : String) (lo hi : Nat) : ad9361_band_setting :=
  { name := some name, freq_min := lo, freq_max := hi, gpio_values := none,
    objs := some { gpios := some { ndescs := 1 } } }

/-- One line and one rx band, [0,10), without `adi,gpio-settings`. -/
def one_band_dev : device :=
  one_line_dev [{ name := "adi_rx_band_setting_0", lo_freq_min := some 0,
                  lo_freq_max := some 10, gpio_settings := none }]

/-- One line and one rx band whose range is empty: `adi,lo-freq-min` and
`adi,lo-freq-max` are both 5. -/
def empty_range_dev : device :=
  one_line_dev [{ name := "adi_rx_band_setting_0", lo_freq_min := some 5,
                  lo_freq_max := some 5, gpio_settings := none }]

/-! ## Specification-side definitions -/

/-- A setting is well formed for `n` lines when its line-value vector, if it has one,
has `n` elements, all of them valid `CTL_GPIO_OPS` codes, and its `objs` is the line
bank of `n` lines. -/
def setting_wf (n : Nat) (s : ad9361_band_setting) : Prop :=
  ∀ v, s.gpio_values = some v →
    v.length = n ∧ (∀ x ∈ v, lctl_gpio_value_valid x = true) ∧
    s.objs = some { gpios := some { ndescs := n } }

/-- Spec wording of the differential apply: line `i` is written when the new value is
not NoOp and it is not the case that the previous vector exists and holds the same
value at `i`. -/
def needs_write (new_vals : List Nat) (prev_vals : Option (List Nat)) (i : Nat) : Bool :=
  new_vals.getD i 0 != CTL_GPIO_NOP &&
    !(match prev_vals with
      | some pv => pv.getD i 0 == new_vals.getD i 0
      | none => false)

/-- Spec wording of the differential apply: the writes `(i, new[i])`, in increasing
index order, for the lines `i` from `lo` up to `lo + len` that need one. -/
def writes_between (new_vals : List Nat) (prev_vals : Option (List Nat)) (lo len : Nat) :
    List (Nat × Nat) :=
  ((List.range' lo len).filter (needs_write new_vals prev_vals)).map
    (fun i => (i, new_vals.getD i 0))

/-- Spec wording of the differential apply: the sequence of line writes for a new
setting, an optional previous setting and `n` lines; empty when the new setting has no
line-value vector. -/
def expected_writes (n : Nat) (new_sett : ad9361_band_setting)
    (previous : Option ad9361_band_setting) : List (Nat × Nat) :=
  match new_sett.gpio_values with
  | none => []
  | some nv => writes_between nv (previous.bind (fun p => p.gpio_values)) 0 n

/-- Issuing a list of line writes in order, up to the first driver failure: the
return code (0 when none fails) and the lines afterwards. -/
def drive (drv : Nat → Nat → Int) : List (Nat × Nat) → Hw → Int × Hw
  | [], hw => (0, hw)
  | w :: ws, hw =>
    if (gpiod_request drv hw w.1 w.2).1 < 0 then gpiod_request drv hw w.1 w.2
    else drive drv ws (gpiod_request drv hw w.1 w.2).2

/-- A setting without a name or range, with the given line values, for `n` lines. -/
def lines_setting (n : Nat) (vals : List Nat) : ad9361_band_setting :=
  { zero_setting with gpio_values := some vals, objs := some { gpios := some { ndescs := n } } }

/-- Lines in an unknown state (code 0) and no driver call made yet. -/
def fresh_hw (n : Nat) : Hw := { lines := List.replicate n 0, log := [] }

/-- A device without a device node whose allocator and line driver never fail. -/
def quiet_dev : device :=
  { of_node := none, gpiod_get_errno := fun _ => 0, drv := fun _ _ => 0,
    devm_kzalloc := fun _ => true }

/-- The table of the scenario: [2400,2500) with lines [Low,High] and [5000,6000) with
lines [High,Low], followed by the zeroed last element of the allocation. -/
def two_band_table : List ad9361_band_setting :=
  [{ lines_setting 2 [CTL_GPIO_OUT_LOW, CTL_GPIO_OUT_HIGH] with
       name := some "adi_rx_band_setting_0", freq_min := 2400, freq_max := 2500 },
   { lines_setting 2 [CTL_GPIO_OUT_HIGH, CTL_GPIO_OUT_LOW] with
       name := some "adi_rx_band_setting_1", freq_min := 5000, freq_max := 6000 },
   zero_setting]

/-- A controller of two lines with the table of the scenario as its rx table and the
given current rx setting. -/
def two_band_ctl (curr : Option sett_ptr) : ad9361_ext_band_ctl :=
  { zero_ctl with rx_settings := some two_band_table, rx_curr_setting := curr,
                  objs := { gpios := some { ndescs := 2 } } }

/-- A device without a device node whose line driver fails with `-5` on line 1 and
succeeds on every other line; allocation never fails. -/
def line1_fails_dev : device :=
  { of_node := none, gpiod_get_errno := fun _ => 0,
    drv := fun i _ => if i = 1 then -5 else 0,
    devm_kzalloc := fun _ => true }

/-- A setting for three lines with the range [0,10) and the lines [Low, High, Input]. -/
def three_line_setting : ad9361_band_setting :=
  { lines_setting 3 [CTL_GPIO_OUT_LOW, CTL_GPIO_OUT_HIGH, CTL_GPIO_IN] with
      name := some "adi_rx_band_setting_0", freq_min := 0, freq_max := 10 }

/-- A controller of three lines whose rx table holds `three_line_setting`, with no
current setting. -/
def three_line_ctl : ad9361_ext_band_ctl :=
  { zero_ctl with rx_settings := some [three_line_setting, zero_setting],
                  objs := { gpios := some { ndescs := 3 } } }

/-- A device whose device node has no property and no child; allocation never fails. -/
def bare_dev : device :=
  { of_node := some { properties := [], children := [] },
    gpiod_get_errno := fun _ => 0, drv := fun _ _ => 0,
    devm_kzalloc := fun _ => true }

/-- Spec wording of the validation of one entry: its `adi,gpio-settings` array is bad
for `n` lines when its length is neither 0 nor `n`, or when it contains a code outside
{0,1,2,3}. -/
def gpio_settings_bad (n : Nat) (c : child_node) : Bool :=
  match c.gpio_settings with
  | none => false
  | some vals =>
    (vals.length != 0 && vals.length != n) ||
      vals.any (fun v => !(v == 0 || v == 1 || v == 2 || v == 3))

/-- Spec wording of the data model: the line-value vector of the setting built from an
entry is the declared array, and absent when the entry declares none or an empty one. -/
def parsed_gpio_values (c : child_node) : Option (List Nat) :=
  match c.gpio_settings with
  | none => none
  | some vals => if vals.length = 0 then none else some vals

/-- Spec wording of the data model: the hook setting built from an entry, for `n`
lines; it has no frequency range. -/
def parsed_hook (n : Nat) (c : child_node) : ad9361_band_setting :=
  { name := some c.name, freq_min := 0, freq_max := 0, gpio_values := parsed_gpio_values c,
    objs := some { gpios := some { ndescs := n } } }

/-- Spec wording of the data model: the table entry built from an entry that has both
frequency bounds, for `n` lines. -/
def parsed_entry (n : Nat) (c : child_node) : ad9361_band_setting :=
  { name := some c.name, freq_min := c.lo_freq_min.getD 0, freq_max := c.lo_freq_max.getD 0,
    gpio_values := parsed_gpio_values c, objs := some { gpios := some { ndescs := n } } }

/-- Spec wording of the validation of one table entry: both frequency bounds are
present and the `adi,gpio-settings` array is not bad. -/
def entry_ok (n : Nat) (c : child_node) : Bool :=
  c.lo_freq_min.isSome && c.lo_freq_max.isSome && !gpio_settings_bad n c

/-- The line-value vector of an entry can be allocated: an entry that declares no
`adi,gpio-settings` needs none, and otherwise the call of `devm_kzalloc` for the vector
of that node returns an object. -/
def gpio_alloc_ok (dev : device) (c : child_node) : Bool :=
  c.gpio_settings.isNone || dev.devm_kzalloc (.gpio_values c.name)

/-- A hook entry loads: its setting object and its line-value vector can be allocated
and its `adi,gpio-settings` array is not bad. -/
def hook_loads (dev : device) (n : Nat) (h : CTL_HOOKS) (c : child_node) : Bool :=
  dev.devm_kzalloc (.hook h) && gpio_alloc_ok dev c && !gpio_settings_bad n c

/-- A table entry loads: it is valid and its line-value vector can be allocated. -/
def entry_loads (dev : device) (n : Nat) (c : child_node) : Bool :=
  entry_ok n c && gpio_alloc_ok dev c

/-- The type string `ad9361_register_ext_band_control` passes for the table of a lane. -/
def Lane.type_name : Lane → String
  | .rx => "adi_rx_band_setting_"
  | .tx => "adi_tx_band_setting_"

/-- The line count of a device node: the index at which the counting loop of
`ad9361_populate_objs` stops. -/
def line_count (dev : device) : Nat :=
  count_gpio_props dev.of_node MAX_CTRL_GPIOS 0

/-- Spec wording of discovery: the child of index `i` of a table type is discovered
when `i` is below `MAX_CTRL_SETTINGS` and no index up to `i` is missing. -/
def discovered (np : Option device_node) (type : String) (i : Nat) : Prop :=
  i < MAX_CTRL_SETTINGS ∧
    ∀ j, j ≤ i → (of_get_child_by_name np (child_name type j)).isSome = true

/-- Spec wording of validation: every hook entry that is present has a good
`adi,gpio-settings` array. -/
def hooks_valid (dev : device) (n : Nat) : Prop :=
  ∀ h child, of_get_child_by_name dev.of_node (hook_name h) = some child →
    gpio_settings_bad n child = false

/-- Spec wording of validation: every discovered entry of a table type is valid. -/
def table_valid (dev : device) (n : Nat) (type : String) : Prop :=
  ∀ i child, discovered dev.of_node type i →
    of_get_child_by_name dev.of_node (child_name type i) = some child → entry_ok n child = true

/-- Every hook entry that is present loads. -/
def hooks_build (dev : device) (n : Nat) : Prop :=
  ∀ h child, of_get_child_by_name dev.of_node (hook_name h) = some child →
    hook_loads dev n h child = true

/-- The table of a type can be built: when there is an entry to load the table can be
allocated, and every discovered entry loads. -/
def table_builds (dev : device) (n : Nat) (type : String) : Prop :=
  (discovered dev.of_node type 0 → dev.devm_kzalloc (.settings type) = true) ∧
  ∀ i child, discovered dev.of_node type i →
    of_get_child_by_name dev.of_node (child_name type i) = some child →
    entry_loads dev n child = true

/-- Spec wording of gap truncation: the table holds the entries of the children
`0 .. c - 1`, in order, where `c` is the first missing index capped at
`MAX_CTRL_SETTINGS`; there is no table when `c = 0`, and otherwise the allocation has
one more, zeroed, element. -/
def table_loaded (np : Option device_node) (type : String) (n : Nat)
    (t : Option (List ad9361_band_setting)) : Prop :=
  ∃ c : Nat, c ≤ MAX_CTRL_SETTINGS ∧
    (∀ i, i < c → (of_get_child_by_name np (child_name type i)).isSome = true) ∧
    (c < MAX_CTRL_SETTINGS → of_get_child_by_name np (child_name type c) = none) ∧
    (c = 0 → t = none) ∧
    (0 < c → ∃ tbl, t = some tbl ∧ tbl.length = c + 1 ∧
      (∀ i, i < c → tbl[i]? =
        (of_get_child_by_name np (child_name type i)).map (parsed_entry n)) ∧
      tbl[c]? = some zero_setting)

/-- The number of entries loaded into a table: none without a table, and otherwise
the elements of the allocation before its last, zeroed, one. -/
def loaded_entries (t : Option (List ad9361_band_setting)) : Nat :=
  match t with
  | none => 0
  | some tbl => tbl.length - 1

/-- The controller after `ad9361_populate_objs` and `ad9361_populate_hooks` have
succeeded on `n` lines: the line bank and the setting of each hook entry that is
present. -/
def hooked_ctl (dev : device) (n : Nat) : ad9361_ext_band_ctl :=
  { zero_ctl with
      objs := { gpios := some { ndescs := n } },
      hooks_init := (of_get_child_by_name dev.of_node (hook_name .CTL_INIT)).map (parsed_hook n),
      hooks_uninit :=
        (of_get_child_by_name dev.of_node (hook_name .CTL_UNINIT)).map (parsed_hook n) }

/-- Spec wording of the init hook at construction, from the lines `hw`: without an
init hook entry nothing is written and the current settings stay unset; with one, its
setting is applied with no previous setting, and the current settings refer to it when
that succeeds.  `ri` is the return code, `curr` the current setting of both lanes and
`hw1` the lines afterwards. -/
def init_outcome (dev : device) (n : Nat) (hw : Hw) (ri : Int) (curr : Option sett_ptr)
    (hw1 : Hw) : Prop :=
  match of_get_child_by_name dev.of_node (hook_name .CTL_INIT) with
  | none => ri = 0 ∧ curr = none ∧ hw1 = hw
  | some c =>
    hw1 = (drive dev.drv (expected_writes n (parsed_hook n c) none) hw).2 ∧
    (((drive dev.drv (expected_writes n (parsed_hook n c) none) hw).1 < 0 ∧
        ri = (drive dev.drv (expected_writes n (parsed_hook n c) none) hw).1 ∧ curr = none) ∨
      (¬ (drive dev.drv (expected_writes n (parsed_hook n c) none) hw).1 < 0 ∧
        ri = 0 ∧ curr = some (.hook .CTL_INIT)))

/-- One line and one rx band that lacks `adi,lo-freq-min` and declares no
`adi,gpio-settings`. -/
def missing_bound_node : device_node :=
  { properties := ["adi,band-ctl-0-gpio"],
    children := [{ name := "adi_rx_band_setting_0", lo_freq_min := none,
                   lo_freq_max := some 10, gpio_settings := none }] }

/-- The device of `missing_bound_node`; allocation, line acquisition and the line
driver never fail. -/
def missing_bound_dev : device :=
  { of_node := some missing_bound_node, gpiod_get_errno := fun _ => 0, drv := fun _ _ => 0,
    devm_kzalloc := fun _ => true }

/-- One line and one rx band whose `adi,lo-freq-min` 10 is above its
`adi,lo-freq-max` 5. -/
def reversed_range_dev : device :=
  one_line_dev [{ name := "adi_rx_band_setting_0", lo_freq_min := some 10,
                  lo_freq_max := some 5, gpio_settings := none }]

/-- Two lines and rx bands at the indices 0, 1 and 3: index 2 is missing. -/
def gap_node : device_node :=
  { properties := ["adi,band-ctl-0-gpio", "adi,band-ctl-1-gpio"],
    children :=
      [{ name := "adi_rx_band_setting_0", lo_freq_min := some 0, lo_freq_max := some 10,
         gpio_settings := some [CTL_GPIO_OUT_LOW, CTL_GPIO_OUT_HIGH] },
       { name := "adi_rx_band_setting_1", lo_freq_min := some 10, lo_freq_max := some 20,
         gpio_settings := some [CTL_GPIO_OUT_HIGH, CTL_GPIO_OUT_LOW] },
       { name := "adi_rx_band_setting_3", lo_freq_min := some 30, lo_freq_max := some 40,
         gpio_settings := some [CTL_GPIO_IN, CTL_GPIO_IN] }] }

/-- The device of `gap_node`; allocation, line acquisition and the line driver never
fail. -/
def gap_dev : device :=
  { of_node := some gap_node, gpiod_get_errno := fun _ => 0, drv := fun _ _ => 0,
    devm_kzalloc := fun _ => true }

/-- The controller built from `gap_dev`: the rx table holds the entries of the
children 0 and 1, followed by the zeroed last element. -/
def gap_ctl : ad9361_ext_band_ctl :=
  { zero_ctl with
      objs := { gpios := some { ndescs := 2 } },
      rx_settings := some
        [{ name := some "adi_rx_band_setting_0", freq_min := 0, freq_max := 10,
           gpio_values := some [CTL_GPIO_OUT_LOW, CTL_GPIO_OUT_HIGH],
           objs := some { gpios := some { ndescs := 2 } } },
         { name := some "adi_rx_band_setting_1", freq_min := 10, freq_max := 20,
           gpio_values := some [CTL_GPIO_OUT_HIGH, CTL_GPIO_OUT_LOW],
           objs := some { gpios := some { ndescs := 2 } } },
         zero_setting] }

/-- A controller is well formed for `n` lines when its line bank has `n` lines and
every hook setting and every element of its two tables is well formed for `n` lines. -/
def ctl_wf (n : Nat) (ctl : ad9361_ext_band_ctl) : Prop :=
  ctl.objs = { gpios := some { ndescs := n } } ∧
  (∀ h s, ctl.hooks h = some s → setting_wf n s) ∧
  (∀ (lane : Lane) (tbl : List ad9361_band_setting), lane.settings ctl = some tbl →
    ∀ e ∈ tbl, setting_wf n e)

/-- Two lines, an init hook entry with the lines [Input, NoOp] and no band. -/
def init_hook_node : device_node :=
  { properties := ["adi,band-ctl-0-gpio", "adi,band-ctl-1-gpio"],
    children :=
      [{ name := "adi_ext_band_ctl_init", lo_freq_min := none, lo_freq_max := none,
         gpio_settings := some [CTL_GPIO_IN, CTL_GPIO_NOP] }] }

/-- The device of `init_hook_node`; allocation, line acquisition and the line driver never
fail. -/
def init_hook_dev : device :=
  { of_node := some init_hook_node, gpiod_get_errno := fun _ => 0, drv := fun _ _ => 0,
    devm_kzalloc := fun _ => true }

/-- The controller built from `init_hook_dev`. -/
def init_hook_ctl : ad9361_ext_band_ctl :=
  { zero_ctl with
      objs := { gpios := some { ndescs := 2 } },
      hooks_init := some
        { name := some "adi_ext_band_ctl_init", freq_min := 0, freq_max := 0,
          gpio_values := some [CTL_GPIO_IN, CTL_GPIO_NOP],
          objs := some { gpios := some { ndescs := 2 } } },
      rx_curr_setting := some (.hook .CTL_INIT),
      tx_curr_setting := some (.hook .CTL_INIT) }

/-- The validation loop of `ad9361_parse_gpio_settings` from index `i`, with `fuel`
iterations left before `gpio_cnt`, seen from its error message: the value and the
index it passes to `dev_err` ("Invalid setting (%u) for '%s:adi,gpio-settings[%d]'")
when it returns `-EINVAL`, and `none` when it finds no invalid value. -/
def invalid_gpio_report (buf : List Nat) : Nat → Nat → Option (Nat × Nat)
  | 0, _ => none
  | fuel + 1, i =>
    if lctl_gpio_value_valid (buf.getD i 0) then invalid_gpio_report buf fuel (i + 1)
    else some (buf.getD i 0, i)

/-- The function `ad9361_parse_gpio_settings` seen from the same error message: the
value and the position it reports, when the call reaches the validation loop and the
loop finds an invalid value. -/
def ad9361_parse_gpio_settings_report (dev : device) (np : child_node)
    (ctl : ad9361_ext_band_ctl) : Option (Nat × Nat) :=
  if np.gpio_settings.isNone then none
  else
    let gpio_cnt := match ctl.objs.gpios with
      | some g => g.ndescs
      | none => 0
    if dev.devm_kzalloc (.gpio_values np.name) = false then none
    else
      let r := of_property_read_variable_u32_array np.gpio_settings (List.replicate gpio_cnt 0)
        0 gpio_cnt
      if r.1 = 0 then none
      else
        let ret := if 0 < r.1 ∧ r.1 ≠ (gpio_cnt : Int) then -EINVAL else r.1
        if ret < 0 then none
        else invalid_gpio_report r.2 gpio_cnt 0

/-- An entry with three codes, the last two of them outside {0,1,2,3}. -/
def bad_codes_node : child_node :=
  { name := "adi_rx_band_setting_0", lo_freq_min := some 0, lo_freq_max := some 10,
    gpio_settings := some [CTL_GPIO_OUT_LOW, 7, 9] }

/-- A zeroed controller with a line bank of `n` lines. -/
def lines_ctl (n : Nat) : ad9361_ext_band_ctl :=
  { zero_ctl with objs := { gpios := some { ndescs := n } } }

/-- A controller of three lines with the uninit hook [Low, High, Input], whose current
settings both point at the first element of its rx table. -/
def uninit_ctl : ad9361_ext_band_ctl :=
  { zero_ctl with
      objs := { gpios := some { ndescs := 3 } },
      hooks_uninit := some (lines_setting 3 [CTL_GPIO_OUT_LOW, CTL_GPIO_OUT_HIGH, CTL_GPIO_IN]),
      rx_settings := some [three_line_setting, zero_setting],
      rx_curr_setting := some (.rx 0),
      tx_curr_setting := some (.rx 0) }

/-- A sequence of frequency changes, each on the lane it names, run one after the
other from a phy and lines; the return codes of the calls are dropped. -/
def run_calls (dev : device) :
    List (Lane × Nat) → Option ad9361_rf_phy → Hw → Except Fault (Option ad9361_rf_phy × Hw)
  | [], phy, hw => .ok (phy, hw)
  | call :: rest, phy, hw =>
    match ad9361_adjust_ext_band_settings call.1 dev phy call.2 hw with
    | .error e => .error e
    | .ok (_, phy1, hw1) => run_calls dev rest phy1 hw1

/-- The lines agree with the current setting of a lane: wherever that setting exists,
has a line-value vector and holds a value other than NoOp for line `i`, line `i` is in
that state. -/
def lane_consistent (lane : Lane) (ctl : ad9361_ext_band_ctl) (hw : Hw) : Prop :=
  ∀ (p : sett_ptr) (s : ad9361_band_setting) (vals : List Nat) (i v : Nat),
    lane.curr_setting ctl = some p → ctl.deref p = .ok s →
    s.gpio_values = some vals → vals[i]? = some v → v ≠ CTL_GPIO_NOP →
    hw.lines[i]? = some v

/-- The invariant of a lane over a run: the controller is well formed for `n` lines,
the current setting of the lane, if any, points at a setting of the controller, there
are `n` lines, and the lines agree with the current setting of the lane. -/
def lane_inv (n : Nat) (lane : Lane) (ctl : ad9361_ext_band_ctl) (hw : Hw) : Prop :=
  ctl_wf n ctl ∧
  (∀ p, lane.curr_setting ctl = some p → ∃ s, ctl.deref p = .ok s) ∧
  hw.lines.length = n ∧
  lane_consistent lane ctl hw

/-- One line, the rx band [0,10) with the line [OutputLow] and the tx band [0,10) with
the line [OutputHigh]. -/
def cross_node : device_node :=
  { properties := ["adi,band-ctl-0-gpio"],
    children :=
      [{ name := "adi_rx_band_setting_0", lo_freq_min := some 0, lo_freq_max := some 10,
         gpio_settings := some [CTL_GPIO_OUT_LOW] },
       { name := "adi_tx_band_setting_0", lo_freq_min := some 0, lo_freq_max := some 10,
         gpio_settings := some [CTL_GPIO_OUT_HIGH] }] }

/-- The device of `cross_node`; allocation, line acquisition and the line driver never
fail. -/
def cross_dev : device :=
  { of_node := some cross_node, gpiod_get_errno := fun _ => 0, drv := fun _ _ => 0,
    devm_kzalloc := fun _ => true }

/-- The controller built from `cross_dev`, with the given current settings. -/
def cross_ctl (rx_curr tx_curr : Option sett_ptr) : ad9361_ext_band_ctl :=
  { zero_ctl with
      objs := { gpios := some { ndescs := 1 } },
      rx_curr_setting := rx_curr,
      tx_curr_setting := tx_curr,
      rx_settings := some
        [{ name := some "adi_rx_band_setting_0", freq_min := 0, freq_max := 10,
           gpio_values := some [CTL_GPIO_OUT_LOW],
           objs := some { gpios := some { ndescs := 1 } } },
         zero_setting],
      tx_settings := some
        [{ name := some "adi_tx_band_setting_0", freq_min := 0, freq_max := 10,
           gpio_values := some [CTL_GPIO_OUT_HIGH],
           objs := some { gpios := some { ndescs := 1 } } },
         zero_setting] }

/-- Modelled from the spec: `snprintf` is not part of the module.  For the format
`"%u,"` its return value is the length of the formatted item, untruncated: the
decimal digits of the value and the comma. -/
def snprintf_item_len (v : Nat) : Nat :=
  (toString v).length + 1

/-- The size of the buffer `pbuf` of `ad9361_parse_gpio_settings`. -/
abbrev PBUF_SIZE : Int := 256

/-- The formatting side of the validation loop of `ad9361_parse_gpio_settings`, from
index `i` with the write offset `pidx` and `fuel` iterations left before `gpio_cnt`:
the offsets at which the successive `snprintf` calls are made.  The call of an
iteration writes at `&pbuf[pidx]` with the size `sizeof(pbuf) - pidx`, and `pidx` then
advances by its return value. -/
def pidx_trace (buf : List Nat) : Nat → Nat → Int → List Int
  | 0, _, _ => []
  | fuel + 1, i, pidx =>
    if lctl_gpio_value_valid (buf.getD i 0) then
      pidx :: pidx_trace buf fuel (i + 1) (pidx + (snprintf_item_len (buf.getD i 0) : Nat))
    else []

/-- A device whose device node has no property and no child, and whose allocator
returns `NULL` for every call. -/
def no_memory_dev : device :=
  { of_node := some { properties := [], children := [] },
    gpiod_get_errno := fun _ => 0, drv := fun _ _ => 0,
    devm_kzalloc := fun _ => false }

/-- An entry with three codes, all of them in {0,1,2,3}. -/
def good_codes_node : child_node :=
  { name := "adi_rx_band_setting_0", lo_freq_min := some 0, lo_freq_max := some 10,
    gpio_settings := some [CTL_GPIO_OUT_LOW, CTL_GPIO_OUT_HIGH, CTL_GPIO_IN] }

/-- A table serves a frequency: there is no table (for a `NULL` table the lookup of
`ad9361_find_first_setting` returns `NULL` at once), or some element of the allocation
passes the range test for the frequency. -/
def has_match (settings : Option (List ad9361_band_setting)) (freq : Nat) : Bool :=
  match settings with
  | none => true
  | some tbl => tbl.any (fun e => freq_in_range e freq)

/-! # Theorems -/

/-! ## Lookup -/

theorem find_first_loop_ok_some (freq : Nat) (tbl : List ad9361_band_setting) (i k : Nat) :
    find_first_loop freq tbl i = .ok (some k) ↔
      i ≤ k ∧ (∃ e, tbl[k - i]? = some e ∧ freq_in_range e freq = true) ∧
        ∀ m, m < k - i → ∀ e, tbl[m]? = some e → freq_in_range e freq = false := by
  induction tbl generalizing i with
  | nil => simp [find_first_loop]
  | cons s rest ih =>
    unfold find_first_loop
    by_cases hs : freq_in_range s freq = true
    · simp only [hs, if_true, Except.ok.injEq, Option.some.injEq]
      constructor
      · intro h
        subst h
        refine ⟨Nat.le_refl _, ⟨s, by simp, hs⟩, ?_⟩
        intro m hm
        omega
      · rintro ⟨hik, _, hlow⟩
        by_contra hne
        have hpos : 0 < k - i := by omega
        have := hlow 0 hpos s (by simp)
        simp [hs] at this
    · have hs0 : freq_in_range s freq = false := by simpa using hs
      simp only [hs0, Bool.false_eq_true, if_false]
      rw [ih (i + 1)]
      constructor
      · rintro ⟨hik, ⟨e, he, hm⟩, hlow⟩
        have hk : k - i = (k - (i + 1)) + 1 := by omega
        refine ⟨by omega, ⟨e, ?_, hm⟩, ?_⟩
        · rw [hk]; simpa using he
        · intro m hm2 e2 he2
          cases m with
          | zero =>
            simp at he2
            subst he2
            exact hs0
          | succ m =>
            simp at he2
            exact hlow m (by omega) e2 he2
      · rintro ⟨hik, ⟨e, he, hm⟩, hlow⟩
        have hki : k ≠ i := by
          intro h
          subst h
          simp at he
          subst he
          simp [hs0] at hm
        have hk : k - i = (k - (i + 1)) + 1 := by omega
        refine ⟨by omega, ⟨e, ?_, hm⟩, ?_⟩
        · rw [hk] at he; simpa using he
        · intro m hm2 e2 he2
          exact hlow (m + 1) (by omega) e2 (by simpa using he2)

theorem find_first_loop_ne_null (freq : Nat) (tbl : List ad9361_band_setting) (i : Nat) :
    find_first_loop freq tbl i ≠ .ok none := by
  induction tbl generalizing i with
  | nil => simp [find_first_loop]
  | cons s rest ih =>
    unfold find_first_loop
    split
    · simp
    · exact ih (i + 1)

theorem find_first_loop_no_match (freq : Nat) (tbl : List ad9361_band_setting) (i : Nat)
    (h : ∀ e ∈ tbl, freq_in_range e freq = false) :
    find_first_loop freq tbl i = .error (.out_of_bounds (i + tbl.length)) := by
  induction tbl generalizing i with
  | nil => simp [find_first_loop]
  | cons s rest ih =>
    unfold find_first_loop
    have hs : freq_in_range s freq = false := h s (by simp)
    simp only [hs, Bool.false_eq_true, if_false]
    rw [ih (i + 1) (fun e he => h e (by simp [he]))]
    simp only [List.length_cons]
    congr 2
    omega

theorem freq_in_range_iff (sett : ad9361_band_setting) (freq : Nat) :
    freq_in_range sett freq = true ↔ sett.freq_min ≤ freq ∧ freq < sett.freq_max := by
  simp [freq_in_range]

/-- C1: whenever `ad9361_find_first_setting` returns an entry, the table exists and the
entry sits at the lowest index `i` with `table[i].freq_min <= f < table[i].freq_max`:
no entry at a lower index contains `f`. -/
theorem find_first_setting_returns_lowest_match
    (settings : Option (List ad9361_band_setting)) (f i : Nat)
    (h : ad9361_find_first_setting settings f = .ok (some i)) :
    ∃ tbl e, settings = some tbl ∧ tbl[i]? = some e ∧
      (e.freq_min ≤ f ∧ f < e.freq_max) ∧
      ∀ j, j < i → ∀ e2, tbl[j]? = some e2 → ¬ (e2.freq_min ≤ f ∧ f < e2.freq_max) := by
  cases settings with
  | none => simp [ad9361_find_first_setting] at h
  | some tbl =>
    simp only [ad9361_find_first_setting] at h
    rw [find_first_loop_ok_some] at h
    obtain ⟨_, ⟨e, he, hm⟩, hlow⟩ := h
    refine ⟨tbl, e, rfl, by simpa using he, (freq_in_range_iff e f).1 hm, ?_⟩
    intro j hj e2 he2 hc
    have := hlow j (by simpa using hj) e2 he2
    rw [(freq_in_range_iff e2 f).2 hc] at this
    exact Bool.noConfusion this

/-- C1 at the overlapping ranges [0,100) and [50,150) with frequency 75: the lookup
returns the first-declared entry, and that entry satisfies the conclusion of C1. -/
theorem find_first_setting_returns_lowest_match_witness :
    ad9361_find_first_setting (some overlap_table) 75 = .ok (some 0) ∧
    ∃ tbl e, some overlap_table = some tbl ∧ tbl[0]? = some e ∧
      (e.freq_min ≤ 75 ∧ 75 < e.freq_max) ∧
      ∀ j, j < 0 → ∀ e2, tbl[j]? = some e2 → ¬ (e2.freq_min ≤ 75 ∧ 75 < e2.freq_max) :=
  ⟨by decide, find_first_setting_returns_lowest_match (some overlap_table) 75 0 (by decide)⟩

/-- C2 (failing input): one line and one rx band [0,10).  Construction succeeds and
allocates a table of two elements, the band and the zeroed last element.  For the
frequency 20 no element matches: the scan passes the zeroed element and reads
`settings[2]`, outside the allocation, instead of returning `NULL`. -/
theorem adjust_rx_without_match_reads_past_table :
    ad9361_register_ext_band_control one_band_dev ⟨none⟩ one_line_hw =
      .ok (0, ⟨some (one_line_ctl [plain_entry "adi_rx_band_setting_0" 0 10, zero_setting])⟩,
           one_line_hw) ∧
    ad9361_find_first_setting
      (one_line_ctl [plain_entry "adi_rx_band_setting_0" 0 10, zero_setting]).rx_settings 20 =
      .error (.out_of_bounds 2) ∧
    ad9361_adjust_rx_ext_band_settings one_band_dev
      (some ⟨some (one_line_ctl [plain_entry "adi_rx_band_setting_0" 0 10, zero_setting])⟩) 20
      one_line_hw = .error (.out_of_bounds 2) := by
  refine ⟨?_, ?_, ?_⟩ <;> decide

/-- C8 (counterexample): one line and one rx band with `adi,lo-freq-min` and
`adi,lo-freq-max` both 5.  Construction succeeds, and the range test rejects the
frequency `freq_min` of the configured entry. -/
theorem freq_in_range_rejects_freq_min_of_empty_range :
    ad9361_register_ext_band_control empty_range_dev ⟨none⟩ one_line_hw =
      .ok (0, ⟨some (one_line_ctl [plain_entry "adi_rx_band_setting_0" 5 5, zero_setting])⟩,
           one_line_hw) ∧
    freq_in_range (plain_entry "adi_rx_band_setting_0" 5 5)
      (plain_entry "adi_rx_band_setting_0" 5 5).freq_min = false := by
  refine ⟨?_, ?_⟩ <;> decide

/-- C8 (amended): for every entry the range test rejects the frequency `freq_max`, and
it accepts the frequency `freq_min` exactly when `freq_min < freq_max`. -/
theorem freq_in_range_edges (e : ad9361_band_setting) :
    freq_in_range e e.freq_max = false ∧
    (freq_in_range e e.freq_min = true ↔ e.freq_min < e.freq_max) := by
  simp [freq_in_range]

/-! ## Differential apply -/

theorem lctl_gpio_value_valid_iff (v : Nat) :
    lctl_gpio_value_valid v = true ↔ v = 0 ∨ v = 1 ∨ v = 2 ∨ v = 3 := by
  simp only [lctl_gpio_value_valid, CTL_GPIO_NOP, CTL_GPIO_IN, CTL_GPIO_OUT_LOW,
    CTL_GPIO_OUT_HIGH, Bool.or_eq_true, beq_iff_eq]
  omega

theorem writes_between_succ (nv : List Nat) (pv : Option (List Nat)) (lo len : Nat) :
    writes_between nv pv lo (len + 1) =
      (if needs_write nv pv lo then [(lo, nv.getD lo 0)] else []) ++
        writes_between nv pv (lo + 1) len := by
  unfold writes_between
  rw [List.range'_succ, List.filter_cons]
  split <;> simp

/-- The loop of `ad9361_apply_gpio_settings` issues the writes of the spec wording,
in order, up to the first driver failure. -/
theorem apply_gpio_loop_eq_drive (drv : Nat → Nat → Int) (nv : List Nat)
    (pv : Option (List Nat)) (hvalid : ∀ x ∈ nv, lctl_gpio_value_valid x = true)
    (fuel i : Nat) (hw : Hw) (hnv : i + fuel ≤ nv.length)
    (hpv : ∀ p, pv = some p → i + fuel ≤ p.length) :
    apply_gpio_loop drv nv pv fuel i hw = .ok (drive drv (writes_between nv pv i fuel) hw) := by
  induction fuel generalizing i hw with
  | zero => simp [apply_gpio_loop, writes_between, drive]
  | succ fuel ih =>
    have hi : i < nv.length := by omega
    have hget : nv[i]? = some nv[i] := List.getElem?_eq_getElem hi
    have hD : nv.getD i 0 = nv[i] := by simp [List.getD, hget]
    have hv := (lctl_gpio_value_valid_iff nv[i]).1 (hvalid _ (List.getElem_mem hi))
    have ih1 := fun hw1 => ih (i + 1) hw1 (by omega) (fun p hp => by have := hpv p hp; omega)
    rw [writes_between_succ]
    unfold apply_gpio_loop
    simp only [hget]
    cases pv with
    | none =>
      simp only [needs_write, hD]
      rcases hv with h0 | h1 | h2 | h3
      · simp [h0, ih1]
      · simp [h1, ih1, drive, gpiod_direction_output_raw]
        split <;> simp
      · simp [h2, ih1, drive, gpiod_direction_output_raw]
        split <;> simp
      · simp [h3, ih1, drive, gpiod_direction_input]
        split <;> simp
    | some p =>
      have hip : i < p.length := by have := hpv p rfl; omega
      have hgetp : p[i]? = some p[i] := List.getElem?_eq_getElem hip
      have hDp : p.getD i 0 = p[i] := by simp [List.getD, hgetp]
      simp only [needs_write, hD, hDp, hgetp]
      by_cases heq : nv[i] = p[i]
      · simp [heq, ih1]
      · have hne : (nv[i] == p[i]) = false := by simpa using heq
        have hne2 : (p[i] == nv[i]) = false := by simpa using fun h => heq h.symm
        simp only [hne, hne2]
        rcases hv with h0 | h1 | h2 | h3
        · simp [h0, ih1]
        · simp [h1, ih1, drive, gpiod_direction_output_raw]
          split <;> simp
        · simp [h2, ih1, drive, gpiod_direction_output_raw]
          split <;> simp
        · simp [h3, ih1, drive, gpiod_direction_input]
          split <;> simp

theorem drive_no_failure (drv : Nat → Nat → Int) (hdrv : ∀ i v, 0 ≤ drv i v)
    (ws : List (Nat × Nat)) (hw : Hw) :
    (drive drv ws hw).1 = 0 ∧ (drive drv ws hw).2.log = hw.log ++ ws := by
  induction ws generalizing hw with
  | nil => simp [drive]
  | cons w ws ih =>
    have h0 : ¬ (gpiod_request drv hw w.1 w.2).1 < 0 := by
      simp only [gpiod_request]
      exact not_lt.mpr (hdrv _ _)
    simp only [drive, h0, if_false]
    refine ⟨(ih _).1, ?_⟩
    rw [(ih _).2]
    simp [gpiod_request]

/-- C3: for a new setting that is well formed for `n` lines and an optional previous
setting whose vector, if any, has `n` elements, when no driver call fails
`ad9361_apply_gpio_settings` succeeds and the driver calls it adds to the log are
exactly `expected_writes`: none if the new setting has no line-value vector, and
otherwise, in increasing index order, one write `(i, new[i])` for each `i < n` with
`new[i]` not NoOp, unless the previous setting exists, has a vector and
`previous[i] = new[i]`. -/
theorem apply_gpio_settings_writes (drv : Nat → Nat → Int) (new_sett : ad9361_band_setting)
    (previous : Option ad9361_band_setting) (n : Nat) (hw : Hw)
    (hnew : setting_wf n new_sett)
    (hprev : ∀ p pv, previous = some p → p.gpio_values = some pv → pv.length = n)
    (hdrv : ∀ i v, 0 ≤ drv i v) :
    ∃ hw1, ad9361_apply_gpio_settings drv new_sett previous hw = .ok (0, hw1) ∧
      hw1.log = hw.log ++ expected_writes n new_sett previous := by
  unfold ad9361_apply_gpio_settings expected_writes
  cases hnv : new_sett.gpio_values with
  | none => exact ⟨hw, rfl, by simp⟩
  | some nv =>
    obtain ⟨hlen, hvalid, hobjs⟩ := hnew nv hnv
    simp only [hobjs]
    rw [apply_gpio_loop_eq_drive drv nv _ hvalid n 0 hw (by omega)]
    · refine ⟨(drive drv _ hw).2, ?_, (drive_no_failure drv hdrv _ hw).2⟩
      rw [← (drive_no_failure drv hdrv _ hw).1]
    · intro p hp
      cases previous with
      | none => simp at hp
      | some q =>
        have := hprev q p rfl (by simpa using hp)
        omega

/-- C3 at previous = [OutputLow, OutputHigh] and new = [OutputLow, Input] on two
lines: exactly one write, on line 1. -/
theorem apply_gpio_settings_writes_witness :
    (∃ hw1, ad9361_apply_gpio_settings (fun _ _ => 0)
        (lines_setting 2 [CTL_GPIO_OUT_LOW, CTL_GPIO_IN])
        (some (lines_setting 2 [CTL_GPIO_OUT_LOW, CTL_GPIO_OUT_HIGH])) (fresh_hw 2) = .ok (0, hw1) ∧
      hw1.log = (fresh_hw 2).log ++ expected_writes 2
        (lines_setting 2 [CTL_GPIO_OUT_LOW, CTL_GPIO_IN])
        (some (lines_setting 2 [CTL_GPIO_OUT_LOW, CTL_GPIO_OUT_HIGH]))) ∧
    expected_writes 2 (lines_setting 2 [CTL_GPIO_OUT_LOW, CTL_GPIO_IN])
      (some (lines_setting 2 [CTL_GPIO_OUT_LOW, CTL_GPIO_OUT_HIGH])) = [(1, CTL_GPIO_IN)] :=
  ⟨apply_gpio_settings_writes (fun _ _ => 0) (lines_setting 2 [CTL_GPIO_OUT_LOW, CTL_GPIO_IN])
      (some (lines_setting 2 [CTL_GPIO_OUT_LOW, CTL_GPIO_OUT_HIGH])) 2 (fresh_hw 2)
      (by intro v hv; cases hv; decide)
      (by intro p pv hp hpv; cases hp; cases hpv; rfl)
      (fun _ _ => le_refl 0),
   by decide⟩

/-! ## Frequency change -/

/-- Both frequency-change functions, written once for a lane. -/
theorem adjust_unfold (lane : Lane) (dev : device) (ctl : ad9361_ext_band_ctl)
    (freq : Nat) (hw : Hw) :
    ad9361_adjust_ext_band_settings lane dev (some ⟨some ctl⟩) freq hw =
      match ad9361_find_first_setting (lane.settings ctl) freq with
      | .error f => .error f
      | .ok none => .ok (0, some ⟨some ctl⟩, hw)
      | .ok (some i) =>
        if lane.curr_setting ctl = some (lane.ptr i) then .ok (0, some ⟨some ctl⟩, hw)
        else
          match ad9361_apply_settings dev.drv ctl (lane.ptr i) (some (lane.curr_setting ctl)) hw with
          | .error f => .error f
          | .ok (ret, slot, hw1) =>
            if ret < 0 then .ok (ret, some ⟨some (lane.set_curr_setting ctl slot)⟩, hw1)
            else .ok (0, some ⟨some (lane.set_curr_setting ctl slot)⟩, hw1) := by
  cases lane <;> rfl

theorem adjust_no_ctl (lane : Lane) (dev : device) (freq : Nat) (hw : Hw) :
    ad9361_adjust_ext_band_settings lane dev (some ⟨none⟩) freq hw = .ok (0, some ⟨none⟩, hw) := by
  cases lane <;> rfl

/-- The slot `*curr_sett` after `ad9361_apply_settings`: unchanged on failure, the new
setting on success; the return code is negative or 0. -/
theorem apply_settings_slot (drv : Nat → Nat → Int) (ctl : ad9361_ext_band_ctl)
    (new_sett : sett_ptr) (curr : Option sett_ptr) (hw hw1 : Hw) (ret : Int)
    (slot : Option sett_ptr)
    (h : ad9361_apply_settings drv ctl new_sett (some curr) hw = .ok (ret, slot, hw1)) :
    (ret < 0 ∧ slot = curr) ∨ (ret = 0 ∧ slot = some new_sett) := by
  unfold ad9361_apply_settings at h
  simp only at h
  split at h
  · exact Except.noConfusion h
  · split at h
    · exact Except.noConfusion h
    · split at h
      · exact Except.noConfusion h
      · split at h
        · simp only [Except.ok.injEq, Prod.mk.injEq] at h
          obtain ⟨h1, h2, _⟩ := h
          subst h1 h2
          left
          exact ⟨by assumption, rfl⟩
        · simp only [Except.ok.injEq, Prod.mk.injEq] at h
          obtain ⟨h1, h2, _⟩ := h
          right
          exact ⟨h1.symm, h2.symm⟩

theorem lane_settings_set_curr (lane : Lane) (ctl : ad9361_ext_band_ctl)
    (slot : Option sett_ptr) :
    lane.settings (lane.set_curr_setting ctl slot) = lane.settings ctl := by
  cases lane <;> rfl

theorem lane_curr_set_curr (lane : Lane) (ctl : ad9361_ext_band_ctl) (slot : Option sett_ptr) :
    lane.curr_setting (lane.set_curr_setting ctl slot) = slot := by
  cases lane <;> rfl

/-- C4: when two frequencies select the same entry of a lane's table (or both select
none) and the frequency-change operation with the first returns success, the
immediately following operation with the second returns success, makes no driver call
and leaves the phy, the controller and the lines exactly as they were. -/
theorem adjust_same_setting_twice (lane : Lane) (dev : device) (phy : ad9361_rf_phy)
    (f1 f2 : Nat) (hw hw1 : Hw) (phy1 : Option ad9361_rf_phy)
    (hsel : ∀ ctl, phy.ext_band_ctl = some ctl →
      ad9361_find_first_setting (lane.settings ctl) f1 =
        ad9361_find_first_setting (lane.settings ctl) f2)
    (h1 : ad9361_adjust_ext_band_settings lane dev (some phy) f1 hw = .ok (0, phy1, hw1)) :
    ad9361_adjust_ext_band_settings lane dev phy1 f2 hw1 = .ok (0, phy1, hw1) := by
  obtain ⟨octl⟩ := phy
  cases octl with
  | none =>
    rw [adjust_no_ctl] at h1
    simp only [Except.ok.injEq, Prod.mk.injEq, true_and] at h1
    obtain ⟨hp, hh⟩ := h1
    subst hp hh
    exact adjust_no_ctl lane dev f2 hw
  | some ctl =>
    have hsel2 := hsel ctl rfl
    rw [adjust_unfold] at h1
    cases hfind : ad9361_find_first_setting (lane.settings ctl) f1 with
    | error f => simp [hfind] at h1
    | ok r =>
      cases r with
      | none =>
        simp only [hfind, Except.ok.injEq, Prod.mk.injEq, true_and] at h1
        obtain ⟨hp, hh⟩ := h1
        subst hp hh
        rw [adjust_unfold, ← hsel2, hfind]
      | some i =>
        simp only [hfind] at h1
        by_cases hcur : lane.curr_setting ctl = some (lane.ptr i)
        · simp only [hcur, if_true, Except.ok.injEq, Prod.mk.injEq, true_and] at h1
          obtain ⟨hp, hh⟩ := h1
          subst hp hh
          rw [adjust_unfold, ← hsel2, hfind]
          simp [hcur]
        · simp only [hcur, if_false] at h1
          cases happ : ad9361_apply_settings dev.drv ctl (lane.ptr i)
              (some (lane.curr_setting ctl)) hw with
          | error f => simp [happ] at h1
          | ok r =>
            obtain ⟨ret, slot, hw2⟩ := r
            simp only [happ] at h1
            rcases apply_settings_slot _ _ _ _ _ _ _ _ happ with ⟨hneg, _⟩ | ⟨hz, hslot⟩
            · simp only [hneg, if_true, Except.ok.injEq, Prod.mk.injEq] at h1
              omega
            · subst hz hslot
              simp only [lt_irrefl, if_false, Except.ok.injEq, Prod.mk.injEq, true_and] at h1
              obtain ⟨hp, hh⟩ := h1
              subst hp hh
              rw [adjust_unfold, lane_settings_set_curr, ← hsel2, hfind]
              simp [lane_curr_set_curr]

/-- C4 on the scenario table with two lines: tuning rx to 2450 writes [Low,High];
tuning to 2460 then changes nothing; tuning to 5500 then writes the two lines, which
both differ from [Low,High]. -/
theorem adjust_same_setting_twice_witness :
    ad9361_adjust_ext_band_settings .rx quiet_dev (some ⟨some (two_band_ctl none)⟩) 2450
        (fresh_hw 2) =
      .ok (0, some ⟨some (two_band_ctl (some (.rx 0)))⟩,
           { lines := [CTL_GPIO_OUT_LOW, CTL_GPIO_OUT_HIGH],
             log := [(0, CTL_GPIO_OUT_LOW), (1, CTL_GPIO_OUT_HIGH)] }) ∧
    ad9361_adjust_ext_band_settings .rx quiet_dev (some ⟨some (two_band_ctl (some (.rx 0)))⟩) 2460
        { lines := [CTL_GPIO_OUT_LOW, CTL_GPIO_OUT_HIGH],
          log := [(0, CTL_GPIO_OUT_LOW), (1, CTL_GPIO_OUT_HIGH)] } =
      .ok (0, some ⟨some (two_band_ctl (some (.rx 0)))⟩,
           { lines := [CTL_GPIO_OUT_LOW, CTL_GPIO_OUT_HIGH],
             log := [(0, CTL_GPIO_OUT_LOW), (1, CTL_GPIO_OUT_HIGH)] }) ∧
    ad9361_adjust_ext_band_settings .rx quiet_dev (some ⟨some (two_band_ctl (some (.rx 0)))⟩) 5500
        { lines := [CTL_GPIO_OUT_LOW, CTL_GPIO_OUT_HIGH],
          log := [(0, CTL_GPIO_OUT_LOW), (1, CTL_GPIO_OUT_HIGH)] } =
      .ok (0, some ⟨some (two_band_ctl (some (.rx 1)))⟩,
           { lines := [CTL_GPIO_OUT_HIGH, CTL_GPIO_OUT_LOW],
             log := [(0, CTL_GPIO_OUT_LOW), (1, CTL_GPIO_OUT_HIGH),
                     (0, CTL_GPIO_OUT_HIGH), (1, CTL_GPIO_OUT_LOW)] }) :=
  ⟨by decide,
   adjust_same_setting_twice .rx quiet_dev ⟨some (two_band_ctl none)⟩ 2450 2460 (fresh_hw 2)
     { lines := [CTL_GPIO_OUT_LOW, CTL_GPIO_OUT_HIGH],
       log := [(0, CTL_GPIO_OUT_LOW), (1, CTL_GPIO_OUT_HIGH)] }
     (some ⟨some (two_band_ctl (some (.rx 0)))⟩)
     (by intro ctl h; cases h; decide) (by decide),
   by decide⟩

theorem writes_between_append (nv : List Nat) (pv : Option (List Nat)) (lo a b : Nat) :
    writes_between nv pv lo (a + b) =
      writes_between nv pv lo a ++ writes_between nv pv (lo + a) b := by
  induction a generalizing lo with
  | zero => simp [writes_between]
  | succ a ih =>
    rw [show a + 1 + b = (a + b) + 1 by omega, writes_between_succ, writes_between_succ, ih,
      show lo + 1 + a = lo + (a + 1) by omega]
    simp

theorem drive_append (drv : Nat → Nat → Int) (ws1 ws2 : List (Nat × Nat)) (hw : Hw) :
    drive drv (ws1 ++ ws2) hw =
      if (drive drv ws1 hw).1 < 0 then drive drv ws1 hw
      else drive drv ws2 (drive drv ws1 hw).2 := by
  induction ws1 generalizing hw with
  | nil => simp [drive]
  | cons w ws ih =>
    simp only [List.cons_append, drive]
    split
    · simp [*]
    · exact ih _

/-- Issuing the writes of the spec wording for the lines `lo .. lo + len` when none of
them fails: success, the calls are appended to the log, the lines written hold their
new value and every other line is as before. -/
theorem drive_writes_between (drv : Nat → Nat → Int) (nv : List Nat) (pv : Option (List Nat))
    (len lo : Nat) (hw : Hw)
    (hok : ∀ i, lo ≤ i → i < lo + len → needs_write nv pv i = true → 0 ≤ drv i (nv.getD i 0)) :
    (drive drv (writes_between nv pv lo len) hw).1 = 0 ∧
    (drive drv (writes_between nv pv lo len) hw).2.log = hw.log ++ writes_between nv pv lo len ∧
    ∀ i, (drive drv (writes_between nv pv lo len) hw).2.lines[i]? =
      if lo ≤ i ∧ i < lo + len ∧ needs_write nv pv i = true then
        (hw.lines[i]?).map (fun _ => nv.getD i 0)
      else hw.lines[i]? := by
  induction len generalizing lo hw with
  | zero =>
    refine ⟨by simp [writes_between, drive], by simp [writes_between, drive], ?_⟩
    intro i
    have : ¬ (lo ≤ i ∧ i < lo + 0 ∧ needs_write nv pv i = true) := by omega
    rw [if_neg this]
    simp [writes_between, drive]
  | succ len ih =>
    rw [writes_between_succ]
    have ih1 := fun hw1 => ih (lo + 1) hw1 (fun i h1 h2 h3 => hok i (by omega) (by omega) h3)
    by_cases hneed : needs_write nv pv lo = true
    · have hdrv := hok lo (Nat.le_refl _) (by omega) hneed
      have h0 : ¬ (gpiod_request drv hw lo (nv.getD lo 0)).1 < 0 := by
        simp only [gpiod_request]
        exact not_lt.mpr hdrv
      simp only [hneed, if_true, List.singleton_append, drive, h0, if_false]
      obtain ⟨hr, hl, hlines⟩ := ih1 (gpiod_request drv hw lo (nv.getD lo 0)).2
      refine ⟨hr, ?_, ?_⟩
      · rw [hl]
        simp [gpiod_request]
      · intro i
        rw [hlines i]
        have hset : (gpiod_request drv hw lo (nv.getD lo 0)).2.lines = hw.lines.set lo (nv.getD lo 0) := by
          simp only [gpiod_request]
          rw [if_neg (not_lt.mpr hdrv)]
        rw [hset, List.getElem?_set]
        by_cases hi : lo = i
        · subst hi
          have c1 : ¬ (lo + 1 ≤ lo ∧ lo < lo + 1 + len ∧ needs_write nv pv lo = true) := by omega
          have c2 : (lo ≤ lo ∧ lo < lo + (len + 1) ∧ needs_write nv pv lo = true) :=
            ⟨Nat.le_refl _, by omega, hneed⟩
          rw [if_neg c1, if_pos c2]
          by_cases hlt : lo < hw.lines.length
          · simp [hlt]
          · simp [hlt, List.getElem?_eq_none (not_lt.mp hlt)]
        · by_cases hc : lo + 1 ≤ i ∧ i < lo + 1 + len ∧ needs_write nv pv i = true
          · have c2 : (lo ≤ i ∧ i < lo + (len + 1) ∧ needs_write nv pv i = true) :=
              ⟨by omega, by omega, hc.2.2⟩
            rw [if_pos hc, if_pos c2]
            simp [hi]
          · have c2 : ¬ (lo ≤ i ∧ i < lo + (len + 1) ∧ needs_write nv pv i = true) := by
              rintro ⟨a, b, c⟩
              exact hc ⟨by omega, by omega, c⟩
            rw [if_neg hc, if_neg c2]
            simp [hi]
    · obtain ⟨hr, hl, hlines⟩ := ih1 hw
      simp only [hneed, if_false, List.nil_append, Bool.false_eq_true]
      refine ⟨hr, hl, ?_⟩
      intro i
      rw [hlines i]
      by_cases hc : lo + 1 ≤ i ∧ i < lo + 1 + len ∧ needs_write nv pv i = true
      · have c2 : (lo ≤ i ∧ i < lo + (len + 1) ∧ needs_write nv pv i = true) :=
          ⟨by omega, by omega, hc.2.2⟩
        rw [if_pos hc, if_pos c2]
      · have c2 : ¬ (lo ≤ i ∧ i < lo + (len + 1) ∧ needs_write nv pv i = true) := by
          rintro ⟨a, b, c⟩
          by_cases hi : lo = i
          · subst hi
            exact hneed c
          · exact hc ⟨by omega, by omega, c⟩
        rw [if_neg hc, if_neg c2]

theorem mem_writes_between (nv : List Nat) (pv : Option (List Nat)) (lo len : Nat)
    (w : Nat × Nat) :
    w ∈ writes_between nv pv lo len ↔
      (lo ≤ w.1 ∧ w.1 < lo + len) ∧ needs_write nv pv w.1 = true ∧ w.2 = nv.getD w.1 0 := by
  obtain ⟨a, b⟩ := w
  simp only [writes_between, List.mem_map, List.mem_filter, List.mem_range'_1, Prod.mk.injEq]
  constructor
  · rintro ⟨i, ⟨hi, hn⟩, rfl, rfl⟩
    exact ⟨hi, hn, rfl⟩
  · rintro ⟨hi, hn, hb⟩
    exact ⟨a, ⟨hi, hn⟩, rfl, hb.symm⟩

/-- Issuing the writes of the spec wording for `n` lines when the call for line `k` is
the first to fail: the result is that error, the calls made are those for the lines
below `k` followed by the one for `k`, the lines written below `k` hold their new
value and every other line is as before. -/
theorem drive_first_failure (drv : Nat → Nat → Int) (nv : List Nat) (pv : Option (List Nat))
    (n k : Nat) (hw : Hw) (e : Int) (hk : k < n) (hneed : needs_write nv pv k = true)
    (hfail : drv k (nv.getD k 0) = e) (he : e < 0)
    (hbefore : ∀ i, i < k → needs_write nv pv i = true → 0 ≤ drv i (nv.getD i 0)) :
    (drive drv (writes_between nv pv 0 n) hw).1 = e ∧
    (drive drv (writes_between nv pv 0 n) hw).2.log =
      hw.log ++ writes_between nv pv 0 k ++ [(k, nv.getD k 0)] ∧
    ∀ i, (drive drv (writes_between nv pv 0 n) hw).2.lines[i]? =
      if i < k ∧ needs_write nv pv i = true then (hw.lines[i]?).map (fun _ => nv.getD i 0)
      else hw.lines[i]? := by
  obtain ⟨h1, h2, h3⟩ := drive_writes_between drv nv pv k 0 hw
    (fun i _ hi hn => hbefore i (by omega) hn)
  have hsplit : writes_between nv pv 0 n =
      writes_between nv pv 0 k ++ ((k, nv.getD k 0) :: writes_between nv pv (k + 1) (n - k - 1)) := by
    rw [show n = k + ((n - k - 1) + 1) by omega, writes_between_append, writes_between_succ]
    simp [hneed]
  have hneg : (gpiod_request drv (drive drv (writes_between nv pv 0 k) hw).2 k (nv.getD k 0)).1 < 0 := by
    simp only [gpiod_request, hfail]
    exact he
  rw [hsplit, drive_append, if_neg (by rw [h1]; exact lt_irrefl 0)]
  simp only [drive, hneg, if_true]
  refine ⟨by simp only [gpiod_request]; exact hfail, ?_, ?_⟩
  · simp [gpiod_request, h2]
  · intro i
    have hl : (gpiod_request drv (drive drv (writes_between nv pv 0 k) hw).2 k (nv.getD k 0)).2.lines =
        (drive drv (writes_between nv pv 0 k) hw).2.lines := by
      simp only [gpiod_request, hfail]
      rw [if_pos he]
    rw [hl, h3 i]
    simp

theorem lane_set_curr_self (lane : Lane) (ctl : ad9361_ext_band_ctl) :
    lane.set_curr_setting ctl (lane.curr_setting ctl) = ctl := by
  cases lane <;> rfl

/-- C5: when a frequency change selects a new, well-formed setting for a lane and, in
its apply, the driver call for line `k` is the first to fail, with error `e`, the
operation returns exactly `e` and leaves the phy and the lane's current setting
unchanged; the driver calls it made are those for the lines below `k` that needed a
write, followed by the call for line `k`, and none for a line above `k`; each line
below `k` that was written holds its new state, and every other line, in particular
each line from `k` on, holds the state it had before the call. -/
theorem adjust_first_failure (lane : Lane) (dev : device) (ctl : ad9361_ext_band_ctl)
    (f j n k : Nat) (new_sett : ad9361_band_setting) (nv : List Nat)
    (prev : Option ad9361_band_setting) (e : Int) (hw : Hw)
    (hfind : ad9361_find_first_setting (lane.settings ctl) f = .ok (some j))
    (hcur : lane.curr_setting ctl ≠ some (lane.ptr j))
    (hnew : ctl.deref (lane.ptr j) = .ok new_sett)
    (hwf : setting_wf n new_sett) (hnv : new_sett.gpio_values = some nv)
    (hprev : ctl.deref_opt (lane.curr_setting ctl) = .ok prev)
    (hprevlen : ∀ p pv, prev = some p → p.gpio_values = some pv → pv.length = n)
    (hk : k < n)
    (hneed : needs_write nv (prev.bind (fun p => p.gpio_values)) k = true)
    (hfail : dev.drv k (nv.getD k 0) = e) (he : e < 0)
    (hbefore : ∀ i, i < k → needs_write nv (prev.bind (fun p => p.gpio_values)) i = true →
      0 ≤ dev.drv i (nv.getD i 0)) :
    ∃ hw1, ad9361_adjust_ext_band_settings lane dev (some ⟨some ctl⟩) f hw =
        .ok (e, some ⟨some ctl⟩, hw1) ∧
      hw1.log = hw.log ++ writes_between nv (prev.bind (fun p => p.gpio_values)) 0 k ++
        [(k, nv.getD k 0)] ∧
      (∀ w ∈ writes_between nv (prev.bind (fun p => p.gpio_values)) 0 k, w.1 < k) ∧
      (∀ i, i < k → needs_write nv (prev.bind (fun p => p.gpio_values)) i = true →
        hw1.lines[i]? = (hw.lines[i]?).map (fun _ => nv.getD i 0)) ∧
      (∀ i, i < k → needs_write nv (prev.bind (fun p => p.gpio_values)) i = false →
        hw1.lines[i]? = hw.lines[i]?) ∧
      (∀ i, k ≤ i → hw1.lines[i]? = hw.lines[i]?) := by
  obtain ⟨hlen, hvalid, hobjs⟩ := hwf nv hnv
  have hloop := apply_gpio_loop_eq_drive dev.drv nv (prev.bind (fun p => p.gpio_values)) hvalid
    n 0 hw (by omega) (by
      intro p hp
      cases prev with
      | none => simp at hp
      | some q =>
        have := hprevlen q p rfl (by simpa using hp)
        omega)
  obtain ⟨d1, d2, d3⟩ := drive_first_failure dev.drv nv (prev.bind (fun p => p.gpio_values))
    n k hw e hk hneed hfail he hbefore
  have happ : ad9361_apply_gpio_settings dev.drv new_sett prev hw =
      .ok (drive dev.drv (writes_between nv (prev.bind (fun p => p.gpio_values)) 0 n) hw) := by
    unfold ad9361_apply_gpio_settings
    simp only [hnv, hobjs]
    exact hloop
  refine ⟨(drive dev.drv (writes_between nv (prev.bind (fun p => p.gpio_values)) 0 n) hw).2,
    ?_, d2, ?_, ?_, ?_, ?_⟩
  · rw [adjust_unfold, hfind]
    simp only [hcur, if_false]
    unfold ad9361_apply_settings
    simp only [hnew, hprev, happ]
    have hneg : (drive dev.drv (writes_between nv (prev.bind (fun p => p.gpio_values)) 0 n) hw).1 < 0 := by
      rw [d1]; exact he
    simp only [hneg, if_true, d1]
    simp only [he, if_true, lane_set_curr_self]
  · intro w hw2
    have := (mem_writes_between _ _ _ _ w).1 hw2
    omega
  · intro i hi hn
    rw [d3 i, if_pos ⟨hi, hn⟩]
  · intro i hi hn
    rw [d3 i, if_neg (by simp [hn])]
  · intro i hi
    rw [d3 i, if_neg (by omega)]

/-- C5 on three lines with a driver that fails on line 1: the frequency change returns
the error of line 1, the current setting stays unset, the calls made are those for
lines 0 and 1, line 0 is in its new state and lines 1 and 2 are as before. -/
theorem adjust_first_failure_witness :
    ad9361_adjust_ext_band_settings .rx line1_fails_dev (some ⟨some three_line_ctl⟩) 5
        (fresh_hw 3) =
      .ok (-5, some ⟨some three_line_ctl⟩,
           { lines := [CTL_GPIO_OUT_LOW, 0, 0],
             log := [(0, CTL_GPIO_OUT_LOW), (1, CTL_GPIO_OUT_HIGH)] }) ∧
    ∃ hw1, ad9361_adjust_ext_band_settings .rx line1_fails_dev (some ⟨some three_line_ctl⟩) 5
        (fresh_hw 3) = .ok (-5, some ⟨some three_line_ctl⟩, hw1) ∧
      hw1.log = (fresh_hw 3).log ++
        writes_between [CTL_GPIO_OUT_LOW, CTL_GPIO_OUT_HIGH, CTL_GPIO_IN]
          ((none : Option ad9361_band_setting).bind (fun p => p.gpio_values)) 0 1 ++
        [(1, [CTL_GPIO_OUT_LOW, CTL_GPIO_OUT_HIGH, CTL_GPIO_IN].getD 1 0)] ∧
      (∀ w ∈ writes_between [CTL_GPIO_OUT_LOW, CTL_GPIO_OUT_HIGH, CTL_GPIO_IN]
          ((none : Option ad9361_band_setting).bind (fun p => p.gpio_values)) 0 1, w.1 < 1) ∧
      (∀ i, i < 1 → needs_write [CTL_GPIO_OUT_LOW, CTL_GPIO_OUT_HIGH, CTL_GPIO_IN]
          ((none : Option ad9361_band_setting).bind (fun p => p.gpio_values)) i = true →
        hw1.lines[i]? = ((fresh_hw 3).lines[i]?).map
          (fun _ => [CTL_GPIO_OUT_LOW, CTL_GPIO_OUT_HIGH, CTL_GPIO_IN].getD i 0)) ∧
      (∀ i, i < 1 → needs_write [CTL_GPIO_OUT_LOW, CTL_GPIO_OUT_HIGH, CTL_GPIO_IN]
          ((none : Option ad9361_band_setting).bind (fun p => p.gpio_values)) i = false →
        hw1.lines[i]? = (fresh_hw 3).lines[i]?) ∧
      (∀ i, 1 ≤ i → hw1.lines[i]? = (fresh_hw 3).lines[i]?) :=
  ⟨by decide,
   adjust_first_failure .rx line1_fails_dev three_line_ctl 5 0 3 1 three_line_setting
     [CTL_GPIO_OUT_LOW, CTL_GPIO_OUT_HIGH, CTL_GPIO_IN] none (-5) (fresh_hw 3)
     (by decide) (by decide) (by decide)
     (by intro v hv; cases hv; decide)
     rfl (by decide)
     (by intro p pv hp; cases hp)
     (by decide) (by decide) (by decide) (by decide)
     (by intro i hi _; have : i = 0 := by omega
         subst this; decide)⟩

/-! ## Construction -/

/-- The counting loop of `ad9361_populate_objs` stops at the first missing key or
when its iterations are used up. -/
theorem count_gpio_props_spec (np : Option device_node) (fuel cnt : Nat) :
    cnt ≤ count_gpio_props np fuel cnt ∧ count_gpio_props np fuel cnt ≤ cnt + fuel ∧
    (∀ i, cnt ≤ i → i < count_gpio_props np fuel cnt →
      of_find_property np (gpio_prop_name i) = true) ∧
    (count_gpio_props np fuel cnt < cnt + fuel →
      of_find_property np (gpio_prop_name (count_gpio_props np fuel cnt)) = false) := by
  induction fuel generalizing cnt with
  | zero =>
    refine ⟨Nat.le_refl _, Nat.le_refl _, ?_, ?_⟩
    · intro i h1 h2
      simp only [count_gpio_props] at h2
      omega
    · intro h
      simp only [count_gpio_props] at h
      omega
  | succ fuel ih =>
    unfold count_gpio_props
    by_cases hp : of_find_property np (gpio_prop_name cnt) = true
    · simp only [hp, if_true]
      obtain ⟨h1, h2, h3, h4⟩ := ih (cnt + 1)
      refine ⟨by omega, by omega, ?_, ?_⟩
      · intro i hi1 hi2
        by_cases hic : i = cnt
        · subst hic; exact hp
        · exact h3 i (by omega) hi2
      · intro h
        exact h4 (by omega)
    · simp only [hp, if_false, Bool.false_eq_true]
      refine ⟨Nat.le_refl _, by omega, ?_, ?_⟩
      · intro i h1 h2
        omega
      · intro _
        trivial

/-- C10 (counterexample): a device node without any property, so that line key 0 is
missing, on a device whose allocator returns `NULL`: construction returns `-ENOMEM`,
not 0. -/
theorem register_without_lines_fails_without_memory :
    of_find_property no_memory_dev.of_node (gpio_prop_name 0) = false ∧
    ad9361_register_ext_band_control no_memory_dev ⟨none⟩ (fresh_hw 0) =
      .ok (-ENOMEM, ⟨none⟩, fresh_hw 0) ∧
    -ENOMEM ≠ 0 := by
  decide

/-- C10 (amended): when line key 0 is missing, `ad9361_register_ext_band_control`
installs no controller (the phy is unchanged) and makes no driver call; it returns 0
when the allocation of the controller object succeeds and `-ENOMEM` when it fails.  And
when the phy had no controller before, every later rx or tx frequency change returns 0
and leaves the phy and the lines unchanged, for every frequency. -/
theorem register_without_lines (dev : device) (phy : ad9361_rf_phy) (hw : Hw)
    (hkey : of_find_property dev.of_node (gpio_prop_name 0) = false) :
    (dev.devm_kzalloc .ctl = true →
      ad9361_register_ext_band_control dev phy hw = .ok (0, phy, hw)) ∧
    (dev.devm_kzalloc .ctl = false →
      ad9361_register_ext_band_control dev phy hw = .ok (-ENOMEM, phy, hw)) ∧
    (phy.ext_band_ctl = none →
      ∀ (lane : Lane) (freq : Nat) (hw2 : Hw),
        ad9361_adjust_ext_band_settings lane dev (some phy) freq hw2 =
          .ok (0, some phy, hw2)) := by
  refine ⟨?_, ?_, ?_⟩
  · intro ha
    have hc : count_gpio_props dev.of_node MAX_CTRL_GPIOS 0 = 0 := by
      show count_gpio_props dev.of_node (255 + 1) 0 = 0
      unfold count_gpio_props
      simp [hkey]
    simp [ad9361_register_ext_band_control, ad9361_populate_objs, hc, ha]
  · intro ha
    simp [ad9361_register_ext_band_control, ha]
  · intro hfresh lane freq hw2
    obtain ⟨c⟩ := phy
    simp only at hfresh
    subst hfresh
    exact adjust_no_ctl lane dev freq hw2

/-- C10 (amended) on a device node without any property, with an allocator that does
not fail: line key 0 is missing and construction returns 0. -/
theorem register_without_lines_witness :
    of_find_property bare_dev.of_node (gpio_prop_name 0) = false ∧
    ad9361_register_ext_band_control bare_dev ⟨none⟩ (fresh_hw 0) = .ok (0, ⟨none⟩, fresh_hw 0) ∧
    (bare_dev.devm_kzalloc .ctl = true →
      ad9361_register_ext_band_control bare_dev ⟨none⟩ (fresh_hw 0) =
        .ok (0, ⟨none⟩, fresh_hw 0)) ∧
    (bare_dev.devm_kzalloc .ctl = false →
      ad9361_register_ext_band_control bare_dev ⟨none⟩ (fresh_hw 0) =
        .ok (-ENOMEM, ⟨none⟩, fresh_hw 0)) ∧
    ((⟨none⟩ : ad9361_rf_phy).ext_band_ctl = none →
      ∀ (lane : Lane) (freq : Nat) (hw2 : Hw),
        ad9361_adjust_ext_band_settings lane bare_dev (some ⟨none⟩) freq hw2 =
          .ok (0, some ⟨none⟩, hw2)) :=
  ⟨by decide, by decide, register_without_lines bare_dev ⟨none⟩ (fresh_hw 0) (by decide)⟩

theorem check_gpio_values_valid (buf : List Nat) (fuel i : Nat)
    (h : ∀ j, i ≤ j → j < i + fuel → lctl_gpio_value_valid (buf.getD j 0) = true) :
    check_gpio_values buf fuel i = 0 := by
  induction fuel generalizing i with
  | zero => rfl
  | succ fuel ih =>
    unfold check_gpio_values
    rw [if_pos (h i (Nat.le_refl _) (by omega))]
    exact ih (i + 1) (fun j h1 h2 => h j (by omega) (by omega))

theorem check_gpio_values_invalid (buf : List Nat) (fuel i : Nat)
    (h : ∃ j, i ≤ j ∧ j < i + fuel ∧ lctl_gpio_value_valid (buf.getD j 0) = false) :
    check_gpio_values buf fuel i = -EINVAL := by
  induction fuel generalizing i with
  | zero =>
    obtain ⟨j, h1, h2, _⟩ := h
    omega
  | succ fuel ih =>
    unfold check_gpio_values
    by_cases hv : lctl_gpio_value_valid (buf.getD i 0) = true
    · rw [if_pos hv]
      obtain ⟨j, h1, h2, h3⟩ := h
      have hne : j ≠ i := by
        intro hji
        subst hji
        rw [hv] at h3
        exact Bool.noConfusion h3
      exact ih (i + 1) ⟨j, by omega, by omega, h3⟩
    · rw [if_neg hv]

theorem check_gpio_values_spec (vals : List Nat) :
    check_gpio_values vals vals.length 0 =
      if vals.any (fun v => !(v == 0 || v == 1 || v == 2 || v == 3)) then -EINVAL else 0 := by
  split
  · rename_i h
    rw [List.any_eq_true] at h
    obtain ⟨v, hv, hbad⟩ := h
    obtain ⟨j, hj, rfl⟩ := List.getElem_of_mem hv
    apply check_gpio_values_invalid
    refine ⟨j, Nat.zero_le _, by omega, ?_⟩
    have : vals.getD j 0 = vals[j] := by simp [List.getD, List.getElem?_eq_getElem hj]
    rw [this]
    cases hval : lctl_gpio_value_valid vals[j] with
    | false => rfl
    | true =>
      rw [lctl_gpio_value_valid_iff] at hval
      simp only [Bool.not_eq_true', Bool.or_eq_false_iff, beq_eq_false_iff_ne] at hbad
      omega
  · rename_i h
    apply check_gpio_values_valid
    intro j _ hj
    have hj2 : j < vals.length := by omega
    have : vals.getD j 0 = vals[j] := by simp [List.getD, List.getElem?_eq_getElem hj2]
    rw [this, lctl_gpio_value_valid_iff]
    have hall : ¬ (!(vals[j] == 0 || vals[j] == 1 || vals[j] == 2 || vals[j] == 3)) = true := by
      intro hb
      exact h (List.any_eq_true.mpr ⟨vals[j], List.getElem_mem hj2, hb⟩)
    simp only [Bool.not_eq_true', Bool.not_eq_false, Bool.or_eq_true, beq_iff_eq] at hall
    omega

/-- The function `ad9361_parse_gpio_settings` against the spec wording: it returns
`-ENOMEM` when the line-value vector cannot be allocated, it fails when the
`adi,gpio-settings` array is bad, and otherwise it returns 0 and stores the line bank,
the name and the declared vector. -/
theorem parse_gpio_settings_spec (dev : device) (c : child_node) (ctl : ad9361_ext_band_ctl)
    (sett : ad9361_band_setting) (n : Nat) (hn : ctl.objs = { gpios := some { ndescs := n } }) :
    (gpio_alloc_ok dev c = false →
      ad9361_parse_gpio_settings dev c ctl sett =
        (-ENOMEM, { sett with
                      objs := some { gpios := some { ndescs := n } }, name := some c.name,
                      gpio_values := none })) ∧
    (gpio_alloc_ok dev c = true → gpio_settings_bad n c = true →
      (ad9361_parse_gpio_settings dev c ctl sett).1 < 0) ∧
    (gpio_alloc_ok dev c = true → gpio_settings_bad n c = false →
      ad9361_parse_gpio_settings dev c ctl sett =
        (0, { sett with
                objs := some { gpios := some { ndescs := n } }, name := some c.name,
                gpio_values := match c.gpio_settings with
                  | none => sett.gpio_values
                  | some _ => parsed_gpio_values c })) := by
  unfold ad9361_parse_gpio_settings gpio_settings_bad parsed_gpio_values gpio_alloc_ok
  cases hg : c.gpio_settings with
  | none => simp [hn]
  | some vals =>
    cases ha : dev.devm_kzalloc (.gpio_values c.name) with
    | false => simp [hn]
    | true =>
      refine ⟨fun h => by simp at h, fun _ => ?_, fun _ => ?_⟩
      all_goals
        simp only [hn, Option.isNone_some, Bool.false_eq_true, if_false,
          of_property_read_variable_u32_array, Nat.not_lt_zero, false_or, Bool.true_eq_false]
      · by_cases hlong : n < vals.length
        · simp only [hlong, if_true]
          intro _
          norm_num [EOVERFLOW, EINVAL]
        · simp only [hlong, if_false]
          by_cases hz : vals.length = 0
          · have hnil : vals = [] := List.length_eq_zero.mp hz
            subst hnil
            simp
          · by_cases hlen : vals.length = n
            · subst hlen
              have hdrop : vals ++ List.drop vals.length (List.replicate vals.length 0) = vals := by
                simp
              have hne0 : ¬ ((vals.length : Int) = 0) := by omega
              have hnn : ¬ ((vals.length : Int) < 0) := by omega
              simp only [hdrop, hne0, if_false, ne_eq, not_true_eq_false, and_false, hnn,
                check_gpio_values_spec, bne_self_eq_false, Bool.and_false, Bool.false_or, hz]
              intro hb
              simp only [hb, if_true]
              norm_num [EINVAL]
            · have hpos : (0 : Int) < (vals.length : Int) := by omega
              have hne0 : ¬ ((vals.length : Int) = 0) := by omega
              have hnen : ¬ ((vals.length : Int) = (n : Int)) := by omega
              simp only [hne0, if_false, hpos, true_and, ne_eq, hnen, not_false_eq_true, if_true]
              intro _
              norm_num [EINVAL]
      · by_cases hlong : n < vals.length
        · simp only [hlong, if_true]
          intro hb
          simp only [Bool.or_eq_false_iff, Bool.and_eq_false_imp, bne_iff_ne, ne_eq,
            bne_eq_false_iff_eq] at hb
          have := hb.1
          omega
        · simp only [hlong, if_false]
          by_cases hz : vals.length = 0
          · have hnil : vals = [] := List.length_eq_zero.mp hz
            subst hnil
            simp
          · by_cases hlen : vals.length = n
            · subst hlen
              have hdrop : vals ++ List.drop vals.length (List.replicate vals.length 0) = vals := by
                simp
              have hne0 : ¬ ((vals.length : Int) = 0) := by omega
              have hnn : ¬ ((vals.length : Int) < 0) := by omega
              simp only [hdrop, hne0, if_false, ne_eq, not_true_eq_false, and_false, hnn,
                check_gpio_values_spec, bne_self_eq_false, Bool.and_false, Bool.false_or, hz]
              intro hb
              simp only [hb, Bool.false_eq_true, if_false]
            · intro hb
              simp only [Bool.or_eq_false_iff, Bool.and_eq_false_imp, bne_iff_ne, ne_eq,
                bne_eq_false_iff_eq] at hb
              have := hb.1 hz
              omega

/-- The function `ad9361_parse_setting` on a zeroed setting against the spec wording. -/
theorem parse_setting_spec (dev : device) (c : child_node) (ctl : ad9361_ext_band_ctl) (n : Nat)
    (hn : ctl.objs = { gpios := some { ndescs := n } }) :
    (gpio_alloc_ok dev c = false ∨ gpio_settings_bad n c = true →
      (ad9361_parse_setting dev c ctl zero_setting).1 < 0) ∧
    (gpio_alloc_ok dev c = true → gpio_settings_bad n c = false →
      ad9361_parse_setting dev c ctl zero_setting = (0, parsed_hook n c)) := by
  obtain ⟨h0, h1, h2⟩ := parse_gpio_settings_spec dev c ctl zero_setting n hn
  have hneg : gpio_alloc_ok dev c = false ∨ gpio_settings_bad n c = true →
      (ad9361_parse_gpio_settings dev c ctl zero_setting).1 < 0 := by
    intro h
    cases ha : gpio_alloc_ok dev c with
    | false =>
      rw [h0 ha]
      norm_num [ENOMEM]
    | true =>
      rcases h with h | h
      · rw [ha] at h
        exact Bool.noConfusion h
      · exact h1 ha h
  unfold ad9361_parse_setting
  constructor
  · intro hb
    simp only [hneg hb, if_true]
  · intro ha hb
    rw [h2 ha hb]
    simp only [lt_irrefl, if_false, parsed_hook, parsed_gpio_values, zero_setting]
    cases c.gpio_settings <;> rfl

/-- The function `ad9361_parse_setting_with_freq_range` on a zeroed table element
against the spec wording: it fails exactly when the entry does not load, and otherwise
returns 0 and leaves the entry of the data model. -/
theorem parse_setting_with_freq_range_spec (dev : device) (c : child_node)
    (ctl : ad9361_ext_band_ctl) (n : Nat) (hn : ctl.objs = { gpios := some { ndescs := n } }) :
    (entry_loads dev n c = false →
      (ad9361_parse_setting_with_freq_range dev c ctl zero_setting).1 < 0) ∧
    (entry_loads dev n c = true →
      ad9361_parse_setting_with_freq_range dev c ctl zero_setting = (0, parsed_entry n c)) := by
  unfold ad9361_parse_setting_with_freq_range entry_loads entry_ok of_property_read_u64
  cases hmin : c.lo_freq_min with
  | none => simp [EINVAL]
  | some a =>
    cases hmax : c.lo_freq_max with
    | none => simp [EINVAL]
    | some b =>
      obtain ⟨h0, h1, h2⟩ := parse_gpio_settings_spec dev c ctl
        { zero_setting with freq_min := a, freq_max := b } n hn
      simp only [lt_irrefl, if_false, Option.isSome_some, Bool.true_and]
      unfold ad9361_parse_setting
      cases ha : gpio_alloc_ok dev c with
      | false =>
        constructor
        · intro _
          rw [h0 ha]
          norm_num [ENOMEM]
        · intro hb
          simp at hb
      | true =>
        cases hbad : gpio_settings_bad n c with
        | true =>
          constructor
          · intro _
            simp only [h1 ha hbad, if_true]
          · intro hb
            simp at hb
        | false =>
          constructor
          · intro hb
            simp at hb
          · intro _
            rw [h2 ha hbad]
            simp only [lt_irrefl, if_false, parsed_entry, parsed_gpio_values, zero_setting, hmin,
              hmax, Option.getD_some]
            cases c.gpio_settings <;> rfl

/-- The counting pass of `ad9361_scan_ctl_settings` stops at the first missing child
or when its iterations are used up, and leaves the `NULL` table alone. -/
theorem scan_ctl_loop_count (dev : device) (np : Option device_node) (type : String)
    (ctl : ad9361_ext_band_ctl) (fuel cnt : Nat) :
    ∃ c : Nat, scan_ctl_loop dev np type ctl fuel cnt none = ((c : Int), none) ∧
      cnt ≤ c ∧ c ≤ cnt + fuel ∧
      (∀ i, cnt ≤ i → i < c → (of_get_child_by_name np (child_name type i)).isSome = true) ∧
      (c < cnt + fuel → of_get_child_by_name np (child_name type c) = none) := by
  induction fuel generalizing cnt with
  | zero =>
    refine ⟨cnt, rfl, Nat.le_refl _, Nat.le_refl _, ?_, ?_⟩
    · intro i h1 h2; omega
    · intro h; omega
  | succ fuel ih =>
    unfold scan_ctl_loop
    cases hc : of_get_child_by_name np (child_name type cnt) with
    | none =>
      refine ⟨cnt, rfl, Nat.le_refl _, by omega, ?_, ?_⟩
      · intro i h1 h2; omega
      · intro _; exact hc
    | some child =>
      obtain ⟨c, h1, h2, h3, h4, h5⟩ := ih (cnt + 1)
      refine ⟨c, h1, by omega, by omega, ?_, ?_⟩
      · intro i hi1 hi2
        by_cases hic : i = cnt
        · subst hic; simp [hc]
        · exact h4 i (by omega) hi2
      · intro h
        exact h5 (by omega)

/-- The parsing pass of `ad9361_scan_ctl_settings` over children that are all present
and table elements that are all zeroed: it fails when one of the entries does not load,
and otherwise returns the final index and stores the entry of each child. -/
theorem scan_ctl_loop_parse (dev : device) (np : Option device_node) (type : String)
    (ctl : ad9361_ext_band_ctl) (n : Nat) (hn : ctl.objs = { gpios := some { ndescs := n } })
    (fuel cnt : Nat) (tbl : List ad9361_band_setting)
    (hpresent : ∀ i, cnt ≤ i → i < cnt + fuel →
      (of_get_child_by_name np (child_name type i)).isSome = true)
    (hzero : ∀ i, cnt ≤ i → i < cnt + fuel → tbl[i]? = some zero_setting) :
    ((∃ i child, cnt ≤ i ∧ i < cnt + fuel ∧
        of_get_child_by_name np (child_name type i) = some child ∧
        entry_loads dev n child = false) →
      (scan_ctl_loop dev np type ctl fuel cnt (some tbl)).1 < 0) ∧
    ((∀ i child, cnt ≤ i → i < cnt + fuel →
        of_get_child_by_name np (child_name type i) = some child →
        entry_loads dev n child = true) →
      ∃ tbl2, scan_ctl_loop dev np type ctl fuel cnt (some tbl) =
          (((cnt + fuel : Nat) : Int), some tbl2) ∧
        tbl2.length = tbl.length ∧
        ∀ i, tbl2[i]? =
          if cnt ≤ i ∧ i < cnt + fuel then
            (of_get_child_by_name np (child_name type i)).map (parsed_entry n)
          else tbl[i]?) := by
  induction fuel generalizing cnt tbl with
  | zero =>
    constructor
    · rintro ⟨i, _, h1, h2, _⟩
      omega
    · intro _
      refine ⟨tbl, rfl, rfl, ?_⟩
      intro i
      rw [if_neg (by omega)]
  | succ fuel ih =>
    have hp := hpresent cnt (Nat.le_refl _) (by omega)
    obtain ⟨child, hchild⟩ := Option.isSome_iff_exists.mp hp
    have hz := hzero cnt (Nat.le_refl _) (by omega)
    have hgetD : tbl.getD cnt zero_setting = zero_setting := by
      simp [List.getD, hz]
    have hlt : cnt < tbl.length := by
      by_contra hge
      rw [List.getElem?_eq_none (not_lt.mp hge)] at hz
      exact Option.noConfusion hz
    obtain ⟨p1, p2⟩ := parse_setting_with_freq_range_spec dev child ctl n hn
    unfold scan_ctl_loop
    simp only [hchild, hgetD]
    have ih1 := ih (cnt + 1)
      (tbl.set cnt (ad9361_parse_setting_with_freq_range dev child ctl zero_setting).2)
      (fun i h1 h2 => hpresent i (by omega) (by omega))
      (fun i h1 h2 => by
        rw [List.getElem?_set_ne (by omega)]
        exact hzero i (by omega) (by omega))
    by_cases hok : entry_loads dev n child = true
    · have hr := p2 hok
      have hnn : ¬ (ad9361_parse_setting_with_freq_range dev child ctl zero_setting).1 < 0 := by
        rw [hr]; exact lt_irrefl 0
      simp only [hnn, if_false]
      constructor
      · rintro ⟨i, ch, h1, h2, h3, h4⟩
        by_cases hic : i = cnt
        · subst hic
          rw [hchild] at h3
          cases h3
          rw [hok] at h4
          exact Bool.noConfusion h4
        · exact ih1.1 ⟨i, ch, by omega, by omega, h3, h4⟩
      · intro hall
        obtain ⟨tbl2, e1, e2, e3⟩ := ih1.2 (fun i ch h1 h2 h3 => hall i ch (by omega) (by omega) h3)
        refine ⟨tbl2, ?_, ?_, ?_⟩
        · rw [e1]
          congr 2
          omega
        · rw [e2, List.length_set]
        · intro i
          rw [e3 i]
          by_cases hic : i = cnt
          · subst hic
            rw [if_neg (by omega), if_pos ⟨Nat.le_refl _, by omega⟩, hchild, hr]
            simp [hlt]
          · by_cases hin : cnt + 1 ≤ i ∧ i < cnt + 1 + fuel
            · rw [if_pos hin, if_pos ⟨by omega, by omega⟩]
            · rw [if_neg hin, if_neg (by omega), List.getElem?_set_ne (fun h => hic h.symm)]
    · have hbad : entry_loads dev n child = false := by simpa using hok
      have hneg := p1 hbad
      simp only [hneg, if_true]
      constructor
      · intro _
        trivial
      · intro hall
        have := hall cnt child (Nat.le_refl _) (by omega) hchild
        rw [hbad] at this
        exact Bool.noConfusion this

/-- The function `ad9361_populate_settings` against the spec wording.  The number `c`
of entries it discovers is the first missing index, capped at `MAX_CTRL_SETTINGS`.  It
fails when there is an entry and the table cannot be allocated, or when one of these
entries does not load; otherwise it returns 0 and leaves no table when `c = 0`, and
else a table of `c + 1` elements: the entry of each child, in order, and the zeroed
last element. -/
theorem populate_settings_spec (dev : device) (ctl : ad9361_ext_band_ctl) (type : String)
    (n : Nat) (np : device_node) (hnp : dev.of_node = some np)
    (hn : ctl.objs = { gpios := some { ndescs := n } }) :
    ∃ c : Nat, c ≤ MAX_CTRL_SETTINGS ∧
      (∀ i, i < c → (of_get_child_by_name dev.of_node (child_name type i)).isSome = true) ∧
      (c < MAX_CTRL_SETTINGS → of_get_child_by_name dev.of_node (child_name type c) = none) ∧
      ((0 < c ∧ dev.devm_kzalloc (.settings type) = false) ∨
          (∃ i child, i < c ∧
            of_get_child_by_name dev.of_node (child_name type i) = some child ∧
            entry_loads dev n child = false) →
        (ad9361_populate_settings dev ctl type none).1 < 0) ∧
      ((0 < c → dev.devm_kzalloc (.settings type) = true) →
        (∀ i child, i < c → of_get_child_by_name dev.of_node (child_name type i) = some child →
          entry_loads dev n child = true) →
        (ad9361_populate_settings dev ctl type none).1 = 0 ∧
        (c = 0 → (ad9361_populate_settings dev ctl type none).2 = none) ∧
        (0 < c → ∃ tbl, (ad9361_populate_settings dev ctl type none).2 = some tbl ∧
          tbl.length = c + 1 ∧
          (∀ i, i < c → tbl[i]? =
            (of_get_child_by_name dev.of_node (child_name type i)).map (parsed_entry n)) ∧
          tbl[c]? = some zero_setting)) := by
  obtain ⟨c, hc, _, hc2, hc3, hc4⟩ :=
    scan_ctl_loop_count dev (some np) type ctl MAX_CTRL_SETTINGS 0
  rw [hnp]
  refine ⟨c, by omega, fun i hi => hc3 i (Nat.zero_le _) hi, fun h => hc4 (by omega), ?_⟩
  have hcnt : (ad9361_scan_ctl_settings dev type MAX_CTRL_SETTINGS ctl none).1 = (c : Int) := by
    simp only [ad9361_scan_ctl_settings, hnp, hc]
  by_cases hc0 : c = 0
  · subst hc0
    have hres : ad9361_populate_settings dev ctl type none = (0, none) := by
      unfold ad9361_populate_settings
      simp only [hcnt]
      simp
    rw [hres]
    constructor
    · rintro (⟨h0, _⟩ | ⟨i, _, hi, _⟩)
      · omega
      · omega
    · intro _ _
      exact ⟨rfl, fun _ => rfl, fun h => absurd h (lt_irrefl 0)⟩
  · have hpos : ¬ ((c : Int) ≤ 0) := by omega
    have hzero : ∀ i, 0 ≤ i → i < 0 + c →
        (List.replicate (c + 1) zero_setting)[i]? = some zero_setting := by
      intro i _ hi
      rw [List.getElem?_replicate]
      simp
      omega
    obtain ⟨s1, s2⟩ := scan_ctl_loop_parse dev (some np) type ctl n hn c 0
      (List.replicate (c + 1) zero_setting)
      (fun i h1 h2 => hc3 i h1 (by omega)) hzero
    cases ha : dev.devm_kzalloc (.settings type) with
    | false =>
      have hres : ad9361_populate_settings dev ctl type none = (-ENOMEM, none) := by
        unfold ad9361_populate_settings
        simp only [hcnt]
        simp only [hpos, if_false, ha, if_true]
      rw [hres]
      constructor
      · intro _
        norm_num [ENOMEM]
      · intro h
        have := h (by omega)
        exact Bool.noConfusion this
    | true =>
      have hunf : ad9361_populate_settings dev ctl type none =
          (let r := scan_ctl_loop dev (some np) type ctl c 0
              (some (List.replicate (c + 1) zero_setting))
           if r.1 < 0 then r else if r.1 ≠ (c : Int) then (-EINVAL, r.2) else (0, r.2)) := by
        unfold ad9361_populate_settings
        simp only [hcnt]
        simp only [hpos, if_false, Int.toNat_ofNat, ad9361_scan_ctl_settings, hnp, ha,
          Bool.true_eq_false]
      rw [hunf]
      constructor
      · rintro (⟨_, hf⟩ | ⟨i, child, hi, hch, hbad⟩)
        · exact Bool.noConfusion hf
        · have := s1 ⟨i, child, Nat.zero_le _, by omega, hch, hbad⟩
          simp only [this, if_true]
      · intro _ hall
        obtain ⟨tbl2, e1, e2, e3⟩ := s2 (fun i child _ h2 h3 => hall i child (by omega) h3)
        simp only [e1, Nat.zero_add]
        have hnn : ¬ ((c : Int) < 0) := by omega
        simp only [hnn, if_false, ne_eq, not_true_eq_false]
        refine ⟨trivial, fun h => absurd h hc0, fun _ => ⟨tbl2, rfl, ?_, ?_, ?_⟩⟩
        · rw [e2, List.length_replicate]
        · intro i hi
          rw [e3 i, if_pos ⟨Nat.zero_le _, by omega⟩]
        · rw [e3 c, if_neg (by omega), List.getElem?_replicate]
          simp

theorem acquire_gpios_cases (dev : device) (fuel cnt : Nat) :
    acquire_gpios dev fuel cnt < 0 ∨ acquire_gpios dev fuel cnt = ((cnt + fuel : Nat) : Int) := by
  induction fuel generalizing cnt with
  | zero => right; rfl
  | succ fuel ih =>
    unfold acquire_gpios
    by_cases he : dev.gpiod_get_errno cnt = 0
    · simp only [he, ne_eq, not_true_eq_false, if_false]
      rcases ih (cnt + 1) with h | h
      · left; exact h
      · right
        rw [h]
        congr 1
        omega
    · left
      simp only [ne_eq, he, not_false_eq_true, if_true]
      omega

theorem acquire_gpios_ok (dev : device) (hget : ∀ i, dev.gpiod_get_errno i = 0)
    (fuel cnt : Nat) : acquire_gpios dev fuel cnt = ((cnt + fuel : Nat) : Int) := by
  induction fuel generalizing cnt with
  | zero => rfl
  | succ fuel ih =>
    unfold acquire_gpios
    simp only [hget cnt, ne_eq, not_true_eq_false, if_false]
    rw [ih (cnt + 1)]
    congr 1
    omega

theorem discovered_iff (np : Option device_node) (type : String) (c : Nat)
    (hc : c ≤ MAX_CTRL_SETTINGS)
    (hpres : ∀ i, i < c → (of_get_child_by_name np (child_name type i)).isSome = true)
    (habs : c < MAX_CTRL_SETTINGS → of_get_child_by_name np (child_name type c) = none)
    (i : Nat) : discovered np type i ↔ i < c := by
  constructor
  · rintro ⟨h1, h2⟩
    by_contra hge
    have hci : c ≤ i := not_lt.mp hge
    have hcl : c < MAX_CTRL_SETTINGS := by omega
    have := h2 c hci
    rw [habs hcl] at this
    exact Bool.noConfusion this
  · intro hi
    exact ⟨by omega, fun j hj => hpres j (by omega)⟩

theorem parsed_hook_wf (n : Nat) (c : child_node) (h : gpio_settings_bad n c = false) :
    setting_wf n (parsed_hook n c) := by
  intro v hv
  simp only [parsed_hook, parsed_gpio_values] at hv
  unfold gpio_settings_bad at h
  cases hg : c.gpio_settings with
  | none => simp [hg] at hv
  | some vals =>
    simp only [hg] at hv h
    by_cases hz : vals.length = 0
    · simp [hz] at hv
    · simp only [hz, if_false, Option.some.injEq] at hv
      subst hv
      simp only [Bool.or_eq_false_iff, Bool.and_eq_false_imp, bne_iff_ne, ne_eq,
        bne_eq_false_iff_eq] at h
      refine ⟨h.1 hz, ?_, rfl⟩
      intro x hx
      rw [lctl_gpio_value_valid_iff]
      have hx2 := h.2
      rw [List.any_eq_false] at hx2
      have := hx2 x hx
      simp only [Bool.not_eq_true', Bool.not_eq_false, Bool.or_eq_true, beq_iff_eq] at this
      omega

theorem parsed_entry_wf (n : Nat) (c : child_node) (h : entry_ok n c = true) :
    setting_wf n (parsed_entry n c) := by
  have hb : gpio_settings_bad n c = false := by
    simp only [entry_ok, Bool.and_eq_true, Bool.not_eq_true'] at h
    exact h.2
  intro v hv
  exact parsed_hook_wf n c hb v hv

theorem populate_hooks_step_absent (dev : device) (h : CTL_HOOKS) (rest : List CTL_HOOKS)
    (ctl : ad9361_ext_band_ctl)
    (hch : of_get_child_by_name dev.of_node (hook_name h) = none) :
    populate_hooks_loop dev (h :: rest) ctl = populate_hooks_loop dev rest ctl := by
  simp only [populate_hooks_loop, hch]

/-- One iteration of the loop of `ad9361_populate_hooks` on a hook entry that is
present: it fails when the entry does not load, and otherwise stores the setting of the
entry and goes on. -/
theorem populate_hooks_step (dev : device) (n : Nat) (h : CTL_HOOKS) (rest : List CTL_HOOKS)
    (ctl : ad9361_ext_band_ctl) (child : child_node)
    (hn : ctl.objs = { gpios := some { ndescs := n } })
    (hch : of_get_child_by_name dev.of_node (hook_name h) = some child) :
    (hook_loads dev n h child = false → (populate_hooks_loop dev (h :: rest) ctl).1 < 0) ∧
    (hook_loads dev n h child = true →
      populate_hooks_loop dev (h :: rest) ctl =
        populate_hooks_loop dev rest (ctl.set_hook h (some (parsed_hook n child)))) := by
  obtain ⟨p1, p2⟩ := parse_setting_spec dev child ctl n hn
  simp only [populate_hooks_loop, hch, hook_loads]
  cases ha : dev.devm_kzalloc (.hook h) with
  | false => simp [ENOMEM]
  | true =>
    cases hg : gpio_alloc_ok dev child with
    | false =>
      have := p1 (Or.inl hg)
      simp [this]
    | true =>
      cases hb : gpio_settings_bad n child with
      | true =>
        have := p1 (Or.inr hb)
        simp [this]
      | false =>
        have := p2 hg hb
        simp [this]

/-- The function `ad9361_populate_hooks` against the spec wording: it fails when a
hook entry that is present does not load, and otherwise returns 0 and stores the
setting of each hook entry that is present. -/
theorem populate_hooks_spec (dev : device) (n : Nat) :
    (¬ hooks_build dev n →
      (ad9361_populate_hooks dev { zero_ctl with objs := { gpios := some { ndescs := n } } }).1 < 0) ∧
    (hooks_build dev n →
      ad9361_populate_hooks dev { zero_ctl with objs := { gpios := some { ndescs := n } } } =
        (0, { zero_ctl with
                objs := { gpios := some { ndescs := n } },
                hooks_init :=
                  (of_get_child_by_name dev.of_node (hook_name .CTL_INIT)).map (parsed_hook n),
                hooks_uninit :=
                  (of_get_child_by_name dev.of_node (hook_name .CTL_UNINIT)).map (parsed_hook n) })) := by
  unfold ad9361_populate_hooks hooks_build
  cases hi : of_get_child_by_name dev.of_node (hook_name .CTL_INIT) with
  | none =>
    rw [populate_hooks_step_absent dev .CTL_INIT _ _ hi]
    cases hu : of_get_child_by_name dev.of_node (hook_name .CTL_UNINIT) with
    | none =>
      rw [populate_hooks_step_absent dev .CTL_UNINIT _ _ hu]
      constructor
      · intro hnv
        exfalso
        apply hnv
        intro h child hch
        cases h
        · rw [hi] at hch; exact Option.noConfusion hch
        · rw [hu] at hch; exact Option.noConfusion hch
      · intro _
        rfl
    | some cu =>
      obtain ⟨k1, k2⟩ := populate_hooks_step dev n .CTL_UNINIT []
        { zero_ctl with objs := { gpios := some { ndescs := n } } } cu rfl hu
      by_cases hb : hook_loads dev n .CTL_UNINIT cu = true
      · rw [k2 hb]
        constructor
        · intro hnv
          exfalso
          apply hnv
          intro h child hch
          cases h
          · rw [hi] at hch; exact Option.noConfusion hch
          · rw [hu] at hch; cases hch; exact hb
        · intro _
          rfl
      · have hb2 : hook_loads dev n .CTL_UNINIT cu = false := by simpa using hb
        constructor
        · intro _
          exact k1 hb2
        · intro hv
          have := hv .CTL_UNINIT cu hu
          rw [hb2] at this
          exact Bool.noConfusion this
  | some ci =>
    obtain ⟨k1, k2⟩ := populate_hooks_step dev n .CTL_INIT [.CTL_UNINIT]
      { zero_ctl with objs := { gpios := some { ndescs := n } } } ci rfl hi
    by_cases hb : hook_loads dev n .CTL_INIT ci = true
    · rw [k2 hb]
      cases hu : of_get_child_by_name dev.of_node (hook_name .CTL_UNINIT) with
      | none =>
        rw [populate_hooks_step_absent dev .CTL_UNINIT _ _ hu]
        constructor
        · intro hnv
          exfalso
          apply hnv
          intro h child hch
          cases h
          · rw [hi] at hch; cases hch; exact hb
          · rw [hu] at hch; exact Option.noConfusion hch
        · intro _
          rfl
      | some cu =>
        obtain ⟨m1, m2⟩ := populate_hooks_step dev n .CTL_UNINIT []
          (ad9361_ext_band_ctl.set_hook
            { zero_ctl with objs := { gpios := some { ndescs := n } } } .CTL_INIT
            (some (parsed_hook n ci))) cu rfl hu
        by_cases hbu : hook_loads dev n .CTL_UNINIT cu = true
        · rw [m2 hbu]
          constructor
          · intro hnv
            exfalso
            apply hnv
            intro h child hch
            cases h
            · rw [hi] at hch; cases hch; exact hb
            · rw [hu] at hch; cases hch; exact hbu
          · intro _
            rfl
        · have hbu2 : hook_loads dev n .CTL_UNINIT cu = false := by simpa using hbu
          constructor
          · intro _
            exact m1 hbu2
          · intro hv
            have := hv .CTL_UNINIT cu hu
            rw [hbu2] at this
            exact Bool.noConfusion this
    · have hb2 : hook_loads dev n .CTL_INIT ci = false := by simpa using hb
      constructor
      · intro _
        exact k1 hb2
      · intro hv
        have := hv .CTL_INIT ci hi
        rw [hb2] at this
        exact Bool.noConfusion this

theorem hooks_valid_of_build (dev : device) (n : Nat) (h : hooks_build dev n) :
    hooks_valid dev n := by
  intro k child hch
  have := h k child hch
  simp only [hook_loads, Bool.and_eq_true, Bool.not_eq_true'] at this
  exact this.2

theorem table_valid_of_builds (dev : device) (n : Nat) (type : String)
    (h : table_builds dev n type) : table_valid dev n type := by
  intro i child hd hch
  have := h.2 i child hd hch
  simp only [entry_loads, Bool.and_eq_true] at this
  exact this.1

theorem gpio_alloc_ok_of_alloc (dev : device) (halloc : ∀ site, dev.devm_kzalloc site = true)
    (c : child_node) : gpio_alloc_ok dev c = true := by
  simp [gpio_alloc_ok, halloc]

theorem hooks_build_iff_valid (dev : device) (n : Nat)
    (halloc : ∀ site, dev.devm_kzalloc site = true) : hooks_build dev n ↔ hooks_valid dev n := by
  constructor
  · exact hooks_valid_of_build dev n
  · intro h k child hch
    simp [hook_loads, halloc, gpio_alloc_ok_of_alloc dev halloc, h k child hch]

theorem table_builds_iff_valid (dev : device) (n : Nat) (type : String)
    (halloc : ∀ site, dev.devm_kzalloc site = true) :
    table_builds dev n type ↔ table_valid dev n type := by
  constructor
  · exact table_valid_of_builds dev n type
  · intro h
    refine ⟨fun _ => halloc _, ?_⟩
    intro i child hd hch
    simp [entry_loads, gpio_alloc_ok_of_alloc dev halloc, h i child hd hch]

/-- The function `ad9361_apply_gpio_settings` on settings of the data model issues the
writes of the spec wording, in order, up to the first driver failure, and never
faults. -/
theorem apply_gpio_settings_eq_drive (drv : Nat → Nat → Int) (new_sett : ad9361_band_setting)
    (previous : Option ad9361_band_setting) (n : Nat) (hw : Hw)
    (hnew : setting_wf n new_sett)
    (hprev : ∀ p pv, previous = some p → p.gpio_values = some pv → pv.length = n) :
    ad9361_apply_gpio_settings drv new_sett previous hw =
      .ok (drive drv (expected_writes n new_sett previous) hw) := by
  unfold ad9361_apply_gpio_settings expected_writes
  cases hnv : new_sett.gpio_values with
  | none => rfl
  | some nv =>
    obtain ⟨hlen, hvalid, hobjs⟩ := hnew nv hnv
    simp only [hobjs]
    apply apply_gpio_loop_eq_drive drv nv _ hvalid n 0 hw (by omega)
    intro p hp
    cases previous with
    | none => simp at hp
    | some q =>
      have := hprev q p rfl (by simpa using hp)
      omega

/-- The function `ad9361_apply_settings` with a `NULL` slot on a setting of the data model. -/
theorem apply_settings_null_slot (drv : Nat → Nat → Int) (ctl : ad9361_ext_band_ctl)
    (p : sett_ptr) (s : ad9361_band_setting) (n : Nat) (hw : Hw)
    (hderef : ctl.deref p = .ok s) (hwf : setting_wf n s) :
    ad9361_apply_settings drv ctl p none hw =
      if (drive drv (expected_writes n s none) hw).1 < 0 then
        .ok ((drive drv (expected_writes n s none) hw).1, none,
             (drive drv (expected_writes n s none) hw).2)
      else .ok (0, some p, (drive drv (expected_writes n s none) hw).2) := by
  unfold ad9361_apply_settings
  simp only [hderef, ad9361_ext_band_ctl.deref_opt]
  rw [apply_gpio_settings_eq_drive drv s none n hw hwf (fun p pv hp => Option.noConfusion hp)]

theorem populate_objs_eq (dev : device) (hn : 0 < line_count dev)
    (hd : dev.devm_kzalloc .descs = true) :
    ad9361_populate_objs dev zero_ctl.objs =
      (acquire_gpios dev (line_count dev) 0, { gpios := some { ndescs := line_count dev } }) := by
  unfold ad9361_populate_objs
  have : ¬ count_gpio_props dev.of_node MAX_CTRL_GPIOS 0 = 0 := by
    unfold line_count at hn
    omega
  simp only [this, if_false, line_count, hd, Bool.true_eq_false]

theorem line_count_of_node (dev : device) (hn : 0 < line_count dev) :
    ∃ np, dev.of_node = some np := by
  cases h : dev.of_node with
  | some np => exact ⟨np, rfl⟩
  | none =>
    exfalso
    unfold line_count at hn
    rw [h] at hn
    have : count_gpio_props none MAX_CTRL_GPIOS 0 = 0 := by
      show count_gpio_props none (255 + 1) 0 = 0
      unfold count_gpio_props
      simp [of_find_property]
    omega

/-- The function `ad9361_populate_settings` in terms of what can be built from the
discovered entries. -/
theorem populate_settings_valid (dev : device) (ctl : ad9361_ext_band_ctl) (type : String)
    (n : Nat) (np : device_node) (hnp : dev.of_node = some np)
    (hn : ctl.objs = { gpios := some { ndescs := n } }) :
    (¬ table_builds dev n type → (ad9361_populate_settings dev ctl type none).1 < 0) ∧
    (table_builds dev n type →
      (ad9361_populate_settings dev ctl type none).1 = 0 ∧
      table_loaded dev.of_node type n (ad9361_populate_settings dev ctl type none).2) := by
  obtain ⟨c, h1, h2, h3, h4, h5⟩ := populate_settings_spec dev ctl type n np hnp hn
  have hd := discovered_iff dev.of_node type c h1 h2 h3
  constructor
  · intro hnv
    apply h4
    by_contra hno
    apply hnv
    constructor
    · intro hd0
      by_contra hf
      exact hno (Or.inl ⟨(hd 0).1 hd0, by simpa using hf⟩)
    · intro i child hdisc hch
      by_contra hbad
      exact hno (Or.inr ⟨i, child, (hd i).1 hdisc, hch, by simpa using hbad⟩)
  · intro hv
    obtain ⟨r1, r2, r3⟩ := h5 (fun hc => hv.1 ((hd 0).2 hc))
      (fun i child hi hch => hv.2 i child ((hd i).2 hi) hch)
    exact ⟨r1, c, h1, h2, h3, r2, r3⟩

/-- The last two stages of `ad9361_register_ext_band_control`, the rx and tx tables,
from a controller that has its line bank and no table yet (its table pointers are
`NULL`). -/
theorem register_tables_spec (dev : device) (phy : ad9361_rf_phy) (hw1 : Hw) (n : Nat)
    (np : device_node) (ctl : ad9361_ext_band_ctl) (hnp : dev.of_node = some np)
    (hobjs : ctl.objs = { gpios := some { ndescs := n } })
    (res : Except Fault (Int × ad9361_rf_phy × Hw))
    (hres : res =
      (if (ad9361_populate_settings dev ctl "adi_rx_band_setting_" none).1 < 0 then
        .ok ((ad9361_populate_settings dev ctl "adi_rx_band_setting_" none).1, phy, hw1)
      else if (ad9361_populate_settings dev
          { ctl with rx_settings :=
              (ad9361_populate_settings dev ctl "adi_rx_band_setting_" none).2 }
          "adi_tx_band_setting_" none).1 < 0 then
        .ok ((ad9361_populate_settings dev
          { ctl with rx_settings :=
              (ad9361_populate_settings dev ctl "adi_rx_band_setting_" none).2 }
          "adi_tx_band_setting_" none).1, phy, hw1)
      else
        .ok (0, ⟨some { ctl with
                 rx_settings :=
                   (ad9361_populate_settings dev ctl "adi_rx_band_setting_" none).2,
                 tx_settings := (ad9361_populate_settings dev
                   { ctl with rx_settings :=
                       (ad9361_populate_settings dev ctl "adi_rx_band_setting_" none).2 }
                   "adi_tx_band_setting_" none).2 }⟩, hw1))) :
    (¬ table_builds dev n Lane.rx.type_name ∧ ∃ ret, ret < 0 ∧ res = .ok (ret, phy, hw1)) ∨
    (table_builds dev n Lane.rx.type_name ∧ ¬ table_builds dev n Lane.tx.type_name ∧
      ∃ ret, ret < 0 ∧ res = .ok (ret, phy, hw1)) ∨
    (table_builds dev n Lane.rx.type_name ∧ table_builds dev n Lane.tx.type_name ∧
      ∃ rxt txt, table_loaded dev.of_node Lane.rx.type_name n rxt ∧
        table_loaded dev.of_node Lane.tx.type_name n txt ∧
        res = .ok (0, ⟨some { ctl with rx_settings := rxt, tx_settings := txt }⟩, hw1)) := by
  subst hres
  obtain ⟨r1, r2⟩ := populate_settings_valid dev ctl Lane.rx.type_name n np hnp hobjs
  by_cases hvr : table_builds dev n Lane.rx.type_name
  · right
    obtain ⟨z1, l1⟩ := r2 hvr
    have z1b : (ad9361_populate_settings dev ctl "adi_rx_band_setting_" none).1 = 0 := z1
    obtain ⟨t1, t2⟩ := populate_settings_valid dev
      { ctl with rx_settings := (ad9361_populate_settings dev ctl "adi_rx_band_setting_" none).2 }
      Lane.tx.type_name n np hnp hobjs
    simp only [z1b, lt_irrefl, if_false]
    by_cases hvt : table_builds dev n Lane.tx.type_name
    · right
      obtain ⟨z2, l2⟩ := t2 hvt
      have z2b : (ad9361_populate_settings dev
          { ctl with rx_settings := (ad9361_populate_settings dev ctl "adi_rx_band_setting_" none).2 }
          "adi_tx_band_setting_" none).1 = 0 := z2
      simp only [z2b, lt_irrefl, if_false]
      exact ⟨hvr, hvt, _, _, l1, l2, rfl⟩
    · left
      have z2 : (ad9361_populate_settings dev
          { ctl with rx_settings := (ad9361_populate_settings dev ctl "adi_rx_band_setting_" none).2 }
          "adi_tx_band_setting_" none).1 < 0 := t1 hvt
      rw [if_pos z2]
      exact ⟨hvr, hvt, _, z2, rfl⟩
  · left
    have z1 : (ad9361_populate_settings dev ctl "adi_rx_band_setting_" none).1 < 0 := r1 hvr
    rw [if_pos z1]
    exact ⟨hvr, _, z1, rfl⟩

/-- The function `ad9361_register_ext_band_control` returns `-ENOMEM` and leaves the phy
and the lines alone when the controller object cannot be allocated, and also when
there is a line key and the line descriptors cannot be allocated. -/
theorem register_no_memory (dev : device) (phy : ad9361_rf_phy) (hw : Hw) :
    (dev.devm_kzalloc .ctl = false →
      ad9361_register_ext_band_control dev phy hw = .ok (-ENOMEM, phy, hw)) ∧
    (0 < line_count dev → dev.devm_kzalloc .descs = false →
      ad9361_register_ext_band_control dev phy hw = .ok (-ENOMEM, phy, hw)) := by
  constructor
  · intro ha
    simp [ad9361_register_ext_band_control, ha]
  · intro hn hd
    have hne : ¬ count_gpio_props dev.of_node MAX_CTRL_GPIOS 0 = 0 := by
      unfold line_count at hn
      omega
    cases ha : dev.devm_kzalloc .ctl with
    | false => simp [ad9361_register_ext_band_control, ha]
    | true =>
      simp [ad9361_register_ext_band_control, ad9361_populate_objs, ha, hd, hne, ENOMEM]

/-- The outcome of `ad9361_register_ext_band_control` on a device node with at least
one line key, once the controller object and the line descriptors are allocated, stage
by stage: line acquisition, hooks, init hook, rx table, tx table.  The call never
faults; it installs a controller only when every stage succeeds. -/
theorem register_spec (dev : device) (phy : ad9361_rf_phy) (hw : Hw)
    (hn : 0 < line_count dev) (ha : dev.devm_kzalloc .ctl = true)
    (hd : dev.devm_kzalloc .descs = true) :
    (acquire_gpios dev (line_count dev) 0 < 0 ∧
      ad9361_register_ext_band_control dev phy hw =
        .ok (acquire_gpios dev (line_count dev) 0, phy, hw)) ∨
    (acquire_gpios dev (line_count dev) 0 = ((line_count dev : Nat) : Int) ∧
      ((¬ hooks_build dev (line_count dev) ∧
          ∃ ret, ret < 0 ∧ ad9361_register_ext_band_control dev phy hw = .ok (ret, phy, hw)) ∨
        (hooks_build dev (line_count dev) ∧
          ∃ ri curr hw1, init_outcome dev (line_count dev) hw ri curr hw1 ∧
            ((ri < 0 ∧ ad9361_register_ext_band_control dev phy hw = .ok (ri, phy, hw1)) ∨
              (ri = 0 ∧ ¬ table_builds dev (line_count dev) Lane.rx.type_name ∧
                ∃ ret, ret < 0 ∧
                  ad9361_register_ext_band_control dev phy hw = .ok (ret, phy, hw1)) ∨
              (ri = 0 ∧ table_builds dev (line_count dev) Lane.rx.type_name ∧
                ¬ table_builds dev (line_count dev) Lane.tx.type_name ∧
                ∃ ret, ret < 0 ∧
                  ad9361_register_ext_band_control dev phy hw = .ok (ret, phy, hw1)) ∨
              (ri = 0 ∧ table_builds dev (line_count dev) Lane.rx.type_name ∧
                table_builds dev (line_count dev) Lane.tx.type_name ∧
                ∃ rxt txt,
                  table_loaded dev.of_node Lane.rx.type_name (line_count dev) rxt ∧
                  table_loaded dev.of_node Lane.tx.type_name (line_count dev) txt ∧
                  ad9361_register_ext_band_control dev phy hw =
                    .ok (0, ⟨some { hooked_ctl dev (line_count dev) with
                                      rx_curr_setting := curr, tx_curr_setting := curr,
                                      rx_settings := rxt, tx_settings := txt }⟩, hw1)))))) := by
  obtain ⟨np, hnp⟩ := line_count_of_node dev hn
  have hpo := populate_objs_eq dev hn hd
  rcases acquire_gpios_cases dev (line_count dev) 0 with hA | hA
  · left
    refine ⟨hA, ?_⟩
    unfold ad9361_register_ext_band_control
    simp only [ha, Bool.true_eq_false, if_false, hpo]
    rw [if_pos (le_of_lt hA)]
  · right
    rw [Nat.zero_add] at hA
    refine ⟨hA, ?_⟩
    have hApos : ¬ (acquire_gpios dev (line_count dev) 0 ≤ 0) := by
      rw [hA]; omega
    obtain ⟨ph1, ph2⟩ := populate_hooks_spec dev (line_count dev)
    by_cases hhv : hooks_build dev (line_count dev)
    · right
      refine ⟨hhv, ?_⟩
      have hph : ad9361_populate_hooks dev
          { zero_ctl with objs := { gpios := some { ndescs := line_count dev } } } =
          (0, hooked_ctl dev (line_count dev)) := ph2 hhv
      cases hci : of_get_child_by_name dev.of_node (hook_name .CTL_INIT) with
      | none =>
        have hhook : (hooked_ctl dev (line_count dev)).hooks .CTL_INIT = none := by
          simp [hooked_ctl, ad9361_ext_band_ctl.hooks, hci]
        refine ⟨0, none, hw, by simp [init_outcome, hci], ?_⟩
        right
        have key := register_tables_spec dev phy hw (line_count dev) np
          (hooked_ctl dev (line_count dev)) hnp rfl
          (ad9361_register_ext_band_control dev phy hw) (by
            unfold ad9361_register_ext_band_control
            simp only [ha, Bool.true_eq_false, if_false, hpo, hApos, if_false, hph, lt_irrefl, hhook]
            rfl)
        rcases key with ⟨a, b⟩ | ⟨a, b, c⟩ | ⟨a, b, rxt, txt, l1, l2, e⟩
        · exact Or.inl ⟨rfl, a, b⟩
        · exact Or.inr (Or.inl ⟨rfl, a, b, c⟩)
        · exact Or.inr (Or.inr ⟨rfl, a, b, rxt, txt, l1, l2, e⟩)
      | some c =>
        have hhook : (hooked_ctl dev (line_count dev)).hooks .CTL_INIT =
            some (parsed_hook (line_count dev) c) := by
          simp [hooked_ctl, ad9361_ext_band_ctl.hooks, hci]
        have hderef : (hooked_ctl dev (line_count dev)).deref (.hook .CTL_INIT) =
            .ok (parsed_hook (line_count dev) c) := by
          simp only [ad9361_ext_band_ctl.deref, hhook]
        have happ := apply_settings_null_slot dev.drv (hooked_ctl dev (line_count dev))
          (.hook .CTL_INIT) (parsed_hook (line_count dev) c) (line_count dev) hw hderef
          (parsed_hook_wf (line_count dev) c
            (hooks_valid_of_build dev (line_count dev) hhv .CTL_INIT c hci))
        by_cases hD : (drive dev.drv
            (expected_writes (line_count dev) (parsed_hook (line_count dev) c) none) hw).1 < 0
        · rw [if_pos hD] at happ
          have hne : ¬ (drive dev.drv
              (expected_writes (line_count dev) (parsed_hook (line_count dev) c) none) hw).1 = 0 :=
            ne_of_lt hD
          refine ⟨(drive dev.drv
              (expected_writes (line_count dev) (parsed_hook (line_count dev) c) none) hw).1, none,
            (drive dev.drv
              (expected_writes (line_count dev) (parsed_hook (line_count dev) c) none) hw).2,
            ?_, Or.inl ⟨hD, ?_⟩⟩
          · simp only [init_outcome, hci]
            exact ⟨by trivial, Or.inl ⟨hD, by trivial, by trivial⟩⟩
          · unfold ad9361_register_ext_band_control
            simp only [ha, Bool.true_eq_false, if_false, hpo, hApos, if_false, hph, lt_irrefl, hhook, happ, hne, hD, if_true]
        · rw [if_neg hD] at happ
          refine ⟨0, some (.hook .CTL_INIT),
            (drive dev.drv
              (expected_writes (line_count dev) (parsed_hook (line_count dev) c) none) hw).2,
            ?_, Or.inr ?_⟩
          · simp only [init_outcome, hci]
            exact ⟨by trivial, Or.inr ⟨hD, by trivial, by trivial⟩⟩
          · have key := register_tables_spec dev phy
              (drive dev.drv
                (expected_writes (line_count dev) (parsed_hook (line_count dev) c) none) hw).2
              (line_count dev) np
              { hooked_ctl dev (line_count dev) with
                  rx_curr_setting := some (.hook .CTL_INIT),
                  tx_curr_setting := some (.hook .CTL_INIT) } hnp rfl
              (ad9361_register_ext_band_control dev phy hw) (by
                unfold ad9361_register_ext_band_control
                simp only [ha, Bool.true_eq_false, if_false, hpo, hApos, if_false, hph, lt_irrefl, hhook, happ, if_true]
                rfl)
            rcases key with ⟨a, b⟩ | ⟨a, b, c⟩ | ⟨a, b, rxt, txt, l1, l2, e⟩
            · exact Or.inl ⟨rfl, a, b⟩
            · exact Or.inr (Or.inl ⟨rfl, a, b, c⟩)
            · exact Or.inr (Or.inr ⟨rfl, a, b, rxt, txt, l1, l2, e⟩)
    · left
      refine ⟨hhv, _, ph1 hhv, ?_⟩
      unfold ad9361_register_ext_band_control
      simp only [ha, Bool.true_eq_false, if_false, hpo, hApos, if_false, ph1 hhv, if_true]

theorem entry_ok_eq_false_iff (n : Nat) (c : child_node) :
    entry_ok n c = false ↔
      gpio_settings_bad n c = true ∨ c.lo_freq_min = none ∨ c.lo_freq_max = none := by
  unfold entry_ok
  cases c.lo_freq_min <;> cases c.lo_freq_max <;> cases gpio_settings_bad n c <;> simp

theorem not_hooks_valid_iff (dev : device) (n : Nat) :
    ¬ hooks_valid dev n ↔
      ∃ h child, of_get_child_by_name dev.of_node (hook_name h) = some child ∧
        gpio_settings_bad n child = true := by
  unfold hooks_valid
  constructor
  · intro h
    by_contra hno
    apply h
    intro k child hch
    by_contra hb
    exact hno ⟨k, child, hch, by simpa using hb⟩
  · rintro ⟨k, child, hch, hb⟩ hv
    rw [hv k child hch] at hb
    exact Bool.noConfusion hb

theorem not_table_valid_iff (dev : device) (n : Nat) (type : String) :
    ¬ table_valid dev n type ↔
      ∃ i child, discovered dev.of_node type i ∧
        of_get_child_by_name dev.of_node (child_name type i) = some child ∧
        (gpio_settings_bad n child = true ∨ child.lo_freq_min = none ∨
          child.lo_freq_max = none) := by
  unfold table_valid
  constructor
  · intro h
    by_contra hno
    apply h
    intro i child hd hch
    by_contra hb
    have hb2 : entry_ok n child = false := by simpa using hb
    exact hno ⟨i, child, hd, hch, (entry_ok_eq_false_iff n child).1 hb2⟩
  · rintro ⟨i, child, hd, hch, hb⟩ hv
    have := (entry_ok_eq_false_iff n child).2 hb
    rw [hv i child hd hch] at this
    exact Bool.noConfusion this

/-- C6 (counterexample): one line and one rx band that lacks `adi,lo-freq-min`.  The
configuration has a control line, no entry of it has a bad `adi,gpio-settings` array,
and construction fails. -/
theorem register_fails_without_bad_gpio_settings :
    0 < line_count missing_bound_dev ∧
    ad9361_register_ext_band_control missing_bound_dev ⟨none⟩ one_line_hw =
      .ok (-EINVAL, ⟨none⟩, one_line_hw) ∧
    ∀ child ∈ missing_bound_node.children,
      gpio_settings_bad (line_count missing_bound_dev) child = false := by
  decide

/-- C6 (amended): for a configuration with at least one control line on which no
allocation fails, whose lines are all acquired and whose line driver does not fail,
construction returns a negative
code exactly when some hook entry that is present, or some discovered rx or tx entry,
has an `adi,gpio-settings` array that is bad for the line count (a length that is
neither 0 nor the line count, or a code outside {0,1,2,3}), or some discovered rx or
tx entry lacks `adi,lo-freq-min` or `adi,lo-freq-max`; otherwise it returns 0. -/
theorem register_fails_iff (dev : device) (phy : ad9361_rf_phy) (hw : Hw)
    (hline : 0 < line_count dev) (halloc : ∀ site, dev.devm_kzalloc site = true)
    (hget : ∀ i, dev.gpiod_get_errno i = 0) (hdrv : ∀ i v, 0 ≤ dev.drv i v) :
    ∃ ret phy1 hw1, ad9361_register_ext_band_control dev phy hw = .ok (ret, phy1, hw1) ∧
      (ret < 0 ∨ ret = 0) ∧
      (ret < 0 ↔
        (∃ h child, of_get_child_by_name dev.of_node (hook_name h) = some child ∧
          gpio_settings_bad (line_count dev) child = true) ∨
        (∃ (lane : Lane) (i : Nat) (child : child_node),
          discovered dev.of_node lane.type_name i ∧
          of_get_child_by_name dev.of_node (child_name lane.type_name i) = some child ∧
          (gpio_settings_bad (line_count dev) child = true ∨ child.lo_freq_min = none ∨
            child.lo_freq_max = none))) := by
  have hacq := acquire_gpios_ok dev hget (line_count dev) 0
  rw [Nat.zero_add] at hacq
  have hbadlane : (∃ (lane : Lane) (i : Nat) (child : child_node),
      discovered dev.of_node lane.type_name i ∧
      of_get_child_by_name dev.of_node (child_name lane.type_name i) = some child ∧
      (gpio_settings_bad (line_count dev) child = true ∨ child.lo_freq_min = none ∨
        child.lo_freq_max = none)) ↔
      (¬ table_valid dev (line_count dev) Lane.rx.type_name ∨
        ¬ table_valid dev (line_count dev) Lane.tx.type_name) := by
    rw [not_table_valid_iff, not_table_valid_iff]
    constructor
    · rintro ⟨lane, i, child, h⟩
      cases lane
      · exact Or.inl ⟨i, child, h⟩
      · exact Or.inr ⟨i, child, h⟩
    · rintro (⟨i, child, h⟩ | ⟨i, child, h⟩)
      · exact ⟨.rx, i, child, h⟩
      · exact ⟨.tx, i, child, h⟩
  rw [hbadlane, ← not_hooks_valid_iff, ← hooks_build_iff_valid dev _ halloc,
    ← table_builds_iff_valid dev _ _ halloc, ← table_builds_iff_valid dev _ _ halloc]
  rcases register_spec dev phy hw hline (halloc _) (halloc _) with ⟨hneg, _⟩ | ⟨_, hrest⟩
  · rw [hacq] at hneg
    omega
  · rcases hrest with ⟨hnv, ret, hret, hreg⟩ | ⟨hv, ri, curr, hw1, hinit, hcases⟩
    · exact ⟨ret, phy, hw, hreg, Or.inl hret, fun _ => Or.inl hnv, fun _ => hret⟩
    · have hri : ri = 0 := by
        unfold init_outcome at hinit
        split at hinit
        · exact hinit.1
        · rcases hinit.2 with ⟨hD, _, _⟩ | ⟨_, h0, _⟩
          · rw [(drive_no_failure dev.drv hdrv _ hw).1] at hD
            exact absurd hD (lt_irrefl 0)
          · exact h0
      rcases hcases with ⟨hneg, _⟩ | ⟨_, hnrx, ret, hret, hreg⟩ |
        ⟨_, hrx, hntx, ret, hret, hreg⟩ | ⟨_, hrx, htx, rxt, txt, _, _, hreg⟩
      · rw [hri] at hneg
        exact absurd hneg (lt_irrefl 0)
      · exact ⟨ret, phy, hw1, hreg, Or.inl hret, fun _ => Or.inr (Or.inl hnrx), fun _ => hret⟩
      · exact ⟨ret, phy, hw1, hreg, Or.inl hret, fun _ => Or.inr (Or.inr hntx), fun _ => hret⟩
      · refine ⟨0, _, hw1, hreg, Or.inr rfl, ?_, ?_⟩
        · intro h
          exact absurd h (lt_irrefl 0)
        · rintro (h | h | h)
          · exact absurd hv h
          · exact absurd hrx h
          · exact absurd htx h

/-- C6 (amended) on one line and one rx band that lacks `adi,lo-freq-min`:
construction fails, and the entry that lacks the bound is the reason. -/
theorem register_fails_iff_witness :
    ∃ ret phy1 hw1,
      ad9361_register_ext_band_control missing_bound_dev ⟨none⟩ one_line_hw =
        .ok (ret, phy1, hw1) ∧
      (ret < 0 ∨ ret = 0) ∧
      (ret < 0 ↔
        (∃ h child, of_get_child_by_name missing_bound_dev.of_node (hook_name h) = some child ∧
          gpio_settings_bad (line_count missing_bound_dev) child = true) ∨
        (∃ (lane : Lane) (i : Nat) (child : child_node),
          discovered missing_bound_dev.of_node lane.type_name i ∧
          of_get_child_by_name missing_bound_dev.of_node (child_name lane.type_name i) =
            some child ∧
          (gpio_settings_bad (line_count missing_bound_dev) child = true ∨
            child.lo_freq_min = none ∨ child.lo_freq_max = none))) :=
  register_fails_iff missing_bound_dev ⟨none⟩ one_line_hw (by decide) (fun _ => rfl)
    (fun _ => rfl) (fun _ _ => le_refl 0)

/-- What a successful construction installs, on a phy that had no controller: the
line bank of `line_count` lines, the hook settings, and both tables loaded from
valid entries. -/
theorem register_installs (dev : device) (phy phy1 : ad9361_rf_phy) (hw hw1 : Hw)
    (ctl : ad9361_ext_band_ctl) (hfresh : phy.ext_band_ctl = none)
    (h : ad9361_register_ext_band_control dev phy hw = .ok (0, phy1, hw1))
    (hctl : phy1.ext_band_ctl = some ctl) :
    0 < line_count dev ∧
    hooks_valid dev (line_count dev) ∧
    table_valid dev (line_count dev) Lane.rx.type_name ∧
    table_valid dev (line_count dev) Lane.tx.type_name ∧
    ∃ curr rxt txt, init_outcome dev (line_count dev) hw 0 curr hw1 ∧
      table_loaded dev.of_node Lane.rx.type_name (line_count dev) rxt ∧
      table_loaded dev.of_node Lane.tx.type_name (line_count dev) txt ∧
      ctl = { hooked_ctl dev (line_count dev) with
                rx_curr_setting := curr, tx_curr_setting := curr,
                rx_settings := rxt, tx_settings := txt } := by
  have ha : dev.devm_kzalloc .ctl = true := by
    by_contra hf
    rw [(register_no_memory dev phy hw).1 (by simpa using hf)] at h
    simp [ENOMEM] at h
  have hpos : 0 < line_count dev := by
    by_contra hz
    have hz0 : line_count dev = 0 := by omega
    have hreg : ad9361_register_ext_band_control dev phy hw = .ok (0, phy, hw) := by
      unfold line_count at hz0
      simp [ad9361_register_ext_band_control, ad9361_populate_objs, hz0, ha]
    rw [hreg] at h
    simp only [Except.ok.injEq, Prod.mk.injEq, true_and] at h
    rw [← h.1, hfresh] at hctl
    exact Option.noConfusion hctl
  have hd : dev.devm_kzalloc .descs = true := by
    by_contra hf
    rw [(register_no_memory dev phy hw).2 hpos (by simpa using hf)] at h
    simp [ENOMEM] at h
  refine ⟨hpos, ?_⟩
  rcases register_spec dev phy hw hpos ha hd with ⟨hneg, hreg⟩ | ⟨_, hrest⟩
  · rw [hreg] at h
    simp only [Except.ok.injEq, Prod.mk.injEq] at h
    omega
  · rcases hrest with ⟨_, ret, hret, hreg⟩ | ⟨hv, ri, curr, hw2, hinit, hcases⟩
    · rw [hreg] at h
      simp only [Except.ok.injEq, Prod.mk.injEq] at h
      omega
    · rcases hcases with ⟨hneg, hreg⟩ | ⟨_, _, ret, hret, hreg⟩ |
        ⟨_, _, _, ret, hret, hreg⟩ | ⟨hri, hrx, htx, rxt, txt, l1, l2, hreg⟩
      · rw [hreg] at h
        simp only [Except.ok.injEq, Prod.mk.injEq] at h
        omega
      · rw [hreg] at h
        simp only [Except.ok.injEq, Prod.mk.injEq] at h
        omega
      · rw [hreg] at h
        simp only [Except.ok.injEq, Prod.mk.injEq] at h
        omega
      · rw [hreg] at h
        simp only [Except.ok.injEq, Prod.mk.injEq, true_and] at h
        obtain ⟨hp, hh⟩ := h
        subst hp hh hri
        simp only [Option.some.injEq] at hctl
        exact ⟨hooks_valid_of_build dev _ hv, table_valid_of_builds dev _ _ hrx,
          table_valid_of_builds dev _ _ htx, curr, rxt, txt, hinit, l1, l2, hctl.symm⟩

theorem loaded_entries_of_table_loaded (np : Option device_node) (type : String) (n c : Nat)
    (t : Option (List ad9361_band_setting))
    (h0 : c = 0 → t = none)
    (h1 : 0 < c → ∃ tbl, t = some tbl ∧ tbl.length = c + 1 ∧
      (∀ i, i < c → tbl[i]? =
        (of_get_child_by_name np (child_name type i)).map (parsed_entry n)) ∧
      tbl[c]? = some zero_setting) :
    loaded_entries t = c := by
  by_cases hc : c = 0
  · rw [h0 hc, hc]
    rfl
  · obtain ⟨tbl, ht, hlen, _⟩ := h1 (by omega)
    rw [ht]
    simp only [loaded_entries, hlen]
    omega

/-- C7: when construction succeeds and installs a controller (on a phy that had
none), the line count `n` is the first missing line key, capped at `MAX_CTRL_GPIOS`,
and for each lane the number `c` of entries loaded into its table is the first missing
child index, capped at `MAX_CTRL_SETTINGS`, whatever higher indices exist; element `i`
of the table, for `i < c`, is the entry parsed from child `i`. -/
theorem register_gap_truncation (dev : device) (phy phy1 : ad9361_rf_phy) (hw hw1 : Hw)
    (ctl : ad9361_ext_band_ctl) (hfresh : phy.ext_band_ctl = none)
    (h : ad9361_register_ext_band_control dev phy hw = .ok (0, phy1, hw1))
    (hctl : phy1.ext_band_ctl = some ctl) :
    ∃ n : Nat, ctl.objs = { gpios := some { ndescs := n } } ∧
      n ≤ MAX_CTRL_GPIOS ∧
      (∀ i, i < n → of_find_property dev.of_node (gpio_prop_name i) = true) ∧
      (n < MAX_CTRL_GPIOS → of_find_property dev.of_node (gpio_prop_name n) = false) ∧
      ∀ lane : Lane, ∃ c : Nat, loaded_entries (lane.settings ctl) = c ∧
        c ≤ MAX_CTRL_SETTINGS ∧
        (∀ i, i < c →
          (of_get_child_by_name dev.of_node (child_name lane.type_name i)).isSome = true) ∧
        (c < MAX_CTRL_SETTINGS →
          of_get_child_by_name dev.of_node (child_name lane.type_name c) = none) ∧
        ∀ i, i < c → ∃ tbl child, lane.settings ctl = some tbl ∧
          of_get_child_by_name dev.of_node (child_name lane.type_name i) = some child ∧
          tbl[i]? = some (parsed_entry n child) := by
  obtain ⟨hpos, _, _, _, curr, rxt, txt, _, l1, l2, hc⟩ :=
    register_installs dev phy phy1 hw hw1 ctl hfresh h hctl
  obtain ⟨g1, g2, g3, g4⟩ := count_gpio_props_spec dev.of_node MAX_CTRL_GPIOS 0
  refine ⟨line_count dev, by rw [hc]; rfl, by unfold line_count; omega,
    fun i hi => g3 i (Nat.zero_le _) hi, fun hlt => g4 (by unfold line_count at hlt; omega), ?_⟩
  have hlane : ∀ lane : Lane, table_loaded dev.of_node lane.type_name (line_count dev)
      (lane.settings ctl) := by
    intro lane
    cases lane
    · rw [hc]; exact l1
    · rw [hc]; exact l2
  intro lane
  obtain ⟨c, c1, c2, c3, c4, c5⟩ := hlane lane
  refine ⟨c, loaded_entries_of_table_loaded _ _ _ _ _ c4 c5, c1, c2, c3, ?_⟩
  intro i hi
  obtain ⟨tbl, ht, _, hel, _⟩ := c5 (by omega)
  obtain ⟨child, hchild⟩ := Option.isSome_iff_exists.mp (c2 i hi)
  refine ⟨tbl, child, ht, hchild, ?_⟩
  rw [hel i hi, hchild]
  rfl

/-- C7 on two lines and rx bands at the indices 0, 1 and 3: exactly the two entries
before the gap are loaded. -/
theorem register_gap_truncation_witness :
    loaded_entries (Lane.rx.settings gap_ctl) = 2 ∧
    ∃ n : Nat, gap_ctl.objs = { gpios := some { ndescs := n } } ∧
      n ≤ MAX_CTRL_GPIOS ∧
      (∀ i, i < n → of_find_property gap_dev.of_node (gpio_prop_name i) = true) ∧
      (n < MAX_CTRL_GPIOS → of_find_property gap_dev.of_node (gpio_prop_name n) = false) ∧
      ∀ lane : Lane, ∃ c : Nat, loaded_entries (lane.settings gap_ctl) = c ∧
        c ≤ MAX_CTRL_SETTINGS ∧
        (∀ i, i < c →
          (of_get_child_by_name gap_dev.of_node (child_name lane.type_name i)).isSome = true) ∧
        (c < MAX_CTRL_SETTINGS →
          of_get_child_by_name gap_dev.of_node (child_name lane.type_name c) = none) ∧
        ∀ i, i < c → ∃ tbl child, lane.settings gap_ctl = some tbl ∧
          of_get_child_by_name gap_dev.of_node (child_name lane.type_name i) = some child ∧
          tbl[i]? = some (parsed_entry n child) :=
  ⟨by decide,
   register_gap_truncation gap_dev ⟨none⟩ ⟨some gap_ctl⟩ (fresh_hw 2) (fresh_hw 2) gap_ctl rfl
     (by decide) rfl⟩

/-- C9 (counterexample): one line and one rx band with `adi,lo-freq-min` 10 and
`adi,lo-freq-max` 5.  Construction succeeds and the rx table holds an entry with
`freq_min > freq_max`. -/
theorem register_accepts_reversed_range :
    ad9361_register_ext_band_control reversed_range_dev ⟨none⟩ one_line_hw =
      .ok (0, ⟨some (one_line_ctl [plain_entry "adi_rx_band_setting_0" 10 5, zero_setting])⟩,
           one_line_hw) ∧
    ∃ e ∈ [plain_entry "adi_rx_band_setting_0" 10 5, zero_setting],
      ¬ e.freq_min ≤ e.freq_max := by
  decide

/-- C9 (amended): when construction succeeds and installs a controller (on a phy that
had none), every entry loaded into the rx and tx tables is the entry of a discovered
child and carries the `adi,lo-freq-min` and `adi,lo-freq-max` of that child unchanged;
hence, if every discovered entry of a lane has `adi,lo-freq-min` at most
`adi,lo-freq-max`, every element `e` of the table of that lane satisfies
`e.freq_min <= e.freq_max`. -/
theorem register_freq_bounds_ordered (dev : device) (phy phy1 : ad9361_rf_phy) (hw hw1 : Hw)
    (ctl : ad9361_ext_band_ctl) (hfresh : phy.ext_band_ctl = none)
    (h : ad9361_register_ext_band_control dev phy hw = .ok (0, phy1, hw1))
    (hctl : phy1.ext_band_ctl = some ctl) :
    ∀ lane : Lane,
      (∀ i, i < loaded_entries (lane.settings ctl) →
        ∃ (tbl : List ad9361_band_setting) (child : child_node) (a b : Nat)
          (e : ad9361_band_setting),
          lane.settings ctl = some tbl ∧
          discovered dev.of_node lane.type_name i ∧
          of_get_child_by_name dev.of_node (child_name lane.type_name i) = some child ∧
          child.lo_freq_min = some a ∧ child.lo_freq_max = some b ∧
          tbl[i]? = some e ∧ e.freq_min = a ∧ e.freq_max = b) ∧
      ((∀ (i : Nat) (child : child_node) (a b : Nat),
          discovered dev.of_node lane.type_name i →
          of_get_child_by_name dev.of_node (child_name lane.type_name i) = some child →
          child.lo_freq_min = some a → child.lo_freq_max = some b → a ≤ b) →
        ∀ tbl : List ad9361_band_setting, lane.settings ctl = some tbl →
          ∀ e ∈ tbl, e.freq_min ≤ e.freq_max) := by
  obtain ⟨hpos, _, v1, v2, curr, rxt, txt, _, l1, l2, hc⟩ :=
    register_installs dev phy phy1 hw hw1 ctl hfresh h hctl
  have hlane : ∀ lane : Lane, table_loaded dev.of_node lane.type_name (line_count dev)
      (lane.settings ctl) := by
    intro lane
    cases lane
    · rw [hc]; exact l1
    · rw [hc]; exact l2
  have hvalid : ∀ lane : Lane, table_valid dev (line_count dev) lane.type_name := by
    intro lane
    cases lane
    · exact v1
    · exact v2
  intro lane
  obtain ⟨c, c1, c2, c3, c4, c5⟩ := hlane lane
  have hcount : loaded_entries (lane.settings ctl) = c :=
    loaded_entries_of_table_loaded _ _ _ _ _ c4 c5
  have hentry : ∀ i, i < c → ∀ tbl : List ad9361_band_setting, lane.settings ctl = some tbl →
      ∃ (child : child_node) (a b : Nat) (e : ad9361_band_setting),
        discovered dev.of_node lane.type_name i ∧
        of_get_child_by_name dev.of_node (child_name lane.type_name i) = some child ∧
        child.lo_freq_min = some a ∧ child.lo_freq_max = some b ∧
        tbl[i]? = some e ∧ e.freq_min = a ∧ e.freq_max = b := by
    intro i hic tbl htbl
    obtain ⟨tbl2, ht, _, hel, _⟩ := c5 (by omega)
    rw [htbl] at ht
    cases ht
    obtain ⟨child, hchild⟩ := Option.isSome_iff_exists.mp (c2 i hic)
    have hdisc := (discovered_iff dev.of_node lane.type_name c c1 c2 c3 i).2 hic
    have hok : entry_ok (line_count dev) child = true := hvalid lane i child hdisc hchild
    simp only [entry_ok, Bool.and_eq_true] at hok
    obtain ⟨a, hmin⟩ := Option.isSome_iff_exists.mp hok.1.1
    obtain ⟨b, hmax⟩ := Option.isSome_iff_exists.mp hok.1.2
    refine ⟨child, a, b, parsed_entry (line_count dev) child, hdisc, hchild, hmin, hmax, ?_, ?_, ?_⟩
    · rw [hel i hic, hchild]
      rfl
    · simp [parsed_entry, hmin]
    · simp [parsed_entry, hmax]
  constructor
  · intro i hi
    rw [hcount] at hi
    obtain ⟨tbl, ht, _⟩ := c5 (by omega)
    obtain ⟨child, a, b, e, k1, k2, k3, k4, k5, k6, k7⟩ := hentry i hi tbl ht
    exact ⟨tbl, child, a, b, e, ht, k1, k2, k3, k4, k5, k6, k7⟩
  · intro hord tbl htbl e he
    have hcpos : 0 < c := by
      by_contra hz
      have := c4 (by omega)
      rw [htbl] at this
      exact Option.noConfusion this
    obtain ⟨tbl2, ht, hlen, _, hlast⟩ := c5 hcpos
    rw [htbl] at ht
    cases ht
    obtain ⟨i, hi, rfl⟩ := List.getElem_of_mem he
    by_cases hic : i < c
    · obtain ⟨child, a, b, e, k1, k2, k3, k4, k5, k6, k7⟩ := hentry i hic tbl htbl
      rw [List.getElem?_eq_getElem hi] at k5
      cases k5
      rw [k6, k7]
      exact hord i child a b k1 k2 k3 k4
    · have hieq : i = c := by omega
      subst hieq
      rw [List.getElem?_eq_getElem hi] at hlast
      simp only [Option.some.injEq] at hlast
      rw [hlast]
      exact Nat.le_refl _

/-- C9 (amended) on two lines and rx bands at 0, 1 and 3, whose bounds are in order:
the two entries loaded carry the bounds [0,10) and [10,20) of their children, and
every element of the tables built satisfies `freq_min <= freq_max`. -/
theorem register_freq_bounds_ordered_witness :
    ad9361_register_ext_band_control gap_dev ⟨none⟩ (fresh_hw 2) =
      .ok (0, ⟨some gap_ctl⟩, fresh_hw 2) ∧
    loaded_entries (Lane.rx.settings gap_ctl) = 2 ∧
    ∀ lane : Lane,
      (∀ i, i < loaded_entries (lane.settings gap_ctl) →
        ∃ (tbl : List ad9361_band_setting) (child : child_node) (a b : Nat)
          (e : ad9361_band_setting),
          lane.settings gap_ctl = some tbl ∧
          discovered gap_dev.of_node lane.type_name i ∧
          of_get_child_by_name gap_dev.of_node (child_name lane.type_name i) = some child ∧
          child.lo_freq_min = some a ∧ child.lo_freq_max = some b ∧
          tbl[i]? = some e ∧ e.freq_min = a ∧ e.freq_max = b) ∧
      ((∀ (i : Nat) (child : child_node) (a b : Nat),
          discovered gap_dev.of_node lane.type_name i →
          of_get_child_by_name gap_dev.of_node (child_name lane.type_name i) = some child →
          child.lo_freq_min = some a → child.lo_freq_max = some b → a ≤ b) →
        ∀ tbl : List ad9361_band_setting, lane.settings gap_ctl = some tbl →
          ∀ e ∈ tbl, e.freq_min ≤ e.freq_max) :=
  ⟨by decide, by decide,
   register_freq_bounds_ordered gap_dev ⟨none⟩ ⟨some gap_ctl⟩ (fresh_hw 2) (fresh_hw 2) gap_ctl
    rfl (by decide) rfl⟩

/-! ## Atomic construction -/

theorem zero_setting_wf (n : Nat) : setting_wf n zero_setting := by
  intro v hv
  simp [zero_setting] at hv

/-- Every element of a table loaded from valid entries is well formed. -/
theorem table_loaded_wf (dev : device) (type : String) (n : Nat)
    (t : Option (List ad9361_band_setting)) (hl : table_loaded dev.of_node type n t)
    (hv : table_valid dev n type) (tbl : List ad9361_band_setting) (ht : t = some tbl) :
    ∀ e ∈ tbl, setting_wf n e := by
  obtain ⟨c, c1, c2, c3, c4, c5⟩ := hl
  have hcpos : 0 < c := by
    by_contra hz
    have := c4 (by omega)
    rw [ht] at this
    exact Option.noConfusion this
  obtain ⟨tbl2, ht2, hlen, hel, hlast⟩ := c5 hcpos
  rw [ht] at ht2
  cases ht2
  intro e he
  obtain ⟨i, hi, rfl⟩ := List.getElem_of_mem he
  by_cases hic : i < c
  · obtain ⟨child, hchild⟩ := Option.isSome_iff_exists.mp (c2 i hic)
    have hget := hel i hic
    rw [hchild, List.getElem?_eq_getElem hi] at hget
    simp only [Option.map_some', Option.some.injEq] at hget
    rw [hget]
    have hdisc := (discovered_iff dev.of_node type c c1 c2 c3 i).2 hic
    exact parsed_entry_wf n child (hv i child hdisc hchild)
  · have hieq : i = c := by omega
    subst hieq
    rw [List.getElem?_eq_getElem hi] at hlast
    simp only [Option.some.injEq] at hlast
    rw [hlast]
    exact zero_setting_wf n

/-- The controller a successful construction installs is well formed. -/
theorem installed_ctl_wf (dev : device) (n : Nat) (curr : Option sett_ptr)
    (rxt txt : Option (List ad9361_band_setting)) (hh : hooks_valid dev n)
    (hrx : table_valid dev n Lane.rx.type_name) (htx : table_valid dev n Lane.tx.type_name)
    (lrx : table_loaded dev.of_node Lane.rx.type_name n rxt)
    (ltx : table_loaded dev.of_node Lane.tx.type_name n txt) :
    ctl_wf n { hooked_ctl dev n with
                 rx_curr_setting := curr, tx_curr_setting := curr,
                 rx_settings := rxt, tx_settings := txt } := by
  refine ⟨rfl, ?_, ?_⟩
  · intro h s hs
    cases h
    · simp only [ad9361_ext_band_ctl.hooks, hooked_ctl] at hs
      cases hc : of_get_child_by_name dev.of_node (hook_name .CTL_INIT) with
      | none => simp [hc] at hs
      | some c =>
        simp only [hc, Option.map_some', Option.some.injEq] at hs
        rw [← hs]
        exact parsed_hook_wf n c (hh .CTL_INIT c hc)
    · simp only [ad9361_ext_band_ctl.hooks, hooked_ctl] at hs
      cases hc : of_get_child_by_name dev.of_node (hook_name .CTL_UNINIT) with
      | none => simp [hc] at hs
      | some c =>
        simp only [hc, Option.map_some', Option.some.injEq] at hs
        rw [← hs]
        exact parsed_hook_wf n c (hh .CTL_UNINIT c hc)
  · intro lane tbl ht
    cases lane
    · exact table_loaded_wf dev Lane.rx.type_name n rxt lrx hrx tbl ht
    · exact table_loaded_wf dev Lane.tx.type_name n txt ltx htx tbl ht

/-- Every outcome of `ad9361_register_ext_band_control`: the call never faults; either
it leaves the phy as it was and returns a code that is not positive, or it returns 0
and installs the controller built from valid hooks and valid tables. -/
theorem register_outcome (dev : device) (phy : ad9361_rf_phy) (hw : Hw) :
    (∃ ret hw1, ret ≤ 0 ∧
      ad9361_register_ext_band_control dev phy hw = .ok (ret, phy, hw1)) ∨
    (0 < line_count dev ∧ hooks_valid dev (line_count dev) ∧
      table_valid dev (line_count dev) Lane.rx.type_name ∧
      table_valid dev (line_count dev) Lane.tx.type_name ∧
      ∃ curr rxt txt hw1, init_outcome dev (line_count dev) hw 0 curr hw1 ∧
        table_loaded dev.of_node Lane.rx.type_name (line_count dev) rxt ∧
        table_loaded dev.of_node Lane.tx.type_name (line_count dev) txt ∧
        ad9361_register_ext_band_control dev phy hw =
          .ok (0, ⟨some { hooked_ctl dev (line_count dev) with
                            rx_curr_setting := curr, tx_curr_setting := curr,
                            rx_settings := rxt, tx_settings := txt }⟩, hw1)) := by
  have hmem : (-ENOMEM : Int) ≤ 0 := by norm_num [ENOMEM]
  cases ha : dev.devm_kzalloc .ctl with
  | false => exact Or.inl ⟨_, hw, hmem, (register_no_memory dev phy hw).1 ha⟩
  | true =>
    by_cases hz : line_count dev = 0
    · left
      refine ⟨0, hw, le_refl 0, ?_⟩
      unfold line_count at hz
      simp [ad9361_register_ext_band_control, ad9361_populate_objs, hz, ha]
    · have hpos : 0 < line_count dev := by omega
      cases hd : dev.devm_kzalloc .descs with
      | false => exact Or.inl ⟨_, hw, hmem, (register_no_memory dev phy hw).2 hpos hd⟩
      | true =>
        rcases register_spec dev phy hw hpos ha hd with ⟨hneg, hreg⟩ | ⟨_, hrest⟩
        · exact Or.inl ⟨_, hw, le_of_lt hneg, hreg⟩
        · rcases hrest with ⟨_, ret, hret, hreg⟩ | ⟨hv, ri, curr, hw2, hinit, hcases⟩
          · exact Or.inl ⟨ret, hw, le_of_lt hret, hreg⟩
          · rcases hcases with ⟨hneg, hreg⟩ | ⟨_, _, ret, hret, hreg⟩ |
              ⟨_, _, _, ret, hret, hreg⟩ | ⟨hri, hrx, htx, rxt, txt, l1, l2, hreg⟩
            · exact Or.inl ⟨ri, hw2, le_of_lt hneg, hreg⟩
            · exact Or.inl ⟨ret, hw2, le_of_lt hret, hreg⟩
            · exact Or.inl ⟨ret, hw2, le_of_lt hret, hreg⟩
            · subst hri
              exact Or.inr ⟨hpos, hooks_valid_of_build dev _ hv,
                table_valid_of_builds dev _ _ hrx, table_valid_of_builds dev _ _ htx,
                curr, rxt, txt, hw2, hinit, l1, l2, hreg⟩

/-- C11: `ad9361_register_ext_band_control` never faults.  When it returns an error no
controller is installed: the phy is left as it was.  And whenever it changes the phy,
it has returned 0 and installed a controller in which every hook setting and every
table element passed validation: each line-value vector that is present has as many
elements as there are lines and holds only codes in {0,1,2,3}. -/
theorem register_atomic (dev : device) (phy : ad9361_rf_phy) (hw : Hw) :
    ∃ ret phy1 hw1, ad9361_register_ext_band_control dev phy hw = .ok (ret, phy1, hw1) ∧
      (ret < 0 → phy1 = phy) ∧
      (phy1 = phy ∨
        ∃ ctl, ret = 0 ∧ phy1 = ⟨some ctl⟩ ∧
          ctl.objs = { gpios := some { ndescs := line_count dev } } ∧
          (∀ h s, ctl.hooks h = some s → ∀ v, s.gpio_values = some v →
            v.length = line_count dev ∧ ∀ x ∈ v, x = 0 ∨ x = 1 ∨ x = 2 ∨ x = 3) ∧
          (∀ (lane : Lane) (tbl : List ad9361_band_setting), lane.settings ctl = some tbl →
            ∀ e ∈ tbl, ∀ v, e.gpio_values = some v →
              v.length = line_count dev ∧ ∀ x ∈ v, x = 0 ∨ x = 1 ∨ x = 2 ∨ x = 3)) := by
  rcases register_outcome dev phy hw with ⟨ret, hw1, _, hreg⟩ |
    ⟨_, hh, hrx, htx, curr, rxt, txt, hw1, _, l1, l2, hreg⟩
  · exact ⟨ret, phy, hw1, hreg, fun _ => rfl, Or.inl rfl⟩
  · obtain ⟨w1, w2, w3⟩ := installed_ctl_wf dev (line_count dev) curr rxt txt hh hrx htx l1 l2
    refine ⟨0, _, hw1, hreg, fun h => absurd h (lt_irrefl 0), Or.inr ⟨_, rfl, rfl, w1, ?_, ?_⟩⟩
    · intro h s hs v hv
      obtain ⟨a, b, _⟩ := w2 h s hs v hv
      exact ⟨a, fun x hx => (lctl_gpio_value_valid_iff x).1 (b x hx)⟩
    · intro lane tbl ht e he v hv
      obtain ⟨a, b, _⟩ := w3 lane tbl ht e he v hv
      exact ⟨a, fun x hx => (lctl_gpio_value_valid_iff x).1 (b x hx)⟩

/-! ## Init hook -/

theorem drive_log_of_nonneg (drv : Nat → Nat → Int) (ws : List (Nat × Nat)) (hw : Hw)
    (h : ¬ (drive drv ws hw).1 < 0) : (drive drv ws hw).2.log = hw.log ++ ws := by
  induction ws generalizing hw with
  | nil => simp [drive]
  | cons w ws ih =>
    unfold drive at h ⊢
    by_cases hneg : (gpiod_request drv hw w.1 w.2).1 < 0
    · rw [if_pos hneg] at h
      exact absurd hneg h
    · rw [if_neg hneg] at h ⊢
      rw [ih _ h]
      simp [gpiod_request]

/-- C12: when construction succeeds and installs a controller (on a phy that had
none): if an init hook entry is present, its setting is `hooks[CTL_INIT]`, it has been
applied with no previous setting (the driver calls construction made are exactly one
per line whose init value is not NoOp, in index order) and both `rx_curr_setting` and
`tx_curr_setting` point at it; if no init hook entry is present, there is no init
hook, both current settings are unset and construction made no driver call and left
the lines as they were. -/
theorem register_init_hook (dev : device) (phy phy1 : ad9361_rf_phy) (hw hw1 : Hw)
    (ctl : ad9361_ext_band_ctl) (hfresh : phy.ext_band_ctl = none)
    (h : ad9361_register_ext_band_control dev phy hw = .ok (0, phy1, hw1))
    (hctl : phy1.ext_band_ctl = some ctl) :
    (∀ c, of_get_child_by_name dev.of_node (hook_name .CTL_INIT) = some c →
      ctl.hooks .CTL_INIT = some (parsed_hook (line_count dev) c) ∧
      hw1.log = hw.log ++ expected_writes (line_count dev) (parsed_hook (line_count dev) c) none ∧
      ctl.rx_curr_setting = some (.hook .CTL_INIT) ∧
      ctl.tx_curr_setting = some (.hook .CTL_INIT)) ∧
    (of_get_child_by_name dev.of_node (hook_name .CTL_INIT) = none →
      ctl.hooks .CTL_INIT = none ∧ ctl.rx_curr_setting = none ∧ ctl.tx_curr_setting = none ∧
      hw1 = hw) := by
  obtain ⟨_, _, _, _, curr, rxt, txt, hinit, _, _, hc⟩ :=
    register_installs dev phy phy1 hw hw1 ctl hfresh h hctl
  subst hc
  unfold init_outcome at hinit
  constructor
  · intro c hci
    simp only [hci] at hinit
    obtain ⟨hhw, hcase⟩ := hinit
    rcases hcase with ⟨hneg, h0, _⟩ | ⟨hnn, _, hcurr⟩
    · rw [← h0] at hneg
      exact absurd hneg (lt_irrefl 0)
    · subst hcurr
      refine ⟨by simp [ad9361_ext_band_ctl.hooks, hooked_ctl, hci], ?_, rfl, rfl⟩
      rw [hhw]
      exact drive_log_of_nonneg dev.drv _ hw hnn
  · intro hci
    simp only [hci] at hinit
    obtain ⟨_, hcurr, hhw⟩ := hinit
    subst hcurr
    exact ⟨by simp [ad9361_ext_band_ctl.hooks, hooked_ctl, hci], rfl, rfl, hhw⟩

/-- C12 on two lines with the init hook [Input, NoOp]: construction drives line 0 to
Input and nothing else, and both current settings point at the init hook. -/
theorem register_init_hook_witness :
    ad9361_register_ext_band_control init_hook_dev ⟨none⟩ (fresh_hw 2) =
      .ok (0, ⟨some init_hook_ctl⟩, { lines := [CTL_GPIO_IN, 0], log := [(0, CTL_GPIO_IN)] }) ∧
    (∀ c, of_get_child_by_name init_hook_dev.of_node (hook_name .CTL_INIT) = some c →
      init_hook_ctl.hooks .CTL_INIT = some (parsed_hook (line_count init_hook_dev) c) ∧
      ({ lines := [CTL_GPIO_IN, 0], log := [(0, CTL_GPIO_IN)] } : Hw).log =
        (fresh_hw 2).log ++
          expected_writes (line_count init_hook_dev) (parsed_hook (line_count init_hook_dev) c)
            none ∧
      init_hook_ctl.rx_curr_setting = some (.hook .CTL_INIT) ∧
      init_hook_ctl.tx_curr_setting = some (.hook .CTL_INIT)) ∧
    (of_get_child_by_name init_hook_dev.of_node (hook_name .CTL_INIT) = none →
      init_hook_ctl.hooks .CTL_INIT = none ∧ init_hook_ctl.rx_curr_setting = none ∧
      init_hook_ctl.tx_curr_setting = none ∧
      ({ lines := [CTL_GPIO_IN, 0], log := [(0, CTL_GPIO_IN)] } : Hw) = fresh_hw 2) :=
  ⟨by decide,
   register_init_hook init_hook_dev ⟨none⟩ ⟨some init_hook_ctl⟩ (fresh_hw 2)
     { lines := [CTL_GPIO_IN, 0], log := [(0, CTL_GPIO_IN)] } init_hook_ctl rfl (by decide) rfl⟩

/-! ## A frequency change that returns -/

theorem lane_set_curr_frame (lane : Lane) (ctl : ad9361_ext_band_ctl) (slot : Option sett_ptr) :
    (lane.set_curr_setting ctl slot).hooks_init = ctl.hooks_init ∧
    (lane.set_curr_setting ctl slot).hooks_uninit = ctl.hooks_uninit ∧
    (lane.set_curr_setting ctl slot).rx_settings = ctl.rx_settings ∧
    (lane.set_curr_setting ctl slot).tx_settings = ctl.tx_settings ∧
    (lane.set_curr_setting ctl slot).objs = ctl.objs ∧
    ∀ other : Lane, other ≠ lane →
      other.curr_setting (lane.set_curr_setting ctl slot) = other.curr_setting ctl := by
  cases lane
  · refine ⟨rfl, rfl, rfl, rfl, rfl, ?_⟩
    intro other ho
    cases other
    · exact absurd rfl ho
    · rfl
  · refine ⟨rfl, rfl, rfl, rfl, rfl, ?_⟩
    intro other ho
    cases other
    · rfl
    · exact absurd rfl ho

/-- The frame of a frequency change of a lane, for a call that returns: the controller
differs from the one before at most in the current setting of that lane, which changes
exactly when the lookup selects an entry that is not the current one and the call
returns 0; it then points at the selected entry. -/
theorem frame_of_returning_call (lane : Lane) (dev : device) (ctl : ad9361_ext_band_ctl) (f : Nat)
    (hw hw1 : Hw) (ret : Int) (phy1 : Option ad9361_rf_phy)
    (h : ad9361_adjust_ext_band_settings lane dev (some ⟨some ctl⟩) f hw =
      .ok (ret, phy1, hw1)) :
    ∃ ctl1, phy1 = some ⟨some ctl1⟩ ∧
      ctl1.hooks_init = ctl.hooks_init ∧ ctl1.hooks_uninit = ctl.hooks_uninit ∧
      ctl1.rx_settings = ctl.rx_settings ∧ ctl1.tx_settings = ctl.tx_settings ∧
      ctl1.objs = ctl.objs ∧
      (∀ other : Lane, other ≠ lane → other.curr_setting ctl1 = other.curr_setting ctl) ∧
      (lane.curr_setting ctl1 ≠ lane.curr_setting ctl ↔
        ∃ i, ad9361_find_first_setting (lane.settings ctl) f = .ok (some i) ∧
          lane.curr_setting ctl ≠ some (lane.ptr i) ∧ ret = 0) ∧
      (lane.curr_setting ctl1 ≠ lane.curr_setting ctl →
        ∃ i, ad9361_find_first_setting (lane.settings ctl) f = .ok (some i) ∧
          lane.curr_setting ctl1 = some (lane.ptr i)) := by
  have same : ∀ (r : Int), ret = r → phy1 = some ⟨some ctl⟩ →
      (¬ ∃ i, ad9361_find_first_setting (lane.settings ctl) f = .ok (some i) ∧
          lane.curr_setting ctl ≠ some (lane.ptr i) ∧ ret = 0) →
      ∃ ctl1, phy1 = some ⟨some ctl1⟩ ∧
        ctl1.hooks_init = ctl.hooks_init ∧ ctl1.hooks_uninit = ctl.hooks_uninit ∧
        ctl1.rx_settings = ctl.rx_settings ∧ ctl1.tx_settings = ctl.tx_settings ∧
        ctl1.objs = ctl.objs ∧
        (∀ other : Lane, other ≠ lane → other.curr_setting ctl1 = other.curr_setting ctl) ∧
        (lane.curr_setting ctl1 ≠ lane.curr_setting ctl ↔
          ∃ i, ad9361_find_first_setting (lane.settings ctl) f = .ok (some i) ∧
            lane.curr_setting ctl ≠ some (lane.ptr i) ∧ ret = 0) ∧
        (lane.curr_setting ctl1 ≠ lane.curr_setting ctl →
          ∃ i, ad9361_find_first_setting (lane.settings ctl) f = .ok (some i) ∧
            lane.curr_setting ctl1 = some (lane.ptr i)) := by
    intro r _ hp hno
    refine ⟨ctl, hp, rfl, rfl, rfl, rfl, rfl, fun _ _ => rfl, ?_, ?_⟩
    · constructor
      · intro hne
        exact absurd rfl hne
      · intro hex
        exact absurd hex hno
    · intro hne
      exact absurd rfl hne
  rw [adjust_unfold] at h
  obtain ⟨found, hfind⟩ : ∃ x, ad9361_find_first_setting (lane.settings ctl) f = x :=
    ⟨_, rfl⟩
  rw [hfind] at h
  cases found with
  | error e => simp at h
  | ok r =>
    cases r with
    | none =>
      simp only [Except.ok.injEq, Prod.mk.injEq] at h
      obtain ⟨hr, hp, _⟩ := h
      apply same 0 hr.symm hp.symm
      rintro ⟨i, hi, _⟩
      rw [hfind] at hi
      exact Option.noConfusion (Except.ok.inj hi)
    | some i =>
      simp only at h
      by_cases hcur : lane.curr_setting ctl = some (lane.ptr i)
      · simp only [hcur, if_true, Except.ok.injEq, Prod.mk.injEq] at h
        obtain ⟨hr, hp, _⟩ := h
        apply same 0 hr.symm hp.symm
        rintro ⟨j, hj, hne, _⟩
        rw [hfind] at hj
        have hij : i = j := Option.some.inj (Except.ok.inj hj)
        subst hij
        exact hne hcur
      · simp only [hcur, if_false] at h
        obtain ⟨applied, happ⟩ : ∃ x, ad9361_apply_settings dev.drv ctl (lane.ptr i)
            (some (lane.curr_setting ctl)) hw = x := ⟨_, rfl⟩
        rw [happ] at h
        cases applied with
        | error e => simp at h
        | ok r =>
          obtain ⟨aret, slot, hw2⟩ := r
          simp only at h
          rcases apply_settings_slot _ _ _ _ _ _ _ _ happ with ⟨hneg, hslot⟩ | ⟨hz, hslot⟩
          · simp only [hneg, if_true, Except.ok.injEq, Prod.mk.injEq] at h
            obtain ⟨hr, hp, _⟩ := h
            subst hslot
            rw [lane_set_curr_self] at hp
            apply same aret hr.symm hp.symm
            rintro ⟨_, _, _, h0⟩
            omega
          · subst hz hslot
            simp only [lt_irrefl, if_false, Except.ok.injEq, Prod.mk.injEq] at h
            obtain ⟨hr, hp, _⟩ := h
            obtain ⟨f1, f2, f3, f4, f5, f6⟩ :=
              lane_set_curr_frame lane ctl (some (lane.ptr i))
            refine ⟨lane.set_curr_setting ctl (some (lane.ptr i)), hp.symm, f1, f2, f3, f4, f5,
              f6, ?_, ?_⟩
            · rw [lane_curr_set_curr]
              constructor
              · intro _
                exact ⟨i, hfind, hcur, hr.symm⟩
              · intro _ heq
                exact hcur heq.symm
            · intro _
              exact ⟨i, hfind, lane_curr_set_curr lane ctl _⟩

/-! ## Parsing of one entry -/

theorem invalid_gpio_report_first (buf : List Nat) (fuel i : Nat)
    (h : ∃ j, i ≤ j ∧ j < i + fuel ∧ lctl_gpio_value_valid (buf.getD j 0) = false) :
    ∃ k, i ≤ k ∧ k < i + fuel ∧ invalid_gpio_report buf fuel i = some (buf.getD k 0, k) ∧
      lctl_gpio_value_valid (buf.getD k 0) = false ∧
      ∀ j, i ≤ j → j < k → lctl_gpio_value_valid (buf.getD j 0) = true := by
  induction fuel generalizing i with
  | zero =>
    obtain ⟨j, h1, h2, _⟩ := h
    omega
  | succ fuel ih =>
    unfold invalid_gpio_report
    by_cases hv : lctl_gpio_value_valid (buf.getD i 0) = true
    · rw [if_pos hv]
      obtain ⟨j, h1, h2, h3⟩ := h
      have hne : j ≠ i := by
        intro hji
        subst hji
        rw [hv] at h3
        exact Bool.noConfusion h3
      obtain ⟨k, k1, k2, k3, k4, k5⟩ := ih (i + 1) ⟨j, by omega, by omega, h3⟩
      refine ⟨k, by omega, by omega, k3, k4, ?_⟩
      intro m hm1 hm2
      by_cases hmi : m = i
      · subst hmi; exact hv
      · exact k5 m (by omega) hm2
    · rw [if_neg hv]
      refine ⟨i, Nat.le_refl _, by omega, rfl, by simpa using hv, ?_⟩
      intro j h1 h2
      omega

theorem any_invalid_iff (vals : List Nat) :
    vals.any (fun v => !(v == 0 || v == 1 || v == 2 || v == 3)) = true ↔
      ∃ v ∈ vals, ¬ (v = 0 ∨ v = 1 ∨ v = 2 ∨ v = 3) := by
  rw [List.any_eq_true]
  constructor
  · rintro ⟨v, hv, hb⟩
    refine ⟨v, hv, ?_⟩
    simp only [Bool.not_eq_true', Bool.or_eq_false_iff, beq_eq_false_iff_ne] at hb
    omega
  · rintro ⟨v, hv, hb⟩
    refine ⟨v, hv, ?_⟩
    simp only [Bool.not_eq_true', Bool.or_eq_false_iff, beq_eq_false_iff_ne]
    omega

/-- C14 (counterexample): three lines and an entry whose `adi,gpio-settings` array has
three codes, all valid, on a device whose allocator returns `NULL`: the call does not
succeed, it returns `-ENOMEM` and stores no line-value vector. -/
theorem parse_gpio_settings_fails_without_memory :
    good_codes_node.gpio_settings = some [CTL_GPIO_OUT_LOW, CTL_GPIO_OUT_HIGH, CTL_GPIO_IN] ∧
    (∀ v ∈ [CTL_GPIO_OUT_LOW, CTL_GPIO_OUT_HIGH, CTL_GPIO_IN], v = 0 ∨ v = 1 ∨ v = 2 ∨ v = 3) ∧
    ad9361_parse_gpio_settings no_memory_dev good_codes_node (lines_ctl 3) zero_setting =
      (-ENOMEM, { zero_setting with objs := some (lines_ctl 3).objs,
                                    name := some good_codes_node.name, gpio_values := none }) ∧
    -ENOMEM < 0 := by
  decide

/-- C14 (amended): `ad9361_parse_gpio_settings` on a zeroed setting, for `n >= 1` lines.
When the entry declares no `adi,gpio-settings`, the call returns 0 and the setting has
no line-value vector.  When the entry declares one, the call first allocates the
vector; if that allocation fails it returns `-ENOMEM` and the setting has no
line-value vector.  If the allocation succeeds: (a) when the array is empty, the call
returns 0 and the setting has no line-value vector; (b) when the array has exactly `n`
elements, all of them in {0,1,2,3}, the call returns 0 and the vector stored is the
array; (c) in every other case the call fails; and when the array has `n` elements but
holds an invalid code, the position it reports is the smallest index whose code is
outside {0,1,2,3}. -/
theorem parse_gpio_settings_cases (dev : device) (c : child_node) (ctl : ad9361_ext_band_ctl)
    (sett : ad9361_band_setting) (n : Nat)
    (hn : ctl.objs = { gpios := some { ndescs := n } }) (hpos : 1 ≤ n)
    (hs : sett.gpio_values = none) :
    (c.gpio_settings = none →
      ad9361_parse_gpio_settings dev c ctl sett =
        (0, { sett with objs := some ctl.objs, name := some c.name, gpio_values := none })) ∧
    (c.gpio_settings ≠ none → dev.devm_kzalloc (.gpio_values c.name) = false →
      ad9361_parse_gpio_settings dev c ctl sett =
        (-ENOMEM, { sett with objs := some ctl.objs, name := some c.name,
                              gpio_values := none })) ∧
    (dev.devm_kzalloc (.gpio_values c.name) = true →
      (c.gpio_settings = some [] →
        ad9361_parse_gpio_settings dev c ctl sett =
          (0, { sett with objs := some ctl.objs, name := some c.name, gpio_values := none })) ∧
      (∀ vals, c.gpio_settings = some vals → vals.length = n →
        (∀ v ∈ vals, v = 0 ∨ v = 1 ∨ v = 2 ∨ v = 3) →
        ad9361_parse_gpio_settings dev c ctl sett =
          (0, { sett with objs := some ctl.objs, name := some c.name,
                          gpio_values := some vals })) ∧
      (∀ vals, c.gpio_settings = some vals → vals ≠ [] →
        (vals.length ≠ n ∨ ∃ v ∈ vals, ¬ (v = 0 ∨ v = 1 ∨ v = 2 ∨ v = 3)) →
        (ad9361_parse_gpio_settings dev c ctl sett).1 < 0) ∧
      (∀ vals, c.gpio_settings = some vals → vals.length = n →
        (∃ v ∈ vals, ¬ (v = 0 ∨ v = 1 ∨ v = 2 ∨ v = 3)) →
        ∃ k v, ad9361_parse_gpio_settings_report dev c ctl = some (v, k) ∧
          vals[k]? = some v ∧ ¬ (v = 0 ∨ v = 1 ∨ v = 2 ∨ v = 3) ∧
          ∀ j w, j < k → vals[j]? = some w → (w = 0 ∨ w = 1 ∨ w = 2 ∨ w = 3))) := by
  obtain ⟨p0, p1, p2⟩ := parse_gpio_settings_spec dev c ctl sett n hn
  refine ⟨?_, ?_, ?_⟩
  · intro h
    have ha : gpio_alloc_ok dev c = true := by simp [gpio_alloc_ok, h]
    have hb : gpio_settings_bad n c = false := by simp [gpio_settings_bad, h]
    rw [p2 ha hb, hn]
    simp [h, hs]
  · intro h hf
    have ha : gpio_alloc_ok dev c = false := by
      cases hg : c.gpio_settings with
      | none => exact absurd hg h
      | some vals => simp [gpio_alloc_ok, hg, hf]
    rw [p0 ha, hn]
  · intro hok
    have ha : gpio_alloc_ok dev c = true := by simp [gpio_alloc_ok, hok]
    refine ⟨?_, ?_, ?_, ?_⟩
    · intro h
      have hb : gpio_settings_bad n c = false := by simp [gpio_settings_bad, h]
      rw [p2 ha hb, hn]
      simp [h, parsed_gpio_values]
    · intro vals hv hlen hall
      have hany : vals.any (fun v => !(v == 0 || v == 1 || v == 2 || v == 3)) = false := by
        rw [Bool.eq_false_iff]
        intro ht
        obtain ⟨v, hv1, hv2⟩ := (any_invalid_iff vals).1 ht
        exact hv2 (hall v hv1)
      have hb : gpio_settings_bad n c = false := by
        simp only [gpio_settings_bad, hv, hany, Bool.or_false, Bool.and_eq_false_imp,
          bne_iff_ne, ne_eq, bne_eq_false_iff_eq]
        intro _
        exact hlen
      have hne : ¬ vals.length = 0 := by omega
      rw [p2 ha hb, hn]
      simp [hv, parsed_gpio_values, hne]
    · intro vals hv hnil hor
      apply p1 ha
      have hne : ¬ vals.length = 0 := fun h => hnil (List.length_eq_zero.mp h)
      simp only [gpio_settings_bad, hv, Bool.or_eq_true, Bool.and_eq_true, bne_iff_ne, ne_eq]
      rcases hor with h | h
      · exact Or.inl ⟨hne, h⟩
      · exact Or.inr ((any_invalid_iff vals).2 h)
    · intro vals hv hlen hex
      obtain ⟨v, hvm, hvbad⟩ := hex
      obtain ⟨j, hj, rfl⟩ := List.getElem_of_mem hvm
      have hjD : vals.getD j 0 = vals[j] := by simp [List.getD, List.getElem?_eq_getElem hj]
      have hjbad : lctl_gpio_value_valid (vals.getD j 0) = false := by
        rw [hjD, Bool.eq_false_iff]
        intro ht
        exact hvbad ((lctl_gpio_value_valid_iff _).1 ht)
      obtain ⟨k, _, k2, k3, k4, k5⟩ :=
        invalid_gpio_report_first vals vals.length 0 ⟨j, Nat.zero_le _, by omega, hjbad⟩
      have hk : k < vals.length := by omega
      have hkD : vals.getD k 0 = vals[k] := by simp [List.getD, List.getElem?_eq_getElem hk]
      refine ⟨k, vals[k], ?_, List.getElem?_eq_getElem hk, ?_, ?_⟩
      · subst hlen
        have hdrop : vals ++ List.drop vals.length (List.replicate vals.length 0) = vals := by
          simp
        have hne0 : ¬ ((vals.length : Int) = 0) := by omega
        have hnn : ¬ ((vals.length : Int) < 0) := by omega
        unfold ad9361_parse_gpio_settings_report
        simp only [hv, hn, Option.isNone_some, Bool.false_eq_true, if_false,
          of_property_read_variable_u32_array, Nat.not_lt_zero, false_or, lt_irrefl, hdrop,
          hne0, ne_eq, not_true_eq_false, and_false, hnn, hok, Bool.true_eq_false]
        rw [k3, hkD]
      · intro hvalid
        rw [hkD] at k4
        rw [(lctl_gpio_value_valid_iff _).2 hvalid] at k4
        exact Bool.noConfusion k4
      · intro m w hm hw
        have hm2 : m < vals.length := by omega
        rw [List.getElem?_eq_getElem hm2] at hw
        have hmD : vals.getD m 0 = vals[m] := by simp [List.getD, List.getElem?_eq_getElem hm2]
        have := k5 m (Nat.zero_le _) hm
        rw [hmD, Option.some.inj hw] at this
        exact (lctl_gpio_value_valid_iff w).1 this

/-- C14 (amended) on one entry with the codes [1, 7, 9] and three lines, with an
allocator that does not fail: the call fails and reports position 1, the first invalid
code. -/
theorem parse_gpio_settings_cases_witness :
    ad9361_parse_gpio_settings_report quiet_dev bad_codes_node (lines_ctl 3) = some (7, 1) ∧
    (ad9361_parse_gpio_settings quiet_dev bad_codes_node (lines_ctl 3) zero_setting).1 =
      -EINVAL ∧
    (bad_codes_node.gpio_settings = none →
      ad9361_parse_gpio_settings quiet_dev bad_codes_node (lines_ctl 3) zero_setting =
        (0, { zero_setting with objs := some (lines_ctl 3).objs,
                                name := some bad_codes_node.name, gpio_values := none })) ∧
    (bad_codes_node.gpio_settings ≠ none →
      quiet_dev.devm_kzalloc (.gpio_values bad_codes_node.name) = false →
      ad9361_parse_gpio_settings quiet_dev bad_codes_node (lines_ctl 3) zero_setting =
        (-ENOMEM, { zero_setting with objs := some (lines_ctl 3).objs,
                                      name := some bad_codes_node.name,
                                      gpio_values := none })) ∧
    (quiet_dev.devm_kzalloc (.gpio_values bad_codes_node.name) = true →
      (bad_codes_node.gpio_settings = some [] →
        ad9361_parse_gpio_settings quiet_dev bad_codes_node (lines_ctl 3) zero_setting =
          (0, { zero_setting with objs := some (lines_ctl 3).objs,
                                  name := some bad_codes_node.name, gpio_values := none })) ∧
      (∀ vals, bad_codes_node.gpio_settings = some vals → vals.length = 3 →
        (∀ v ∈ vals, v = 0 ∨ v = 1 ∨ v = 2 ∨ v = 3) →
        ad9361_parse_gpio_settings quiet_dev bad_codes_node (lines_ctl 3) zero_setting =
          (0, { zero_setting with objs := some (lines_ctl 3).objs,
                                  name := some bad_codes_node.name,
                                  gpio_values := some vals })) ∧
      (∀ vals, bad_codes_node.gpio_settings = some vals → vals ≠ [] →
        (vals.length ≠ 3 ∨ ∃ v ∈ vals, ¬ (v = 0 ∨ v = 1 ∨ v = 2 ∨ v = 3)) →
        (ad9361_parse_gpio_settings quiet_dev bad_codes_node (lines_ctl 3) zero_setting).1 < 0) ∧
      (∀ vals, bad_codes_node.gpio_settings = some vals → vals.length = 3 →
        (∃ v ∈ vals, ¬ (v = 0 ∨ v = 1 ∨ v = 2 ∨ v = 3)) →
        ∃ k v, ad9361_parse_gpio_settings_report quiet_dev bad_codes_node (lines_ctl 3) =
            some (v, k) ∧
          vals[k]? = some v ∧ ¬ (v = 0 ∨ v = 1 ∨ v = 2 ∨ v = 3) ∧
          ∀ j w, j < k → vals[j]? = some w → (w = 0 ∨ w = 1 ∨ w = 2 ∨ w = 3))) :=
  ⟨by decide, by decide,
   parse_gpio_settings_cases quiet_dev bad_codes_node (lines_ctl 3) zero_setting 3 rfl
     (by decide) rfl⟩

/-! ## Teardown -/

theorem drive_log_take (drv : Nat → Nat → Int) (ws : List (Nat × Nat)) (hw : Hw) :
    ∃ m, m ≤ ws.length ∧ (drive drv ws hw).2.log = hw.log ++ ws.take m ∧
      (¬ (drive drv ws hw).1 < 0 → m = ws.length) := by
  induction ws generalizing hw with
  | nil => exact ⟨0, Nat.le_refl _, by simp [drive], fun _ => rfl⟩
  | cons w ws ih =>
    unfold drive
    by_cases hneg : (gpiod_request drv hw w.1 w.2).1 < 0
    · rw [if_pos hneg]
      refine ⟨1, by simp, by simp [gpiod_request], fun h => absurd hneg h⟩
    · rw [if_neg hneg]
      obtain ⟨m, m1, m2, m3⟩ := ih (gpiod_request drv hw w.1 w.2).2
      refine ⟨m + 1, by simp; omega, ?_, ?_⟩
      · rw [m2]
        simp [gpiod_request]
      · intro h
        rw [m3 h]
        simp

/-- C15: `ad9361_unregister_ext_band_control` returns nothing to its caller and leaves
the phy, and with it `rx_curr_setting` and `tx_curr_setting`, as it was.  Without a
controller or without an uninit hook it makes no driver call.  With a well-formed
uninit hook it applies it with no previous setting: whatever the current settings of
the lanes, it issues the writes for the lines whose uninit value is not NoOp, in index
order, up to the first driver failure, so the calls it adds to the log are an initial
part of those writes, and all of them when no call fails. -/
theorem unregister_spec (dev : device) (phy : ad9361_rf_phy) (hw : Hw) :
    (phy.ext_band_ctl = none →
      ad9361_unregister_ext_band_control dev phy hw = .ok (phy, hw)) ∧
    (∀ ctl, phy.ext_band_ctl = some ctl → ctl.hooks .CTL_UNINIT = none →
      ad9361_unregister_ext_band_control dev phy hw = .ok (phy, hw)) ∧
    (∀ ctl s n, phy.ext_band_ctl = some ctl → ctl.hooks .CTL_UNINIT = some s →
      setting_wf n s →
      ad9361_unregister_ext_band_control dev phy hw =
        .ok (phy, (drive dev.drv (expected_writes n s none) hw).2) ∧
      ∃ m, m ≤ (expected_writes n s none).length ∧
        (drive dev.drv (expected_writes n s none) hw).2.log =
          hw.log ++ (expected_writes n s none).take m ∧
        (¬ (drive dev.drv (expected_writes n s none) hw).1 < 0 →
          m = (expected_writes n s none).length)) := by
  refine ⟨?_, ?_, ?_⟩
  · intro h
    simp [ad9361_unregister_ext_band_control, h]
  · intro ctl h hu
    simp [ad9361_unregister_ext_band_control, h, hu]
  · intro ctl s n h hu hwf
    have hderef : ctl.deref (.hook .CTL_UNINIT) = .ok s := by
      simp only [ad9361_ext_band_ctl.deref, hu]
    have happ := apply_settings_null_slot dev.drv ctl (.hook .CTL_UNINIT) s n hw hderef hwf
    refine ⟨?_, drive_log_take dev.drv _ hw⟩
    unfold ad9361_unregister_ext_band_control
    simp only [h, hu, happ]
    by_cases hneg : (drive dev.drv (expected_writes n s none) hw).1 < 0
    · simp only [hneg, if_true]
    · simp only [hneg, if_false]

/-- C15 on three lines with the uninit hook [Low, High, Input], current settings that
point at a band with the same lines, and a driver that fails on line 1: teardown
calls the driver for lines 0 and 1 and stops, and leaves the phy as it was. -/
theorem unregister_spec_witness :
    ad9361_unregister_ext_band_control line1_fails_dev ⟨some uninit_ctl⟩ (fresh_hw 3) =
      .ok (⟨some uninit_ctl⟩,
           { lines := [CTL_GPIO_OUT_LOW, 0, 0],
             log := [(0, CTL_GPIO_OUT_LOW), (1, CTL_GPIO_OUT_HIGH)] }) ∧
    ((⟨some uninit_ctl⟩ : ad9361_rf_phy).ext_band_ctl = none →
      ad9361_unregister_ext_band_control line1_fails_dev ⟨some uninit_ctl⟩ (fresh_hw 3) =
        .ok (⟨some uninit_ctl⟩, fresh_hw 3)) ∧
    (∀ ctl, (⟨some uninit_ctl⟩ : ad9361_rf_phy).ext_band_ctl = some ctl →
      ctl.hooks .CTL_UNINIT = none →
      ad9361_unregister_ext_band_control line1_fails_dev ⟨some uninit_ctl⟩ (fresh_hw 3) =
        .ok (⟨some uninit_ctl⟩, fresh_hw 3)) ∧
    (∀ ctl s n, (⟨some uninit_ctl⟩ : ad9361_rf_phy).ext_band_ctl = some ctl →
      ctl.hooks .CTL_UNINIT = some s → setting_wf n s →
      ad9361_unregister_ext_band_control line1_fails_dev ⟨some uninit_ctl⟩ (fresh_hw 3) =
        .ok (⟨some uninit_ctl⟩,
             (drive line1_fails_dev.drv (expected_writes n s none) (fresh_hw 3)).2) ∧
      ∃ m, m ≤ (expected_writes n s none).length ∧
        (drive line1_fails_dev.drv (expected_writes n s none) (fresh_hw 3)).2.log =
          (fresh_hw 3).log ++ (expected_writes n s none).take m ∧
        (¬ (drive line1_fails_dev.drv (expected_writes n s none) (fresh_hw 3)).1 < 0 →
          m = (expected_writes n s none).length)) :=
  ⟨by decide, unregister_spec line1_fails_dev ⟨some uninit_ctl⟩ (fresh_hw 3)⟩

/-! ## The invariant of a lane -/

theorem drive_lines_length (drv : Nat → Nat → Int) (ws : List (Nat × Nat)) (hw : Hw) :
    (drive drv ws hw).2.lines.length = hw.lines.length := by
  induction ws generalizing hw with
  | nil => rfl
  | cons w ws ih =>
    have hreq : (gpiod_request drv hw w.1 w.2).2.lines.length = hw.lines.length := by
      simp only [gpiod_request]
      split <;> simp
    unfold drive
    split
    · exact hreq
    · rw [ih, hreq]

theorem deref_set_curr (lane : Lane) (ctl : ad9361_ext_band_ctl) (slot : Option sett_ptr)
    (p : sett_ptr) : (lane.set_curr_setting ctl slot).deref p = ctl.deref p := by
  cases lane <;> cases p <;> rfl

theorem ctl_wf_set_curr (n : Nat) (lane : Lane) (ctl : ad9361_ext_band_ctl)
    (slot : Option sett_ptr) (h : ctl_wf n ctl) : ctl_wf n (lane.set_curr_setting ctl slot) := by
  obtain ⟨h1, h2, h3⟩ := h
  refine ⟨?_, ?_, ?_⟩
  · cases lane <;> exact h1
  · intro k s hs
    apply h2 k s
    cases lane <;> cases k <;> exact hs
  · intro l tbl ht
    apply h3 l tbl
    cases lane <;> cases l <;> exact ht

/-- Reading through a pointer of a well-formed controller gives a well-formed setting. -/
theorem deref_wf (n : Nat) (ctl : ad9361_ext_band_ctl) (h : ctl_wf n ctl) (p : sett_ptr)
    (s : ad9361_band_setting) (hp : ctl.deref p = .ok s) : setting_wf n s := by
  obtain ⟨_, h2, h3⟩ := h
  cases p with
  | hook k =>
    simp only [ad9361_ext_band_ctl.deref] at hp
    cases hk : ctl.hooks k with
    | none => simp [hk] at hp
    | some s2 =>
      simp only [hk, Except.ok.injEq] at hp
      subst hp
      exact h2 k s2 hk
  | rx i =>
    simp only [ad9361_ext_band_ctl.deref] at hp
    cases ht : ctl.rx_settings with
    | none => simp [ht] at hp
    | some tbl =>
      simp only [ht] at hp
      cases he : tbl[i]? with
      | none => simp [he] at hp
      | some s2 =>
        simp only [he, Except.ok.injEq] at hp
        subst hp
        exact h3 .rx tbl ht s2 (List.getElem?_mem he)
  | tx i =>
    simp only [ad9361_ext_band_ctl.deref] at hp
    cases ht : ctl.tx_settings with
    | none => simp [ht] at hp
    | some tbl =>
      simp only [ht] at hp
      cases he : tbl[i]? with
      | none => simp [he] at hp
      | some s2 =>
        simp only [he, Except.ok.injEq] at hp
        subst hp
        exact h3 .tx tbl ht s2 (List.getElem?_mem he)

/-- The entry a lookup returns can be read through its pointer. -/
theorem find_deref (lane : Lane) (ctl : ad9361_ext_band_ctl) (f i : Nat)
    (h : ad9361_find_first_setting (lane.settings ctl) f = .ok (some i)) :
    ∃ s, ctl.deref (lane.ptr i) = .ok s := by
  cases ht : lane.settings ctl with
  | none => simp [ht, ad9361_find_first_setting] at h
  | some tbl =>
    simp only [ht, ad9361_find_first_setting] at h
    rw [find_first_loop_ok_some] at h
    obtain ⟨_, ⟨e, he, _⟩, _⟩ := h
    simp only [Nat.sub_zero] at he
    refine ⟨e, ?_⟩
    cases lane
    · simp only [Lane.settings] at ht
      simp [Lane.ptr, ad9361_ext_band_ctl.deref, ht, he]
    · simp only [Lane.settings] at ht
      simp [Lane.ptr, ad9361_ext_band_ctl.deref, ht, he]

/-- The function `ad9361_apply_settings` with a slot, on settings of the data model. -/
theorem apply_settings_eq_drive (drv : Nat → Nat → Int) (ctl : ad9361_ext_band_ctl)
    (p : sett_ptr) (curr : Option sett_ptr) (s : ad9361_band_setting)
    (prev : Option ad9361_band_setting) (n : Nat) (hw : Hw)
    (hderef : ctl.deref p = .ok s) (hprev : ctl.deref_opt curr = .ok prev)
    (hwf : setting_wf n s)
    (hprevlen : ∀ q pv, prev = some q → q.gpio_values = some pv → pv.length = n) :
    ad9361_apply_settings drv ctl p (some curr) hw =
      if (drive drv (expected_writes n s prev) hw).1 < 0 then
        .ok ((drive drv (expected_writes n s prev) hw).1, curr,
             (drive drv (expected_writes n s prev) hw).2)
      else .ok (0, some p, (drive drv (expected_writes n s prev) hw).2) := by
  unfold ad9361_apply_settings
  simp only [hderef, hprev]
  rw [apply_gpio_settings_eq_drive drv s prev n hw hwf hprevlen]

/-- Applying a well-formed setting with a driver that does not fail, on lines that
agree with the previous setting, leaves lines that agree with the new setting. -/
theorem drive_consistent (drv : Nat → Nat → Int) (hdrv : ∀ i v, 0 ≤ drv i v) (n : Nat)
    (s : ad9361_band_setting) (prev : Option ad9361_band_setting) (hw : Hw)
    (hwf : setting_wf n s)
    (hprevlen : ∀ q pv, prev = some q → q.gpio_values = some pv → pv.length = n)
    (hlen : hw.lines.length = n)
    (hprevcons : ∀ (q : ad9361_band_setting) (pv : List Nat) (i v : Nat), prev = some q →
      q.gpio_values = some pv → pv[i]? = some v → v ≠ CTL_GPIO_NOP → hw.lines[i]? = some v)
    (vals : List Nat) (i v : Nat) (hvals : s.gpio_values = some vals)
    (hi : vals[i]? = some v) (hv : v ≠ CTL_GPIO_NOP) :
    (drive drv (expected_writes n s prev) hw).2.lines[i]? = some v := by
  obtain ⟨hvlen, _, _⟩ := hwf vals hvals
  have hin : i < vals.length := by
    by_contra hge
    rw [List.getElem?_eq_none (not_lt.mp hge)] at hi
    exact Option.noConfusion hi
  have hD : vals.getD i 0 = v := by simp [List.getD, hi]
  have hline : ∃ x, hw.lines[i]? = some x :=
    ⟨hw.lines[i], List.getElem?_eq_getElem (by omega)⟩
  obtain ⟨x, hx⟩ := hline
  obtain ⟨_, _, hlines⟩ := drive_writes_between drv vals (prev.bind (fun q => q.gpio_values)) n 0
    hw (fun j _ _ _ => hdrv j _)
  have hexp : expected_writes n s prev =
      writes_between vals (prev.bind (fun q => q.gpio_values)) 0 n := by
    simp only [expected_writes, hvals]
  rw [hexp, hlines i]
  by_cases hneed : needs_write vals (prev.bind (fun q => q.gpio_values)) i = true
  · rw [if_pos ⟨Nat.zero_le _, by omega, hneed⟩, hx, hD]
    rfl
  · rw [if_neg (fun h => hneed h.2.2)]
    have hneed2 : needs_write vals (prev.bind (fun q => q.gpio_values)) i = false := by
      simpa using hneed
    unfold needs_write at hneed2
    rw [hD] at hneed2
    have hv2 : (v != CTL_GPIO_NOP) = true := by simpa using hv
    simp only [hv2, Bool.true_and, Bool.not_eq_false'] at hneed2
    cases hprev : prev with
    | none => simp [hprev] at hneed2
    | some q =>
      cases hq : q.gpio_values with
      | none => simp [hprev, hq] at hneed2
      | some pv =>
        simp only [hprev, Option.some_bind, hq, beq_iff_eq] at hneed2
        have hpl := hprevlen q pv hprev hq
        have hpi : pv[i]? = some v := by
          rw [List.getElem?_eq_getElem (by omega)]
          have : pv.getD i 0 = pv[i] := by
            simp [List.getD, List.getElem?_eq_getElem (show i < pv.length by omega)]
          rw [← this, hneed2]
        exact hprevcons q pv i v hprev hq hpi hv

/-- A frequency change of a lane with a driver that does not fail preserves the
invariant of that lane. -/
theorem adjust_preserves_lane_inv (lane : Lane) (dev : device) (hdrv : ∀ i v, 0 ≤ dev.drv i v)
    (n : Nat) (ctl : ad9361_ext_band_ctl) (f : Nat) (hw hw1 : Hw) (ret : Int)
    (phy1 : Option ad9361_rf_phy) (hinv : lane_inv n lane ctl hw)
    (h : ad9361_adjust_ext_band_settings lane dev (some ⟨some ctl⟩) f hw =
      .ok (ret, phy1, hw1)) :
    ∃ ctl1, phy1 = some ⟨some ctl1⟩ ∧ lane_inv n lane ctl1 hw1 := by
  obtain ⟨hwf, hptr, hlen, hcons⟩ := hinv
  rw [adjust_unfold] at h
  obtain ⟨found, hfind⟩ : ∃ x, ad9361_find_first_setting (lane.settings ctl) f = x :=
    ⟨_, rfl⟩
  rw [hfind] at h
  cases found with
  | error e => simp at h
  | ok r =>
    cases r with
    | none =>
      simp only [Except.ok.injEq, Prod.mk.injEq] at h
      obtain ⟨_, hp, hh⟩ := h
      subst hp hh
      exact ⟨ctl, rfl, hwf, hptr, hlen, hcons⟩
    | some i =>
      simp only at h
      by_cases hcur : lane.curr_setting ctl = some (lane.ptr i)
      · simp only [hcur, if_true, Except.ok.injEq, Prod.mk.injEq] at h
        obtain ⟨_, hp, hh⟩ := h
        subst hp hh
        exact ⟨ctl, rfl, hwf, hptr, hlen, hcons⟩
      · simp only [hcur, if_false] at h
        obtain ⟨s, hs⟩ := find_deref lane ctl f i hfind
        have hswf := deref_wf n ctl hwf (lane.ptr i) s hs
        obtain ⟨prev, hprev, hprevwf, hprevcons⟩ : ∃ prev : Option ad9361_band_setting,
            ctl.deref_opt (lane.curr_setting ctl) = .ok prev ∧
            (∀ q pv, prev = some q → q.gpio_values = some pv → pv.length = n) ∧
            (∀ (q : ad9361_band_setting) (pv : List Nat) (k v : Nat), prev = some q →
              q.gpio_values = some pv → pv[k]? = some v → v ≠ CTL_GPIO_NOP →
              hw.lines[k]? = some v) := by
          cases hc : lane.curr_setting ctl with
          | none =>
            refine ⟨none, rfl, ?_, ?_⟩
            · intro q pv hq
              exact Option.noConfusion hq
            · intro q pv k v hq
              exact Option.noConfusion hq
          | some p =>
            obtain ⟨sp, hsp⟩ := hptr p hc
            refine ⟨some sp, by simp [ad9361_ext_band_ctl.deref_opt, hsp], ?_, ?_⟩
            · intro q pv hq hpv
              cases hq
              exact (deref_wf n ctl hwf p sp hsp pv hpv).1
            · intro q pv k v hq hpv hk hv
              cases hq
              exact hcons p sp pv k v hc hsp hpv hk hv
        rw [apply_settings_eq_drive dev.drv ctl (lane.ptr i) (lane.curr_setting ctl) s prev n hw
          hs hprev hswf hprevwf] at h
        have hz := (drive_no_failure dev.drv hdrv (expected_writes n s prev) hw).1
        have hnn : ¬ (drive dev.drv (expected_writes n s prev) hw).1 < 0 := by
          rw [hz]; exact lt_irrefl 0
        simp only [hnn, if_false, lt_irrefl, Except.ok.injEq, Prod.mk.injEq] at h
        obtain ⟨_, hp, hh⟩ := h
        subst hp hh
        refine ⟨lane.set_curr_setting ctl (some (lane.ptr i)), rfl,
          ctl_wf_set_curr n lane ctl _ hwf, ?_, ?_, ?_⟩
        · intro p hp
          rw [lane_curr_set_curr] at hp
          cases hp
          exact ⟨s, by rw [deref_set_curr]; exact hs⟩
        · rw [drive_lines_length]
          exact hlen
        · intro p s2 vals k v hp hs2 hvals hk hv
          rw [lane_curr_set_curr] at hp
          cases hp
          rw [deref_set_curr, hs] at hs2
          cases hs2
          exact drive_consistent dev.drv hdrv n s prev hw hswf hprevwf hlen hprevcons vals k v
            hvals hk hv

theorem lane_curr_installed (lane : Lane) (base : ad9361_ext_band_ctl)
    (curr : Option sett_ptr) (rxt txt : Option (List ad9361_band_setting)) :
    lane.curr_setting { base with rx_curr_setting := curr, tx_curr_setting := curr,
                                  rx_settings := rxt, tx_settings := txt } = curr := by
  cases lane <;> rfl

/-- A successful construction with a driver that does not fail establishes the
invariant of each lane. -/
theorem register_establishes_lane_inv (dev : device) (hdrv : ∀ i v, 0 ≤ dev.drv i v)
    (hw0 hw : Hw) (phy : ad9361_rf_phy) (ctl : ad9361_ext_band_ctl) (lane : Lane)
    (hlines : hw0.lines.length = line_count dev)
    (hreg : ad9361_register_ext_band_control dev ⟨none⟩ hw0 = .ok (0, phy, hw))
    (hctl : phy.ext_band_ctl = some ctl) : lane_inv (line_count dev) lane ctl hw := by
  obtain ⟨_, hh, hrx, htx, curr, rxt, txt, hinit, l1, l2, hc⟩ :=
    register_installs dev ⟨none⟩ phy hw0 hw ctl rfl hreg hctl
  have hwf := installed_ctl_wf dev (line_count dev) curr rxt txt hh hrx htx l1 l2
  subst hc
  refine ⟨hwf, ?_⟩
  rw [lane_consistent, lane_curr_installed]
  unfold init_outcome at hinit
  cases hci : of_get_child_by_name dev.of_node (hook_name .CTL_INIT) with
  | none =>
    simp only [hci] at hinit
    obtain ⟨_, hcurr, hhw⟩ := hinit
    subst hcurr hhw
    refine ⟨fun p hp => Option.noConfusion hp, hlines, ?_⟩
    intro p s vals i v hp
    exact Option.noConfusion hp
  | some c =>
    simp only [hci] at hinit
    obtain ⟨hhw, hcase⟩ := hinit
    rcases hcase with ⟨hneg, h0, _⟩ | ⟨_, _, hcurr⟩
    · rw [← h0] at hneg
      exact absurd hneg (lt_irrefl 0)
    · subst hcurr hhw
      have hd : ∀ (rxt2 txt2 : Option (List ad9361_band_setting)),
          ad9361_ext_band_ctl.deref
            { hooked_ctl dev (line_count dev) with
                rx_curr_setting := some (.hook .CTL_INIT),
                tx_curr_setting := some (.hook .CTL_INIT),
                rx_settings := rxt2, tx_settings := txt2 } (.hook .CTL_INIT) =
            .ok (parsed_hook (line_count dev) c) := by
        intro rxt2 txt2
        simp [ad9361_ext_band_ctl.deref, ad9361_ext_band_ctl.hooks, hooked_ctl, hci]
      refine ⟨?_, ?_, ?_⟩
      · intro p hp
        cases hp
        exact ⟨_, hd rxt txt⟩
      · rw [drive_lines_length]
        exact hlines
      · intro p s vals i v hp hs hvals hi hv
        cases hp
        rw [hd rxt txt] at hs
        cases hs
        exact drive_consistent dev.drv hdrv (line_count dev) _ none hw0
          (parsed_hook_wf (line_count dev) c (hh .CTL_INIT c hci))
          (fun q pv hq => Option.noConfusion hq) hlines
          (fun q pv k w hq => Option.noConfusion hq) vals i v hvals hi hv

theorem run_calls_append (dev : device) (a b : List (Lane × Nat))
    (phy : Option ad9361_rf_phy) (hw : Hw) :
    run_calls dev (a ++ b) phy hw =
      match run_calls dev a phy hw with
      | .error e => .error e
      | .ok (p, h) => run_calls dev b p h := by
  induction a generalizing phy hw with
  | nil => rfl
  | cons call rest ih =>
    simp only [List.cons_append, run_calls]
    cases ad9361_adjust_ext_band_settings call.1 dev phy call.2 hw with
    | error e => rfl
    | ok r => exact ih r.2.1 r.2.2

/-- A run of frequency changes on one lane with a driver that does not fail preserves
the invariant of that lane. -/
theorem run_calls_lane_inv (lane : Lane) (dev : device) (hdrv : ∀ i v, 0 ≤ dev.drv i v)
    (n : Nat) (freqs : List Nat) (ctl : ad9361_ext_band_ctl) (hw hw1 : Hw)
    (phy1 : Option ad9361_rf_phy) (hinv : lane_inv n lane ctl hw)
    (hrun : run_calls dev (freqs.map (fun f => (lane, f))) (some ⟨some ctl⟩) hw =
      .ok (phy1, hw1)) :
    ∃ ctl1, phy1 = some ⟨some ctl1⟩ ∧ lane_inv n lane ctl1 hw1 := by
  induction freqs generalizing ctl hw with
  | nil =>
    simp only [List.map_nil, run_calls, Except.ok.injEq, Prod.mk.injEq] at hrun
    obtain ⟨hp, hh⟩ := hrun
    subst hp hh
    exact ⟨ctl, rfl, hinv⟩
  | cons f rest ih =>
    simp only [List.map_cons, run_calls] at hrun
    obtain ⟨res, hres⟩ : ∃ x,
        ad9361_adjust_ext_band_settings lane dev (some ⟨some ctl⟩) f hw = x := ⟨_, rfl⟩
    rw [hres] at hrun
    cases res with
    | error e => simp at hrun
    | ok r =>
      obtain ⟨ret, p2, h2⟩ := r
      simp only at hrun
      obtain ⟨ctl2, hp2, hinv2⟩ :=
        adjust_preserves_lane_inv lane dev hdrv n ctl f hw h2 ret p2 hinv hres
      subst hp2
      exact ih ctl2 h2 hinv2 hrun

/-! ## Frame of a frequency change -/

theorem find_first_loop_of_match (freq : Nat) (tbl : List ad9361_band_setting) (i : Nat)
    (h : ∃ e ∈ tbl, freq_in_range e freq = true) :
    ∃ k, find_first_loop freq tbl i = .ok (some k) := by
  induction tbl generalizing i with
  | nil =>
    obtain ⟨e, he, _⟩ := h
    simp at he
  | cons s rest ih =>
    unfold find_first_loop
    by_cases hs : freq_in_range s freq = true
    · exact ⟨i, by simp [hs]⟩
    · obtain ⟨e, he, hm⟩ := h
      have hrest : e ∈ rest := by
        rcases List.mem_cons.1 he with h1 | h1
        · subst h1
          exact absurd hm hs
        · exact h1
      obtain ⟨k, hk⟩ := ih (i + 1) ⟨e, hrest, hm⟩
      exact ⟨k, by simp [hs, hk]⟩

/-- The lookup on a table that serves the frequency returns; on a table that does not,
it reads the element past the end of the allocation. -/
theorem find_first_setting_cases (settings : Option (List ad9361_band_setting)) (f : Nat) :
    (has_match settings f = true → ∃ r, ad9361_find_first_setting settings f = .ok r) ∧
    (∀ tbl, settings = some tbl → has_match settings f = false →
      ad9361_find_first_setting settings f = .error (.out_of_bounds tbl.length)) := by
  constructor
  · intro hm
    cases settings with
    | none => exact ⟨none, rfl⟩
    | some tbl =>
      simp only [has_match, List.any_eq_true] at hm
      obtain ⟨k, hk⟩ := find_first_loop_of_match f tbl 0 hm
      exact ⟨some k, hk⟩
  · intro tbl ht hno
    subst ht
    simp only [has_match, List.any_eq_false] at hno
    have h := find_first_loop_no_match f tbl 0 (fun e he => by simpa using hno e he)
    rw [Nat.zero_add] at h
    exact h

/-- A frequency change of a lane returns when the controller is well formed, the
current setting of the lane points at one of its settings and the table of the lane
serves the frequency. -/
theorem adjust_returns (lane : Lane) (dev : device) (n : Nat) (ctl : ad9361_ext_band_ctl)
    (f : Nat) (hw : Hw) (hwf : ctl_wf n ctl)
    (hcurr : ∀ p, lane.curr_setting ctl = some p → ∃ s, ctl.deref p = .ok s)
    (hm : has_match (lane.settings ctl) f = true) :
    ∃ ret phy1 hw1, ad9361_adjust_ext_band_settings lane dev (some ⟨some ctl⟩) f hw =
      .ok (ret, phy1, hw1) := by
  rw [adjust_unfold]
  obtain ⟨r, hr⟩ := (find_first_setting_cases (lane.settings ctl) f).1 hm
  rw [hr]
  cases r with
  | none => exact ⟨_, _, _, rfl⟩
  | some i =>
    simp only
    by_cases hcur : lane.curr_setting ctl = some (lane.ptr i)
    · simp only [hcur, if_true]
      exact ⟨_, _, _, rfl⟩
    · simp only [hcur, if_false]
      obtain ⟨s, hs⟩ := find_deref lane ctl f i hr
      have hswf := deref_wf n ctl hwf (lane.ptr i) s hs
      obtain ⟨prev, hprev, hprevwf⟩ : ∃ prev : Option ad9361_band_setting,
          ctl.deref_opt (lane.curr_setting ctl) = .ok prev ∧
          (∀ q pv, prev = some q → q.gpio_values = some pv → pv.length = n) := by
        cases hc : lane.curr_setting ctl with
        | none => exact ⟨none, rfl, fun q pv hq => Option.noConfusion hq⟩
        | some p =>
          obtain ⟨sp, hsp⟩ := hcurr p hc
          refine ⟨some sp, by simp [ad9361_ext_band_ctl.deref_opt, hsp], ?_⟩
          intro q pv hq hpv
          cases hq
          exact (deref_wf n ctl hwf p sp hsp pv hpv).1
      rw [apply_settings_eq_drive dev.drv ctl (lane.ptr i) (lane.curr_setting ctl) s prev n hw
        hs hprev hswf hprevwf]
      by_cases hD : (drive dev.drv (expected_writes n s prev) hw).1 < 0
      · simp only [hD, if_true]
        exact ⟨_, _, _, rfl⟩
      · simp only [hD, if_false, lt_irrefl]
        exact ⟨_, _, _, rfl⟩

/-- A frequency change of a lane on a table that does not serve the frequency reads the
element past the end of the allocation. -/
theorem adjust_no_match (lane : Lane) (dev : device) (ctl : ad9361_ext_band_ctl) (f : Nat)
    (hw : Hw) (tbl : List ad9361_band_setting) (ht : lane.settings ctl = some tbl)
    (hno : has_match (lane.settings ctl) f = false) :
    ad9361_adjust_ext_band_settings lane dev (some ⟨some ctl⟩) f hw =
      .error (.out_of_bounds tbl.length) := by
  rw [adjust_unfold, (find_first_setting_cases (lane.settings ctl) f).2 tbl ht hno]

/-- C13: take a controller that is well formed for its lines, as construction builds
it, in which the current setting of the lane, if any, points at one of its settings.
When the table of the lane serves the frequency (there is no table, or some element
contains the frequency), the frequency change of the lane returns and leaves a
controller that differs from the one before at most in the current setting of that
lane: the hooks, both tables, the line bank and the current setting of the other lane
are unchanged; the current setting of the lane changes exactly when the lookup selects
an entry that is not the current one and the call returns 0, that is, its apply
succeeds, and it then points at the selected entry.  When the lane has a table and no
element of it contains the frequency, the call does not return: the lookup reads the
element past the end of the allocation. -/
theorem adjust_frame (lane : Lane) (dev : device) (n : Nat) (ctl : ad9361_ext_band_ctl)
    (f : Nat) (hw : Hw) (hwf : ctl_wf n ctl)
    (hcurr : ∀ p, lane.curr_setting ctl = some p → ∃ s, ctl.deref p = .ok s) :
    (has_match (lane.settings ctl) f = true →
      ∃ ret ctl1 hw1,
        ad9361_adjust_ext_band_settings lane dev (some ⟨some ctl⟩) f hw =
          .ok (ret, some ⟨some ctl1⟩, hw1) ∧
        ctl1.hooks_init = ctl.hooks_init ∧ ctl1.hooks_uninit = ctl.hooks_uninit ∧
        ctl1.rx_settings = ctl.rx_settings ∧ ctl1.tx_settings = ctl.tx_settings ∧
        ctl1.objs = ctl.objs ∧
        (∀ other : Lane, other ≠ lane → other.curr_setting ctl1 = other.curr_setting ctl) ∧
        (lane.curr_setting ctl1 ≠ lane.curr_setting ctl ↔
          ∃ i, ad9361_find_first_setting (lane.settings ctl) f = .ok (some i) ∧
            lane.curr_setting ctl ≠ some (lane.ptr i) ∧ ret = 0) ∧
        (lane.curr_setting ctl1 ≠ lane.curr_setting ctl →
          ∃ i, ad9361_find_first_setting (lane.settings ctl) f = .ok (some i) ∧
            lane.curr_setting ctl1 = some (lane.ptr i))) ∧
    (∀ tbl, lane.settings ctl = some tbl → has_match (lane.settings ctl) f = false →
      ad9361_adjust_ext_band_settings lane dev (some ⟨some ctl⟩) f hw =
        .error (.out_of_bounds tbl.length)) := by
  constructor
  · intro hm
    obtain ⟨ret, phy1, hw1, h⟩ := adjust_returns lane dev n ctl f hw hwf hcurr hm
    obtain ⟨ctl1, hp, rest⟩ := frame_of_returning_call lane dev ctl f hw hw1 ret phy1 h
    subst hp
    exact ⟨ret, ctl1, hw1, h, rest⟩
  · intro tbl ht hno
    exact adjust_no_match lane dev ctl f hw tbl ht hno

/-- C13 on the controller built from two lines and the rx bands [0,10) and [10,20):
tuning rx to 5 from an unset current setting returns 0 and changes `rx_curr_setting`
and nothing else of the controller; tuning rx to 25, which no band contains, reads
element 3 of the allocation of 3 elements. -/
theorem adjust_frame_witness :
    ad9361_adjust_ext_band_settings .rx gap_dev (some ⟨some gap_ctl⟩) 5 (fresh_hw 2) =
      .ok (0, some ⟨some { gap_ctl with rx_curr_setting := some (.rx 0) }⟩,
           { lines := [CTL_GPIO_OUT_LOW, CTL_GPIO_OUT_HIGH],
             log := [(0, CTL_GPIO_OUT_LOW), (1, CTL_GPIO_OUT_HIGH)] }) ∧
    has_match (Lane.rx.settings gap_ctl) 25 = false ∧
    ad9361_adjust_ext_band_settings .rx gap_dev (some ⟨some gap_ctl⟩) 25 (fresh_hw 2) =
      .error (.out_of_bounds 3) ∧
    (has_match (Lane.rx.settings gap_ctl) 5 = true →
      ∃ ret ctl1 hw1,
        ad9361_adjust_ext_band_settings .rx gap_dev (some ⟨some gap_ctl⟩) 5 (fresh_hw 2) =
          .ok (ret, some ⟨some ctl1⟩, hw1) ∧
        ctl1.hooks_init = gap_ctl.hooks_init ∧ ctl1.hooks_uninit = gap_ctl.hooks_uninit ∧
        ctl1.rx_settings = gap_ctl.rx_settings ∧ ctl1.tx_settings = gap_ctl.tx_settings ∧
        ctl1.objs = gap_ctl.objs ∧
        (∀ other : Lane, other ≠ Lane.rx →
          other.curr_setting ctl1 = other.curr_setting gap_ctl) ∧
        (Lane.rx.curr_setting ctl1 ≠ Lane.rx.curr_setting gap_ctl ↔
          ∃ i, ad9361_find_first_setting (Lane.rx.settings gap_ctl) 5 = .ok (some i) ∧
            Lane.rx.curr_setting gap_ctl ≠ some (Lane.rx.ptr i) ∧ ret = 0) ∧
        (Lane.rx.curr_setting ctl1 ≠ Lane.rx.curr_setting gap_ctl →
          ∃ i, ad9361_find_first_setting (Lane.rx.settings gap_ctl) 5 = .ok (some i) ∧
            Lane.rx.curr_setting ctl1 = some (Lane.rx.ptr i))) ∧
    (∀ tbl, Lane.rx.settings gap_ctl = some tbl →
      has_match (Lane.rx.settings gap_ctl) 25 = false →
      ad9361_adjust_ext_band_settings .rx gap_dev (some ⟨some gap_ctl⟩) 25 (fresh_hw 2) =
        .error (.out_of_bounds tbl.length)) :=
  ⟨by decide, by decide, by decide,
   (adjust_frame .rx gap_dev (line_count gap_dev) gap_ctl 5 (fresh_hw 2)
     (register_establishes_lane_inv gap_dev (fun _ _ => le_refl 0) (fresh_hw 2) (fresh_hw 2)
       ⟨some gap_ctl⟩ gap_ctl .rx (by decide) (by decide) rfl).1
     (fun p hp => Option.noConfusion hp)).1,
   (adjust_frame .rx gap_dev (line_count gap_dev) gap_ctl 25 (fresh_hw 2)
     (register_establishes_lane_inv gap_dev (fun _ _ => le_refl 0) (fresh_hw 2) (fresh_hw 2)
       ⟨some gap_ctl⟩ gap_ctl .rx (by decide) (by decide) rfl).1
     (fun p hp => Option.noConfusion hp)).2⟩

/-! ## Consistency of the lines with one lane -/

/-- One frequency change of a lane that its table serves, with a driver that does not
fail: the call returns, the invariant of the lane is preserved and the table of the
lane is the same. -/
theorem adjust_step (lane : Lane) (dev : device) (hdrv : ∀ i v, 0 ≤ dev.drv i v) (n : Nat)
    (ctl : ad9361_ext_band_ctl) (f : Nat) (hw : Hw) (hinv : lane_inv n lane ctl hw)
    (hm : has_match (lane.settings ctl) f = true) :
    ∃ ret ctl1 hw1,
      ad9361_adjust_ext_band_settings lane dev (some ⟨some ctl⟩) f hw =
        .ok (ret, some ⟨some ctl1⟩, hw1) ∧
      lane_inv n lane ctl1 hw1 ∧ lane.settings ctl1 = lane.settings ctl := by
  obtain ⟨ret, phy1, hw1, h⟩ := adjust_returns lane dev n ctl f hw hinv.1 hinv.2.1 hm
  obtain ⟨ctl1, hp, hinv1⟩ := adjust_preserves_lane_inv lane dev hdrv n ctl f hw hw1 ret phy1 hinv h
  obtain ⟨ctl2, hp2, _, _, hrx, htx, _⟩ := frame_of_returning_call lane dev ctl f hw hw1 ret phy1 h
  subst hp
  cases hp2
  refine ⟨ret, ctl1, hw1, h, hinv1, ?_⟩
  cases lane
  · exact hrx
  · exact htx

/-- A run of frequency changes on one lane that its table serves, with a driver that
does not fail: the run returns, the invariant of the lane is preserved and the table of
the lane is the same. -/
theorem run_calls_total (lane : Lane) (dev : device) (hdrv : ∀ i v, 0 ≤ dev.drv i v)
    (n : Nat) (freqs : List Nat) (ctl : ad9361_ext_band_ctl) (hw : Hw)
    (hinv : lane_inv n lane ctl hw)
    (hm : ∀ f ∈ freqs, has_match (lane.settings ctl) f = true) :
    ∃ ctl1 hw1,
      run_calls dev (freqs.map (fun f => (lane, f))) (some ⟨some ctl⟩) hw =
        .ok (some ⟨some ctl1⟩, hw1) ∧
      lane_inv n lane ctl1 hw1 ∧ lane.settings ctl1 = lane.settings ctl := by
  induction freqs generalizing ctl hw with
  | nil => exact ⟨ctl, hw, rfl, hinv, rfl⟩
  | cons f rest ih =>
    obtain ⟨ret, ctl1, hw1, h1, hinv1, hs1⟩ :=
      adjust_step lane dev hdrv n ctl f hw hinv (hm f (by simp))
    obtain ⟨ctl2, hw2, h2, hinv2, hs2⟩ := ih ctl1 hw1 hinv1 (fun g hg => by
      rw [hs1]
      exact hm g (by simp [hg]))
    refine ⟨ctl2, hw2, ?_, hinv2, by rw [hs2, hs1]⟩
    simp only [List.map_cons, run_calls, h1]
    exact h2

/-- C16: start from a controller that construction has just installed, on as many
lines as the configuration has line keys, and run a sequence of frequency changes on
one lane only, with a driver that never fails.  When the table of the lane serves every
frequency of the sequence (there is no table, or some element contains the frequency),
the run returns, and after each call (after the first `k` calls, for every `k`, and
after construction for `k = 0`) the lines agree with the current setting of that lane:
if the setting exists, has a line-value vector and its value at `i` is not NoOp, line
`i` is in that state.  When the sequence reaches a frequency that no element of the
table of the lane contains, that call does not return: the lookup reads the element
past the end of the allocation. -/
theorem single_lane_consistency (dev : device) (hw0 hw : Hw) (phy : ad9361_rf_phy)
    (ctl : ad9361_ext_band_ctl) (lane : Lane) (freqs : List Nat)
    (hdrv : ∀ i v, 0 ≤ dev.drv i v)
    (hlines : hw0.lines.length = line_count dev)
    (hreg : ad9361_register_ext_band_control dev ⟨none⟩ hw0 = .ok (0, phy, hw))
    (hctl : phy.ext_band_ctl = some ctl) :
    ((∀ f ∈ freqs, has_match (lane.settings ctl) f = true) →
      ∀ k, k ≤ freqs.length → ∃ ctlk hwk,
        run_calls dev ((freqs.take k).map (fun f => (lane, f))) (some phy) hw =
          .ok (some ⟨some ctlk⟩, hwk) ∧
        lane_consistent lane ctlk hwk) ∧
    (∀ (pre : List Nat) (f : Nat) (rest : List Nat) (tbl : List ad9361_band_setting),
      freqs = pre ++ f :: rest →
      (∀ g ∈ pre, has_match (lane.settings ctl) g = true) →
      lane.settings ctl = some tbl → has_match (lane.settings ctl) f = false →
      run_calls dev (freqs.map (fun f => (lane, f))) (some phy) hw =
        .error (.out_of_bounds tbl.length)) := by
  have hinv := register_establishes_lane_inv dev hdrv hw0 hw phy ctl lane hlines hreg hctl
  obtain ⟨c⟩ := phy
  simp only at hctl
  subst hctl
  constructor
  · intro hm k _
    obtain ⟨ctlk, hwk, hrun, hinvk, _⟩ := run_calls_total lane dev hdrv (line_count dev)
      (freqs.take k) ctl hw hinv (fun f hf => hm f (List.mem_of_mem_take hf))
    exact ⟨ctlk, hwk, hrun, hinvk.2.2.2⟩
  · intro pre f rest tbl hsplit hpre ht hno
    obtain ⟨ctl1, hw1, hrun, _, hs⟩ := run_calls_total lane dev hdrv (line_count dev)
      pre ctl hw hinv hpre
    rw [hsplit, List.map_append, run_calls_append, hrun]
    simp only [List.map_cons, run_calls]
    rw [adjust_no_match lane dev ctl1 f hw1 tbl (by rw [hs]; exact ht) (by rw [hs]; exact hno)]

/-- C16 on two lines and the rx bands [0,10) with [Low,High] and [10,20) with
[High,Low]: after construction and the rx frequency changes 5, 15, 5 the lines are
[Low,High], the vector of the current rx setting; the run 5, 25 stops at 25, which no
band contains, where the lookup reads element 3 of the allocation of 3 elements. -/
theorem single_lane_consistency_witness :
    run_calls gap_dev ([5, 15, 5].map (fun f => (Lane.rx, f))) (some ⟨some gap_ctl⟩)
        (fresh_hw 2) =
      .ok (some ⟨some { gap_ctl with rx_curr_setting := some (.rx 0) }⟩,
           { lines := [CTL_GPIO_OUT_LOW, CTL_GPIO_OUT_HIGH],
             log := [(0, CTL_GPIO_OUT_LOW), (1, CTL_GPIO_OUT_HIGH),
                     (0, CTL_GPIO_OUT_HIGH), (1, CTL_GPIO_OUT_LOW),
                     (0, CTL_GPIO_OUT_LOW), (1, CTL_GPIO_OUT_HIGH)] }) ∧
    run_calls gap_dev ([5, 25].map (fun f => (Lane.rx, f))) (some ⟨some gap_ctl⟩)
        (fresh_hw 2) = .error (.out_of_bounds 3) ∧
    (∀ f ∈ [5, 15, 5], has_match (Lane.rx.settings gap_ctl) f = true) ∧
    (∀ k, k ≤ [5, 15, 5].length → ∃ ctlk hwk,
      run_calls gap_dev (([5, 15, 5].take k).map (fun f => (Lane.rx, f)))
          (some ⟨some gap_ctl⟩) (fresh_hw 2) = .ok (some ⟨some ctlk⟩, hwk) ∧
      lane_consistent Lane.rx ctlk hwk) ∧
    has_match (Lane.rx.settings gap_ctl) 25 = false ∧
    (∀ tbl, Lane.rx.settings gap_ctl = some tbl →
      run_calls gap_dev ([5, 25].map (fun f => (Lane.rx, f))) (some ⟨some gap_ctl⟩)
          (fresh_hw 2) = .error (.out_of_bounds tbl.length)) :=
  ⟨by decide, by decide, by decide,
   (single_lane_consistency gap_dev (fresh_hw 2) (fresh_hw 2) ⟨some gap_ctl⟩ gap_ctl Lane.rx
     [5, 15, 5] (fun _ _ => le_refl 0) (by decide) (by decide) rfl).1 (by decide),
   by decide,
   fun tbl ht =>
     (single_lane_consistency gap_dev (fresh_hw 2) (fresh_hw 2) ⟨some gap_ctl⟩ gap_ctl Lane.rx
       [5, 25] (fun _ _ => le_refl 0) (by decide) (by decide) rfl).2 [5] 25 [] tbl rfl
       (by decide) ht (by decide)⟩

/-! ## The two lanes share the lines -/

/-- C17: one line, rx table [{[0,10), [OutputLow]}], tx table [{[0,10), [OutputHigh]}],
with a driver that never fails.  Construction succeeds.  After the calls rx(5), tx(5)
the current rx setting is element 0 of the rx table, which records OutputLow, a value
other than NoOp, for line 0, while line 0 is in the state OutputHigh; and a further
rx(5), which selects that same setting, returns 0 without any driver call and leaves
the line as it is. -/
theorem cross_lane_staleness :
    ad9361_register_ext_band_control cross_dev ⟨none⟩ (fresh_hw 1) =
      .ok (0, ⟨some (cross_ctl none none)⟩, fresh_hw 1) ∧
    run_calls cross_dev [(Lane.rx, 5), (Lane.tx, 5)] (some ⟨some (cross_ctl none none)⟩)
        (fresh_hw 1) =
      .ok (some ⟨some (cross_ctl (some (.rx 0)) (some (.tx 0)))⟩,
           { lines := [CTL_GPIO_OUT_HIGH],
             log := [(0, CTL_GPIO_OUT_LOW), (0, CTL_GPIO_OUT_HIGH)] }) ∧
    (∃ s, (cross_ctl (some (.rx 0)) (some (.tx 0))).deref (.rx 0) = .ok s ∧
      s.gpio_values = some [CTL_GPIO_OUT_LOW]) ∧
    CTL_GPIO_OUT_LOW ≠ CTL_GPIO_NOP ∧
    ({ lines := [CTL_GPIO_OUT_HIGH],
       log := [(0, CTL_GPIO_OUT_LOW), (0, CTL_GPIO_OUT_HIGH)] } : Hw).lines[0]? ≠
      some CTL_GPIO_OUT_LOW ∧
    ad9361_find_first_setting (cross_ctl (some (.rx 0)) (some (.tx 0))).rx_settings 5 =
      .ok (some 0) ∧
    ad9361_adjust_rx_ext_band_settings cross_dev
        (some ⟨some (cross_ctl (some (.rx 0)) (some (.tx 0)))⟩) 5
        { lines := [CTL_GPIO_OUT_HIGH],
          log := [(0, CTL_GPIO_OUT_LOW), (0, CTL_GPIO_OUT_HIGH)] } =
      .ok (0, some ⟨some (cross_ctl (some (.rx 0)) (some (.tx 0)))⟩,
           { lines := [CTL_GPIO_OUT_HIGH],
             log := [(0, CTL_GPIO_OUT_LOW), (0, CTL_GPIO_OUT_HIGH)] }) := by
  refine ⟨by decide, by decide, ⟨_, rfl, rfl⟩, by decide, by decide, by decide, by decide⟩

/-! ## The scan of the lookup -/

/-- C18 (the scan leaves the table): for every allocated table and every frequency
that no element of the allocation contains, `ad9361_find_first_setting` reads the
element at the index `length`, one past the last element of the allocation.  For a
table of `n` parsed entries that is index `n + 1`. -/
theorem find_first_setting_reads_past_allocation (tbl : List ad9361_band_setting) (f : Nat)
    (hno : ∀ e ∈ tbl, ¬ (e.freq_min ≤ f ∧ f < e.freq_max)) :
    ad9361_find_first_setting (some tbl) f = .error (.out_of_bounds tbl.length) := by
  have h := find_first_loop_no_match f tbl 0 (by
    intro e he
    rw [Bool.eq_false_iff]
    intro ht
    exact hno e he ((freq_in_range_iff e f).1 ht))
  rw [Nat.zero_add] at h
  exact h

/-- C18 on the table built from the rx bands [0,10) and [10,20) (two parsed entries in
an allocation of three elements) at the frequency 25: the scan reads index 3. -/
theorem find_first_setting_reads_past_allocation_witness :
    gap_ctl.rx_settings.map List.length = some 3 ∧
    ad9361_find_first_setting gap_ctl.rx_settings 25 = .error (.out_of_bounds 3) :=
  ⟨by decide,
   find_first_setting_reads_past_allocation
     [{ name := some "adi_rx_band_setting_0", freq_min := 0, freq_max := 10,
        gpio_values := some [CTL_GPIO_OUT_LOW, CTL_GPIO_OUT_HIGH],
        objs := some { gpios := some { ndescs := 2 } } },
      { name := some "adi_rx_band_setting_1", freq_min := 10, freq_max := 20,
        gpio_values := some [CTL_GPIO_OUT_HIGH, CTL_GPIO_OUT_LOW],
        objs := some { gpios := some { ndescs := 2 } } },
      zero_setting] 25 (by decide)⟩

/-! ## The debug buffer of the parser -/

theorem snprintf_item_len_valid (v : Nat) (h : lctl_gpio_value_valid v = true) :
    snprintf_item_len v = 2 := by
  rcases (lctl_gpio_value_valid_iff v).1 h with h | h | h | h <;> subst h <;> decide

/-- On valid codes the write offset of iteration `k` is `pidx + 2 * k`. -/
theorem pidx_trace_valid (vals : List Nat) (hvalid : ∀ v ∈ vals, lctl_gpio_value_valid v = true)
    (fuel i : Nat) (pidx : Int) (hi : i + fuel ≤ vals.length) :
    pidx_trace vals fuel i pidx =
      (List.range fuel).map (fun (k : Nat) => pidx + 2 * (k : Int)) := by
  induction fuel generalizing i pidx with
  | zero => rfl
  | succ fuel ih =>
    have hlt : i < vals.length := by omega
    have hD : vals.getD i 0 = vals[i] := by simp [List.getD, List.getElem?_eq_getElem hlt]
    have hv := hvalid vals[i] (List.getElem_mem hlt)
    unfold pidx_trace
    rw [hD, if_pos hv, snprintf_item_len_valid _ hv, ih (i + 1) _ (by omega),
      List.range_succ_eq_map, List.map_cons, List.map_map]
    congr 1
    · simp
    · apply List.map_congr_left
      intro k _
      simp only [Function.comp_apply]
      push_cast
      ring

/-- Up to 129 lines every write offset of the formatting loop stays within the
buffer. -/
theorem pidx_trace_small (vals : List Nat)
    (hvalid : ∀ v ∈ vals, lctl_gpio_value_valid v = true) (hn : vals.length ≤ 129) :
    ∀ p ∈ pidx_trace vals vals.length 0 0, 0 ≤ p ∧ p ≤ PBUF_SIZE := by
  rw [pidx_trace_valid vals hvalid vals.length 0 0 (by omega)]
  intro p hp
  simp only [List.mem_map, List.mem_range] at hp
  obtain ⟨k, hk, rfl⟩ := hp
  simp only [PBUF_SIZE]
  constructor <;> omega

/-- C19 (failing inputs): for every line count `n` from 130 to 256 and every valid
settings array of length `n`, the `snprintf` call of iteration 129 of the formatting
loop of `ad9361_parse_gpio_settings` is made at the write offset 258, which is above
the size 256 of `pbuf`, and with the size argument `256 - 258`, which is negative. -/
theorem pidx_exceeds_pbuf (vals : List Nat) (n : Nat) (hlen : vals.length = n)
    (hvalid : ∀ v ∈ vals, v = 0 ∨ v = 1 ∨ v = 2 ∨ v = 3) (hlo : 130 ≤ n)
    (_hmax : n ≤ MAX_CTRL_GPIOS) :
    ∃ p, (pidx_trace vals n 0 0)[129]? = some p ∧ p = 258 ∧ ¬ p ≤ PBUF_SIZE ∧
      PBUF_SIZE - p < 0 := by
  have hv : ∀ v ∈ vals, lctl_gpio_value_valid v = true :=
    fun v hm => (lctl_gpio_value_valid_iff v).2 (hvalid v hm)
  refine ⟨258, ?_, rfl, by decide, by decide⟩
  rw [pidx_trace_valid vals hv n 0 0 (by omega), List.getElem?_map,
    List.getElem?_range (by omega)]
  rfl

/-- C19 at 130 lines and the array of 130 codes NoOp: the `snprintf` call of the last
iteration is made at the write offset 258. -/
theorem pidx_exceeds_pbuf_witness :
    ∃ p, (pidx_trace (List.replicate 130 CTL_GPIO_NOP) 130 0 0)[129]? = some p ∧ p = 258 ∧
      ¬ p ≤ PBUF_SIZE ∧ PBUF_SIZE - p < 0 :=
  pidx_exceeds_pbuf (List.replicate 130 CTL_GPIO_NOP) 130 (List.length_replicate 130 _)
    (fun _ hv => Or.inl (List.eq_of_mem_replicate hv)) (by decide) (by decide)

end Ad9361
